import Mathlib

/-!
Verification development for the constellation-tech repository.

The definitions below are a shallow embedding of the label-placement engine in
`backend/services/text_overlay_service.py`, of the star-to-technology mapper in
`backend/services/technology_mapper.py`, of the template store in
`backend/utils/constellation_templates.py`, and of the connection-line drawing
loop in `backend/services/image_composer.py`.

Modelling conventions:
- Python floats are modelled by an arbitrary `LinearOrderedField` (instantiated
  at `ℝ` in the theorems about the real trigonometric instantiation, and at `ℚ`
  for executable witnesses).  The transcendental operations used by the code
  (`math.pi`, `math.sqrt`, `math.cos`, `math.sin`, `math.atan2`) are bundled in
  a `RealOps` record; the faithful instantiation used in claim statements is
  `⟨Real.pi, Real.sqrt, Real.cos, Real.sin, fun y x => Complex.arg ⟨x, y⟩⟩`.
- Python ints are `ℤ`; `int(r)` (truncation toward zero) is `itrunc`;
  Python `//` (floor division) is `Int.fdiv`.
- `math.hypot dx dy` is `sqrt (dx ^ 2 + dy ^ 2)`.
- PIL text measurement is an external collaborator: a text measured at anchor
  `(x, y)` is modelled as the box `(x, y, x + w, y + h)` where `(w, h)` are the
  measured text width/height, which the embedding takes as inputs (this matches
  `spec.md` §6, which lists font metrics among the engine inputs).
- Python `list.sort(key=k, reverse=True)` is a stable descending sort; it is
  modelled by insertion sort `sortByDesc`, which is proved below to be a stable
  descending sort (permutation + pairwise ordered + ties keep list order).
-/

/-! ### Stable descending insertion sort (model of `list.sort(key, reverse=True)`) -/

/-- Insert `x` into a descending-sorted list: `x` goes in front of the first
element whose key is ≤ the key of `x` (so among equal keys, `x` lands first). -/
def insertDesc {β γ : Type} [LinearOrder γ] (key : β → γ) (x : β) : List β → List β
  | [] => [x]
  | y :: ys => if key y ≤ key x then x :: y :: ys else y :: insertDesc key x ys

/-- Stable descending sort by a key, as produced by Python
`list.sort(key=key, reverse=True)`: elements with equal keys keep their
original relative order. -/
def sortByDesc {β γ : Type} [LinearOrder γ] (key : β → γ) : List β → List β
  | [] => []
  | x :: xs => insertDesc key x (sortByDesc key xs)

theorem insertDesc_cons_of_le {β γ : Type} [LinearOrder γ] (key : β → γ) (x y : β)
    (ys : List β) (h : key y ≤ key x) :
    insertDesc key x (y :: ys) = x :: y :: ys := by
  simp only [insertDesc, if_pos h]

theorem insertDesc_cons_of_gt {β γ : Type} [LinearOrder γ] (key : β → γ) (x y : β)
    (ys : List β) (h : ¬ key y ≤ key x) :
    insertDesc key x (y :: ys) = y :: insertDesc key x ys := by
  simp only [insertDesc, if_neg h]

theorem insertDesc_perm {β γ : Type} [LinearOrder γ] (key : β → γ) (x : β) :
    ∀ l : List β, (insertDesc key x l).Perm (x :: l)
  | [] => List.Perm.refl _
  | y :: ys => by
    by_cases h : key y ≤ key x
    · rw [insertDesc_cons_of_le key x y ys h]
    · rw [insertDesc_cons_of_gt key x y ys h]
      exact ((insertDesc_perm key x ys).cons y).trans (List.Perm.swap x y ys)

theorem sortByDesc_perm {β γ : Type} [LinearOrder γ] (key : β → γ) :
    ∀ l : List β, (sortByDesc key l).Perm l
  | [] => List.Perm.refl _
  | x :: xs => by
    rw [sortByDesc]
    exact (insertDesc_perm key x (sortByDesc key xs)).trans
      ((sortByDesc_perm key xs).cons x)

theorem insertDesc_pairwise {β γ : Type} [LinearOrder γ] (key : β → γ)
    (Q : β → β → Prop) (x : β) :
    ∀ l : List β,
      l.Pairwise (fun a b => key b < key a ∨ (key a = key b ∧ Q a b)) →
      (∀ y ∈ l, Q x y) →
      (insertDesc key x l).Pairwise
        (fun a b => key b < key a ∨ (key a = key b ∧ Q a b))
  | [], _, _ => List.pairwise_singleton _ x
  | y :: ys, hl, hx => by
    rcases List.pairwise_cons.mp hl with ⟨hy, hys⟩
    by_cases h : key y ≤ key x
    · rw [insertDesc_cons_of_le key x y ys h]
      refine List.pairwise_cons.mpr ⟨?_, hl⟩
      intro z hz
      have hzy : key z ≤ key y := by
        rcases List.mem_cons.mp hz with rfl | hz'
        · exact le_refl _
        · rcases hy z hz' with h1 | h1
          · exact le_of_lt h1
          · exact le_of_eq h1.1.symm
      have hzx : key z ≤ key x := le_trans hzy h
      rcases lt_or_eq_of_le hzx with h2 | h2
      · exact Or.inl h2
      · exact Or.inr ⟨h2.symm, hx z hz⟩
    · rw [insertDesc_cons_of_gt key x y ys h]
      refine List.pairwise_cons.mpr ⟨?_, ?_⟩
      · intro z hz
        have hz' : z = x ∨ z ∈ ys :=
          List.mem_cons.mp ((List.Perm.mem_iff (insertDesc_perm key x ys)).mp hz)
        rcases hz' with rfl | hz'
        · exact Or.inl (lt_of_not_le h)
        · exact hy z hz'
      · exact insertDesc_pairwise key Q x ys hys (fun z hz => hx z (List.mem_cons_of_mem y hz))

/-- The stable descending sort is sorted: descending in the key, and any
property `Q` holding pairwise in list order is preserved on key ties
(stability). -/
theorem sortByDesc_pairwise {β γ : Type} [LinearOrder γ] (key : β → γ)
    (Q : β → β → Prop) :
    ∀ l : List β, l.Pairwise Q →
      (sortByDesc key l).Pairwise
        (fun a b => key b < key a ∨ (key a = key b ∧ Q a b))
  | [], _ => List.Pairwise.nil
  | x :: xs, hl => by
    rw [sortByDesc]
    rcases List.pairwise_cons.mp hl with ⟨hx, hxs⟩
    refine insertDesc_pairwise key Q x (sortByDesc key xs)
      (sortByDesc_pairwise key Q xs hxs) ?_
    intro y hy
    exact hx y ((sortByDesc_perm key xs).mem_iff.mp hy)

theorem insertDesc_const_key {β γ : Type} [LinearOrder γ] (key : β → γ) (c : γ)
    (x : β) (l : List β) (hx : key x = c) (hh : ∀ y ∈ l, key y = c) :
    insertDesc key x l = x :: l := by
  cases l with
  | nil => rfl
  | cons y ys =>
    refine insertDesc_cons_of_le key x y ys ?_
    rw [hx, hh y (List.mem_cons_self y ys)]

/-- Sorting a list whose keys are all equal does nothing (stability on a
constant key). -/
theorem sortByDesc_const_key {β γ : Type} [LinearOrder γ] (key : β → γ) (c : γ) :
    ∀ l : List β, (∀ y ∈ l, key y = c) → sortByDesc key l = l
  | [], _ => rfl
  | x :: xs, hh => by
    rw [sortByDesc, sortByDesc_const_key key c xs
      (fun y hy => hh y (List.mem_cons_of_mem x hy))]
    exact insertDesc_const_key key c x xs (hh x (List.mem_cons_self x xs))
      (fun y hy => hh y (List.mem_cons_of_mem x hy))

/-! ### Numeric primitives -/

/-- The bundle of real-valued operations used by the placement code
(`math.pi`, `math.sqrt`, `math.cos`, `math.sin`, `math.atan2`).  The faithful
real instantiation is `⟨Real.pi, Real.sqrt, Real.cos, Real.sin,
fun y x => Complex.arg ⟨x, y⟩⟩`. -/
structure RealOps (α : Type) where
  pi : α
  sqrt : α → α
  cos : α → α
  sin : α → α
  atan2 : α → α → α

/-- Python `int(r)`: truncation toward zero. -/
def itrunc {α : Type} [LinearOrderedField α] [FloorRing α] (x : α) : ℤ :=
  if 0 ≤ x then ⌊x⌋ else ⌈x⌉

/-- An axis-aligned box `(x1, y1, x2, y2)`, as the 4-tuples used throughout
`text_overlay_service.py`. -/
structure Box where
  x1 : ℤ
  y1 : ℤ
  x2 : ℤ
  y2 : ℤ
deriving DecidableEq, Repr

/-- The single-pair axis-aligned overlap test from `_boxes_overlap`
(`text_overlay_service.py` line 615): overlap unless one box is strictly to
the left/right/above/below the other.  This is `rects_overlap` of the spec. -/
def rectsOverlap (a b : Box) : Prop :=
  ¬ (a.x2 < b.x1 ∨ a.x1 > b.x2 ∨ a.y2 < b.y1 ∨ a.y1 > b.y2)

instance rectsOverlapDecidable (a b : Box) : Decidable (rectsOverlap a b) := by
  unfold rectsOverlap
  exact inferInstance

/-- `_boxes_overlap(box, boxes)`: the box overlaps some box of the list. -/
def boxesOverlap (a : Box) (l : List Box) : Prop :=
  ∃ b ∈ l, rectsOverlap a b

instance boxesOverlapDecidable (a : Box) (l : List Box) :
    Decidable (boxesOverlap a l) := by
  unfold boxesOverlap
  exact List.decidableBEx _ l

/-- `_point_in_box(point, box)` (`text_overlay_service.py` line 912):
`box[0] <= x <= box[2] and box[1] <= y <= box[3]`. -/
def pointInBox {α : Type} [LinearOrderedField α] (px py : α) (b : Box) : Prop :=
  (b.x1 : α) ≤ px ∧ px ≤ (b.x2 : α) ∧ (b.y1 : α) ≤ py ∧ py ≤ (b.y2 : α)

instance pointInBoxDecidable {α : Type} [LinearOrderedField α] (px py : α) (b : Box) :
    Decidable (pointInBox px py b) := by
  unfold pointInBox
  exact inferInstance

/-- `_min_angular_distance(angle1, angle2)` (`text_overlay_service.py`
line 895): `min(|a - b|, 2π - |a - b|)`, with `piv` standing for `math.pi`. -/
def minAngularDistance {α : Type} [LinearOrderedField α] (piv a b : α) : α :=
  min |a - b| (2 * piv - |a - b|)

/-- `_point_to_line_distance(point, p1, p2)` (`text_overlay_service.py`
lines 938-950): distance from the point to the infinite line through the two
endpoints, with an explicit branch to the Euclidean point distance when the
two endpoints coincide. -/
def pointToLineDistance {α : Type} [LinearOrderedField α] (ops : RealOps α)
    (px py x1 y1 x2 y2 : α) : α :=
  if x1 = x2 ∧ y1 = y2 then
    ops.sqrt ((px - x1) ^ 2 + (py - y1) ^ 2)
  else
    |(y2 - y1) * px - (x2 - x1) * py + x2 * y1 - y2 * x1| /
      ops.sqrt ((y2 - y1) ^ 2 + (x2 - x1) ^ 2)

/-! ### Exclusion zones (`_get_title_zone`, `_get_watermark_zone`) -/

/-- Canvas size plus the externally measured text sizes that the overlay code
obtains from PIL: the measured title text box and the measured watermark text
box (for the fixed watermark string). -/
structure OverlayConfig where
  canvasW : ℤ
  canvasH : ℤ
  titleW : ℤ
  titleH : ℤ
  wmW : ℤ
  wmH : ℤ
deriving DecidableEq, Repr

/-- `_get_title_zone(image_size, title)` (`text_overlay_service.py`
lines 703-722): title drawn centered at `y = 60`, zone padded by 15 px. -/
def titleZone (cfg : OverlayConfig) : Box :=
  ⟨Int.fdiv (cfg.canvasW - cfg.titleW) 2 - 15, 60 - 15,
   Int.fdiv (cfg.canvasW - cfg.titleW) 2 + cfg.titleW + 15, 60 + cfg.titleH + 15⟩

/-- `_get_watermark_zone(image_size)` (`text_overlay_service.py`
lines 738-762): watermark anchored bottom-right with `padding = 8`,
`margin = 20`; the zone is the background box padded by 8 px. -/
def watermarkZone (cfg : OverlayConfig) : Box :=
  ⟨cfg.canvasW - cfg.wmW - 16 - 20 - 8, cfg.canvasH - cfg.wmH - 16 - 20 - 8,
   cfg.canvasW - cfg.wmW - 16 - 20 + cfg.wmW + 8,
   cfg.canvasH - cfg.wmH - 16 - 20 + cfg.wmH + 8⟩

/-! ### Sector scoring (`_calculate_sector_scores`) -/

/-- Angles of the connections incident to star `starIdx`
(`_calculate_sector_scores` step 1, lines 995-1001): for each connection
containing the index, the `atan2` direction from the star to the other star. -/
def connectionAngles {α : Type} [LinearOrderedField α] (ops : RealOps α)
    (starIdx : ℕ) (sx sy : ℤ) (conns : List (ℕ × ℕ))
    (positions : List (ℤ × ℤ)) : List α :=
  conns.filterMap (fun c =>
    if c.1 = starIdx ∨ c.2 = starIdx then
      some (ops.atan2
        (((positions.getD (if c.1 = starIdx then c.2 else c.1) (0, 0)).2 : α) - (sy : α))
        (((positions.getD (if c.1 = starIdx then c.2 else c.1) (0, 0)).1 : α) - (sx : α)))
    else none)

/-- Hypothetical label-center x at distance `MIN_DISTANCE_FROM_STAR = 60` from
the star along the sector angle. -/
def testPointX {α : Type} [LinearOrderedField α] (ops : RealOps α)
    (sx : ℤ) (θ : α) : α :=
  (sx : α) + 60 * ops.cos θ

/-- Hypothetical label-center y at distance `MIN_DISTANCE_FROM_STAR = 60` from
the star along the sector angle. -/
def testPointY {α : Type} [LinearOrderedField α] (ops : RealOps α)
    (sy : ℤ) (θ : α) : α :=
  (sy : α) + 60 * ops.sin θ

/-- PENALTY 1 of `_calculate_sector_scores` (lines 1008-1014): for each
connection angle within 30° (= π/6 radians, `math.radians(30)`) of the sector
angle, subtract `50 * (1 - distance / 30°)`. -/
def connAnglePenaltyFold {α : Type} [LinearOrderedField α] (piv θ : α)
    (angles : List α) (s0 : α) : α :=
  angles.foldl (fun s a =>
    if minAngularDistance piv θ a < piv / 6 then
      s - 50 * (1 - minAngularDistance piv θ a / (piv / 6))
    else s) s0

/-- PENALTY 2 of `_calculate_sector_scores` (lines 1021-1028): the number of
already-occupied boxes whose center is within 100 px of the test point. -/
def labelNearCount {α : Type} [LinearOrderedField α] (ops : RealOps α)
    (tx ty : α) (occupied : List Box) : ℕ :=
  occupied.countP (fun b =>
    if ops.sqrt ((tx - ((b.x1 : α) + (b.x2 : α)) / 2) ^ 2 +
      (ty - ((b.y1 : α) + (b.y2 : α)) / 2) ^ 2) < 100 then true else false)

/-- PENALTY 5 of `_calculate_sector_scores` (lines 1042-1051): for every
connection line closer than 30 px to the test point, subtract
`30 * (1 - distance / 30)`. -/
def linePenaltyFold {α : Type} [LinearOrderedField α] (ops : RealOps α)
    (conns : List (ℕ × ℕ)) (positions : List (ℤ × ℤ)) (tx ty : α) (s0 : α) : α :=
  conns.foldl (fun s c =>
    if pointToLineDistance ops tx ty
         ((positions.getD c.1 (0, 0)).1 : α) ((positions.getD c.1 (0, 0)).2 : α)
         ((positions.getD c.2 (0, 0)).1 : α) ((positions.getD c.2 (0, 0)).2 : α) < 30 then
      s - 30 * (1 - pointToLineDistance ops tx ty
        ((positions.getD c.1 (0, 0)).1 : α) ((positions.getD c.1 (0, 0)).2 : α)
        ((positions.getD c.2 (0, 0)).1 : α) ((positions.getD c.2 (0, 0)).2 : α) / 30)
    else s) s0

/-- Score of one sector (`_calculate_sector_scores` lines 1004-1053): start at
100.0, then apply, in program order, the connection-angle penalty, 20 points
per nearby placed label, 200 points if the test point is inside the title
zone, 200 if inside the watermark zone, and the line-proximity penalty. -/
def sectorScore {α : Type} [LinearOrderedField α] (ops : RealOps α)
    (conns : List (ℕ × ℕ)) (positions : List (ℤ × ℤ)) (occupied : List Box)
    (cfg : OverlayConfig) (sx sy : ℤ) (connAngs : List α) (θ : α) : α :=
  linePenaltyFold ops conns positions (testPointX ops sx θ) (testPointY ops sy θ)
    ((if pointInBox (testPointX ops sx θ) (testPointY ops sy θ) (watermarkZone cfg) then
        (if pointInBox (testPointX ops sx θ) (testPointY ops sy θ) (titleZone cfg) then
          connAnglePenaltyFold ops.pi θ connAngs 100 -
            20 * (labelNearCount ops (testPointX ops sx θ) (testPointY ops sy θ) occupied : α) - 200
        else
          connAnglePenaltyFold ops.pi θ connAngs 100 -
            20 * (labelNearCount ops (testPointX ops sx θ) (testPointY ops sy θ) occupied : α)) - 200
      else
        (if pointInBox (testPointX ops sx θ) (testPointY ops sy θ) (titleZone cfg) then
          connAnglePenaltyFold ops.pi θ connAngs 100 -
            20 * (labelNearCount ops (testPointX ops sx θ) (testPointY ops sy θ) occupied : α) - 200
        else
          connAnglePenaltyFold ops.pi θ connAngs 100 -
            20 * (labelNearCount ops (testPointX ops sx θ) (testPointY ops sy θ) occupied : α))))

/-- `_calculate_sector_scores(...)` (lines 991-1057): score each of the
`numSectors` sectors (sector `i` centered at `i * 2π/numSectors`), then sort
`(angle, score)` pairs by descending score (stable Python sort). -/
def calculateSectorScores {α : Type} [LinearOrderedField α] (ops : RealOps α)
    (starIdx : ℕ) (sx sy : ℤ) (conns : List (ℕ × ℕ)) (positions : List (ℤ × ℤ))
    (occupied : List Box) (cfg : OverlayConfig) (numSectors : ℕ) : List (α × α) :=
  sortByDesc Prod.snd ((List.range numSectors).map (fun (i : ℕ) =>
    (((i : ℕ) : α) * (2 * ops.pi / ((numSectors : ℕ) : α)),
     sectorScore ops conns positions occupied cfg sx sy
       (connectionAngles ops starIdx sx sy conns positions)
       (((i : ℕ) : α) * (2 * ops.pi / ((numSectors : ℕ) : α))))))

/-! ### Candidate validation and the per-label search (`_find_label_position`) -/

/-- The candidate rectangle validated by `_find_label_position`
(lines 424-431): the measured text box at `(x, y)` padded by 4 px. -/
def mkTestBox (x y w h : ℤ) : Box :=
  ⟨x - 4, y - 4, x + w + 4, y + h + 4⟩

/-- The recorded label box produced by `_draw_premium_label`
(lines 314-323): the measured text box at `(x, y)` padded by 8 px. -/
def mkLabelBox (x y w h : ℤ) : Box :=
  ⟨x - 8, y - 8, x + w + 8, y + h + 8⟩

/-- The star loop of `_too_close_to_other_stars` (lines 579-596): walk the
stars; a star whose coordinates equal the current star is skipped
(`continue`); a remaining star closer than
`MIN_DISTANCE_FROM_OTHER_STARS = 40` px to the label-box center `(cx, cy)`
returns `True` immediately; otherwise `False` at the end. -/
def tooCloseLoop {α : Type} [LinearOrderedField α] (ops : RealOps α)
    (cx cy : α) (sx sy : ℤ) : List (ℤ × ℤ) → Bool
  | [] => false
  | p :: rest =>
    if p.1 = sx ∧ p.2 = sy then tooCloseLoop ops cx cy sx sy rest
    else if ops.sqrt (((p.1 : α) - cx) ^ 2 + ((p.2 : α) - cy) ^ 2) < 40 then true
    else tooCloseLoop ops cx cy sx sy rest

/-- `_too_close_to_other_stars(label_box, star_x, star_y, all_stars)`
(lines 574-596): the loop above run on the label-box center.  Note the
current star is skipped by coordinate equality, not identity. -/
def tooCloseToOtherStars {α : Type} [LinearOrderedField α] (ops : RealOps α)
    (tb : Box) (sx sy : ℤ) (allStars : List (ℤ × ℤ)) : Prop :=
  tooCloseLoop ops (((tb.x1 : α) + (tb.x2 : α)) / 2)
    (((tb.y1 : α) + (tb.y2 : α)) / 2) sx sy allStars = true

instance tooCloseDecidable {α : Type} [LinearOrderedField α] (ops : RealOps α)
    (tb : Box) (sx sy : ℤ) (allStars : List (ℤ × ℤ)) :
    Decidable (tooCloseToOtherStars ops tb sx sy allStars) := by
  unfold tooCloseToOtherStars
  exact inferInstance

theorem tooCloseLoop_iff {α : Type} [LinearOrderedField α] (ops : RealOps α)
    (cx cy : α) (sx sy : ℤ) :
    ∀ l : List (ℤ × ℤ),
      tooCloseLoop ops cx cy sx sy l = true ↔
        ∃ p ∈ l, ¬ (p.1 = sx ∧ p.2 = sy) ∧
          ops.sqrt (((p.1 : α) - cx) ^ 2 + ((p.2 : α) - cy) ^ 2) < 40
  | [] => by
    simp [tooCloseLoop]
  | p :: rest => by
    unfold tooCloseLoop
    by_cases heq : p.1 = sx ∧ p.2 = sy
    · rw [if_pos heq, tooCloseLoop_iff ops cx cy sx sy rest]
      constructor
      · rintro ⟨q, hq, hqs⟩
        exact ⟨q, List.mem_cons_of_mem p hq, hqs⟩
      · rintro ⟨q, hq, hqne, hqlt⟩
        rcases List.mem_cons.mp hq with rfl | hq'
        · exact absurd heq hqne
        · exact ⟨q, hq', hqne, hqlt⟩
    · rw [if_neg heq]
      by_cases hlt : ops.sqrt (((p.1 : α) - cx) ^ 2 + ((p.2 : α) - cy) ^ 2) < 40
      · rw [if_pos hlt]
        simp only [true_iff]
        exact ⟨p, List.mem_cons_self p rest, heq, hlt⟩
      · rw [if_neg hlt, tooCloseLoop_iff ops cx cy sx sy rest]
        constructor
        · rintro ⟨q, hq, hqs⟩
          exact ⟨q, List.mem_cons_of_mem p hq, hqs⟩
        · rintro ⟨q, hq, hqne, hqlt⟩
          rcases List.mem_cons.mp hq with rfl | hq'
          · exact absurd hqlt hlt
          · exact ⟨q, hq', hqne, hqlt⟩

/-- The proximity check holds exactly when some star at coordinates other
than the current star is strictly closer than 40 px to the label-box
center. -/
theorem tooCloseToOtherStars_iff {α : Type} [LinearOrderedField α]
    (ops : RealOps α) (tb : Box) (sx sy : ℤ) (allStars : List (ℤ × ℤ)) :
    tooCloseToOtherStars ops tb sx sy allStars ↔
      ∃ p ∈ allStars, ¬ (p.1 = sx ∧ p.2 = sy) ∧
        ops.sqrt (((p.1 : α) - ((tb.x1 : α) + (tb.x2 : α)) / 2) ^ 2 +
          ((p.2 : α) - ((tb.y1 : α) + (tb.y2 : α)) / 2) ^ 2) < 40 :=
  tooCloseLoop_iff ops _ _ sx sy allStars

/-- The sector loop of `_find_label_position` (lines 410-459): walk the sorted
`(angle, score)` list; skip scores below -100; place the label center at
distance 60 from the star along the sector angle, convert to a top-left
corner, and validate the 4 px-padded rectangle against canvas bounds, the
occupied boxes and star proximity; return the first valid `(x, y)`. -/
def trySectors {α : Type} [LinearOrderedField α] [FloorRing α] (ops : RealOps α)
    (sx sy w h : ℤ) (occupied : List Box) (cfg : OverlayConfig)
    (allStars : List (ℤ × ℤ)) : List (α × α) → Option (ℤ × ℤ)
  | [] => none
  | (θ, score) :: rest =>
    if score < -100 then trySectors ops sx sy w h occupied cfg allStars rest
    else
      if (mkTestBox (itrunc (testPointX ops sx θ - (w : α) / 2))
            (itrunc (testPointY ops sy θ - (h : α) / 2)) w h).x1 < 0 ∨
         (mkTestBox (itrunc (testPointX ops sx θ - (w : α) / 2))
            (itrunc (testPointY ops sy θ - (h : α) / 2)) w h).y1 < 0 ∨
         (mkTestBox (itrunc (testPointX ops sx θ - (w : α) / 2))
            (itrunc (testPointY ops sy θ - (h : α) / 2)) w h).x2 > cfg.canvasW ∨
         (mkTestBox (itrunc (testPointX ops sx θ - (w : α) / 2))
            (itrunc (testPointY ops sy θ - (h : α) / 2)) w h).y2 > cfg.canvasH then
        trySectors ops sx sy w h occupied cfg allStars rest
      else if boxesOverlap (mkTestBox (itrunc (testPointX ops sx θ - (w : α) / 2))
            (itrunc (testPointY ops sy θ - (h : α) / 2)) w h) occupied then
        trySectors ops sx sy w h occupied cfg allStars rest
      else if tooCloseToOtherStars ops (mkTestBox (itrunc (testPointX ops sx θ - (w : α) / 2))
            (itrunc (testPointY ops sy θ - (h : α) / 2)) w h) sx sy allStars then
        trySectors ops sx sy w h occupied cfg allStars rest
      else
        some (itrunc (testPointX ops sx θ - (w : α) / 2),
              itrunc (testPointY ops sy θ - (h : α) / 2))

/-- `_find_label_position(...)` (lines 347-459): score the 12 sectors, then
try them best-first; `none` models the Python `None` (unplaceable label). -/
def findLabelPosition {α : Type} [LinearOrderedField α] [FloorRing α]
    (ops : RealOps α) (sx sy w h : ℤ) (occupied : List Box)
    (cfg : OverlayConfig) (allStars : List (ℤ × ℤ)) (starIdx : ℕ)
    (conns : List (ℕ × ℕ)) (positions : List (ℤ × ℤ)) : Option (ℤ × ℤ) :=
  trySectors ops sx sy w h occupied cfg allStars
    (calculateSectorScores ops starIdx sx sy conns positions occupied cfg 12)

/-! ### The placement run (`add_tech_labels`) -/

/-- Number of connections incident to star `idx`
(`add_tech_labels` line 227: `len([c for c in connections if idx in c])`). -/
def connCount (idx : ℕ) (conns : List (ℕ × ℕ)) : ℕ :=
  conns.countP (fun c => decide (c.1 = idx ∨ c.2 = idx))

/-- The processing order of `add_tech_labels` (lines 224-231): label indices
with their connection counts, sorted by descending count (stable sort, so
ties keep ascending index order). -/
def processingOrder (n : ℕ) (conns : List (ℕ × ℕ)) : List (ℕ × ℕ) :=
  sortByDesc Prod.snd ((List.range n).map (fun i => (i, connCount i conns)))

/-- A star-technology mapping as consumed by `add_tech_labels`: the anchor
star coordinates together with the measured width/height of the label text. -/
def LabelMapping : Type := (ℤ × ℤ) × (ℤ × ℤ)

/-- The per-label loop of `add_tech_labels` (lines 239-277): process labels in
constraint order; for each, search a position; on success record the 8
px-padded label box as occupied, on failure skip the label and continue.
Returns one result per processed label. -/
def placeLoop {α : Type} [LinearOrderedField α] [FloorRing α] (ops : RealOps α)
    (cfg : OverlayConfig) (mappings : List LabelMapping) (conns : List (ℕ × ℕ))
    (positions : List (ℤ × ℤ)) : List (ℕ × ℕ) → List Box → List (Option Box)
  | [], _ => []
  | (idx, _) :: rest, occupied =>
    match findLabelPosition ops
        (mappings.getD idx ((0, 0), (0, 0))).1.1 (mappings.getD idx ((0, 0), (0, 0))).1.2
        (mappings.getD idx ((0, 0), (0, 0))).2.1 (mappings.getD idx ((0, 0), (0, 0))).2.2
        occupied cfg (mappings.map Prod.fst) idx conns positions with
    | none => none :: placeLoop ops cfg mappings conns positions rest occupied
    | some (x, y) =>
        some (mkLabelBox x y (mappings.getD idx ((0, 0), (0, 0))).2.1
              (mappings.getD idx ((0, 0), (0, 0))).2.2) ::
          placeLoop ops cfg mappings conns positions rest
            (occupied ++ [mkLabelBox x y (mappings.getD idx ((0, 0), (0, 0))).2.1
              (mappings.getD idx ((0, 0), (0, 0))).2.2])

/-- `add_tech_labels(...)` (lines 191-280): run the placement over all
mappings in constraint order, starting from an empty occupied set; one result
(placed box or skip) per label. -/
def addTechLabels {α : Type} [LinearOrderedField α] [FloorRing α] (ops : RealOps α)
    (cfg : OverlayConfig) (mappings : List LabelMapping) (conns : List (ℕ × ℕ))
    (positions : List (ℤ × ℤ)) : List (Option Box) :=
  placeLoop ops cfg mappings conns positions (processingOrder mappings.length conns) []

/-- The boxes of the successfully placed labels of a run, in placement order
(the final contents of `occupied_boxes`). -/
def placedBoxes {α : Type} [LinearOrderedField α] [FloorRing α] (ops : RealOps α)
    (cfg : OverlayConfig) (mappings : List LabelMapping) (conns : List (ℕ × ℕ))
    (positions : List (ℤ × ℤ)) : List Box :=
  (addTechLabels ops cfg mappings conns positions).filterMap id

/-- Shrink a box by `n` px on each side; `shrinkBox (mkLabelBox x y w h) 4`
is the 4 px-padded rectangle that `_find_label_position` validated. -/
def shrinkBox (b : Box) (n : ℤ) : Box :=
  ⟨b.x1 + n, b.y1 + n, b.x2 - n, b.y2 - n⟩

/-! ### The exception path of the sector scoring

`_calculate_sector_scores` indexes `star_positions` with connection
endpoints (`star_positions[other_idx]` at line 999 and
`star_positions[conn[0]]`, `star_positions[conn[1]]` at lines 1044-1045)
without any bounds check; a connection referencing an index outside the
positions list makes Python raise `IndexError`, which propagates out of
`_find_label_position` and `add_tech_labels` uncaught.  The following
fallible variants model that indexing exactly: `none` is the raised
exception, `some` a normal return. -/

/-- Python list indexing `lst[i]` for a natural index: `none` models the
`IndexError` raised when the index is out of range. -/
def pyGet {A : Type} : List A → ℕ → Option A
  | [], _ => none
  | a :: _, 0 => some a
  | _ :: l, n + 1 => pyGet l n

/-- The connection-angle loop (step 1 of `_calculate_sector_scores`,
lines 995-1001) with fallible indexing: for each connection incident to
`starIdx`, `star_positions[other_idx]` (line 999) raises for an
out-of-range other endpoint; the exception propagates as `none`. -/
def connAngleLoopE {α : Type} [LinearOrderedField α] (ops : RealOps α)
    (starIdx : ℕ) (sx sy : ℤ) (positions : List (ℤ × ℤ)) :
    List (ℕ × ℕ) → Option (List α)
  | [] => some []
  | c :: rest =>
    if c.1 = starIdx ∨ c.2 = starIdx then
      match pyGet positions (if c.1 = starIdx then c.2 else c.1) with
      | none => none
      | some p =>
        match connAngleLoopE ops starIdx sx sy positions rest with
        | none => none
        | some l =>
          some (ops.atan2 ((p.2 : α) - (sy : α)) ((p.1 : α) - (sx : α)) :: l)
    else connAngleLoopE ops starIdx sx sy positions rest

/-- The line-proximity penalty loop (PENALTY 5 of
`_calculate_sector_scores`, lines 1042-1051) with fallible indexing:
`star_positions[conn[0]]` and `star_positions[conn[1]]` (lines 1044-1045)
raise for an out-of-range endpoint of any connection, incident or not. -/
def linePenaltyLoopE {α : Type} [LinearOrderedField α] (ops : RealOps α)
    (positions : List (ℤ × ℤ)) (tx ty : α) : List (ℕ × ℕ) → α → Option α
  | [], s => some s
  | c :: rest, s =>
    match pyGet positions c.1, pyGet positions c.2 with
    | some p1, some p2 =>
      linePenaltyLoopE ops positions tx ty rest
        (if pointToLineDistance ops tx ty (p1.1 : α) (p1.2 : α)
             (p2.1 : α) (p2.2 : α) < 30 then
          s - 30 * (1 - pointToLineDistance ops tx ty (p1.1 : α) (p1.2 : α)
            (p2.1 : α) (p2.2 : α) / 30)
        else s)
    | _, _ => none

/-- Score of one sector with fallible indexing: penalties 1-4 as in
`sectorScore`, then the fallible PENALTY 5 loop. -/
def sectorScoreE {α : Type} [LinearOrderedField α] (ops : RealOps α)
    (conns : List (ℕ × ℕ)) (positions : List (ℤ × ℤ)) (occupied : List Box)
    (cfg : OverlayConfig) (sx sy : ℤ) (connAngs : List α) (θ : α) : Option α :=
  linePenaltyLoopE ops positions (testPointX ops sx θ) (testPointY ops sy θ) conns
    ((if pointInBox (testPointX ops sx θ) (testPointY ops sy θ) (watermarkZone cfg) then
        (if pointInBox (testPointX ops sx θ) (testPointY ops sy θ) (titleZone cfg) then
          connAnglePenaltyFold ops.pi θ connAngs 100 -
            20 * (labelNearCount ops (testPointX ops sx θ) (testPointY ops sy θ) occupied : α) - 200
        else
          connAnglePenaltyFold ops.pi θ connAngs 100 -
            20 * (labelNearCount ops (testPointX ops sx θ) (testPointY ops sy θ) occupied : α)) - 200
      else
        (if pointInBox (testPointX ops sx θ) (testPointY ops sy θ) (titleZone cfg) then
          connAnglePenaltyFold ops.pi θ connAngs 100 -
            20 * (labelNearCount ops (testPointX ops sx θ) (testPointY ops sy θ) occupied : α) - 200
        else
          connAnglePenaltyFold ops.pi θ connAngs 100 -
            20 * (labelNearCount ops (testPointX ops sx θ) (testPointY ops sy θ) occupied : α))))

/-- The per-sector scoring loop (step 2 of `_calculate_sector_scores`) with
fallible indexing: the first sector whose PENALTY 5 loop raises aborts the
whole computation. -/
def sectorScoresLoopE {α : Type} [LinearOrderedField α] (ops : RealOps α)
    (conns : List (ℕ × ℕ)) (positions : List (ℤ × ℤ)) (occupied : List Box)
    (cfg : OverlayConfig) (sx sy : ℤ) (numSectors : ℕ) (connAngs : List α) :
    List ℕ → Option (List (α × α))
  | [] => some []
  | i :: rest =>
    match sectorScoreE ops conns positions occupied cfg sx sy connAngs
        (((i : ℕ) : α) * (2 * ops.pi / ((numSectors : ℕ) : α))) with
    | none => none
    | some sc =>
      match sectorScoresLoopE ops conns positions occupied cfg sx sy numSectors
          connAngs rest with
      | none => none
      | some l =>
        some ((((i : ℕ) : α) * (2 * ops.pi / ((numSectors : ℕ) : α)), sc) :: l)

/-- `_calculate_sector_scores` with fallible indexing: compute the
connection angles (can raise), score every sector (can raise), then sort by
descending score. -/
def calculateSectorScoresE {α : Type} [LinearOrderedField α] (ops : RealOps α)
    (starIdx : ℕ) (sx sy : ℤ) (conns : List (ℕ × ℕ)) (positions : List (ℤ × ℤ))
    (occupied : List Box) (cfg : OverlayConfig) (numSectors : ℕ) :
    Option (List (α × α)) :=
  match connAngleLoopE ops starIdx sx sy positions conns with
  | none => none
  | some connAngs =>
    match sectorScoresLoopE ops conns positions occupied cfg sx sy numSectors
        connAngs (List.range numSectors) with
    | none => none
    | some l => some (sortByDesc Prod.snd l)

/-- `_find_label_position` with fallible indexing: an `IndexError` in the
sector scoring propagates (`none`); otherwise the sector walk runs as in
`findLabelPosition` and its `Option` result is returned normally. -/
def findLabelPositionE {α : Type} [LinearOrderedField α] [FloorRing α]
    (ops : RealOps α) (sx sy w h : ℤ) (occupied : List Box)
    (cfg : OverlayConfig) (allStars : List (ℤ × ℤ)) (starIdx : ℕ)
    (conns : List (ℕ × ℕ)) (positions : List (ℤ × ℤ)) :
    Option (Option (ℤ × ℤ)) :=
  match calculateSectorScoresE ops starIdx sx sy conns positions occupied cfg 12 with
  | none => none
  | some scores => some (trySectors ops sx sy w h occupied cfg allStars scores)

/-- The per-label loop of `add_tech_labels` with fallible indexing: an
`IndexError` raised by any label's search aborts the whole run (`none` - no
image is produced); otherwise the loop runs as `placeLoop`. -/
def placeLoopE {α : Type} [LinearOrderedField α] [FloorRing α] (ops : RealOps α)
    (cfg : OverlayConfig) (mappings : List LabelMapping) (conns : List (ℕ × ℕ))
    (positions : List (ℤ × ℤ)) :
    List (ℕ × ℕ) → List Box → Option (List (Option Box))
  | [], _ => some []
  | (idx, _) :: rest, occupied =>
    match findLabelPositionE ops
        (mappings.getD idx ((0, 0), (0, 0))).1.1 (mappings.getD idx ((0, 0), (0, 0))).1.2
        (mappings.getD idx ((0, 0), (0, 0))).2.1 (mappings.getD idx ((0, 0), (0, 0))).2.2
        occupied cfg (mappings.map Prod.fst) idx conns positions with
    | none => none
    | some none =>
      match placeLoopE ops cfg mappings conns positions rest occupied with
      | none => none
      | some l => some (none :: l)
    | some (some (x, y)) =>
      match placeLoopE ops cfg mappings conns positions rest
          (occupied ++ [mkLabelBox x y (mappings.getD idx ((0, 0), (0, 0))).2.1
            (mappings.getD idx ((0, 0), (0, 0))).2.2]) with
      | none => none
      | some l =>
        some (some (mkLabelBox x y (mappings.getD idx ((0, 0), (0, 0))).2.1
          (mappings.getD idx ((0, 0), (0, 0))).2.2) :: l)

/-- `add_tech_labels` with fallible indexing: `none` models the run dying
with an uncaught `IndexError` before any image is returned. -/
def addTechLabelsE {α : Type} [LinearOrderedField α] [FloorRing α] (ops : RealOps α)
    (cfg : OverlayConfig) (mappings : List LabelMapping) (conns : List (ℕ × ℕ))
    (positions : List (ℤ × ℤ)) : Option (List (Option Box)) :=
  placeLoopE ops cfg mappings conns positions
    (processingOrder mappings.length conns) []

/-! ### Star-technology mapper (`technology_mapper.py`) -/

/-- The fields of `TechData` relevant to the mapper: the score used for
sorting, plus an abstract identity standing for the name. -/
structure TechItem where
  ident : ℕ
  score : ℤ
deriving DecidableEq, Repr

/-- `TechnologyMapper.map(stars, technologies)` (`technology_mapper.py`
lines 54-115): empty inputs give no mappings; otherwise sort the technologies
by descending score (stable) and pair `stars[i]` with `sorted_techs[i]` for
`i < min(len(stars), len(techs))` (the Python loop over `range(mapping_count)`
is the zip of the two lists). -/
def mapStarsToTechs (stars : List (ℤ × ℤ)) (techs : List TechItem) :
    List ((ℤ × ℤ) × TechItem) :=
  if stars.isEmpty then []
  else if techs.isEmpty then []
  else stars.zip (sortByDesc TechItem.score techs)

/-! ### Template store and line rendering (`constellation_templates.py`,
`image_composer.py`) -/

/-- A constellation template: name, star coordinates, connections. -/
structure ConstellationTemplate where
  name : String
  stars : List (ℤ × ℤ)
  connections : List (ℕ × ℕ)
deriving DecidableEq, Repr

/-- `get_constellation_template(index)` (`constellation_templates.py`
lines 335-356): `templates[index % len(templates)]` over the catalog values;
no validation of any kind is performed. -/
def getConstellationTemplate (templates : List ConstellationTemplate)
    (index : ℕ) : ConstellationTemplate :=
  templates.getD (index % templates.length) ⟨"", [], []⟩

/-- The connection-line loop of `ImageComposer.compose`
(`image_composer.py` lines 220-236): an edge whose either index is out of
range is skipped with a warning; every other edge produces a drawn line
between the two star positions. -/
def composeLines (positions : List (ℤ × ℤ)) (conns : List (ℕ × ℕ)) :
    List ((ℤ × ℤ) × (ℤ × ℤ)) :=
  conns.filterMap (fun c =>
    if positions.length ≤ c.1 ∨ positions.length ≤ c.2 then none
    else some (positions.getD c.1 (0, 0), positions.getD c.2 (0, 0)))

/-! ### Cohen-Sutherland clipping (`_line_rectangle_intersect`, lines 764-846) -/

/-- A Cohen-Sutherland outcode: the four region bits LEFT/RIGHT/BOTTOM/TOP of
the source, represented as a record of flags instead of an integer bitmask. -/
structure Outcode where
  left : Bool
  right : Bool
  bottom : Bool
  top : Bool
deriving DecidableEq, Repr

/-- The INSIDE outcode (value 0 in the source). -/
def ocZero : Outcode := ⟨false, false, false, false⟩

/-- Bitwise AND of two outcodes (`outcode1 & outcode2`). -/
def ocAnd (a b : Outcode) : Outcode :=
  ⟨a.left && b.left, a.right && b.right, a.bottom && b.bottom, a.top && b.top⟩

/-- Bitwise OR of two outcodes; the set of outcode bits of the two endpoints. -/
def ocUnion (a b : Outcode) : Outcode :=
  ⟨a.left || b.left, a.right || b.right, a.bottom || b.bottom, a.top || b.top⟩

/-- Number of set bits of an outcode. -/
def ocCount (o : Outcode) : ℕ :=
  o.left.toNat + o.right.toNat + o.bottom.toNat + o.top.toNat

/-- `compute_outcode(x, y)` (lines 797-808), with the exact if/elif shape of
the source: LEFT excludes RIGHT and BOTTOM excludes TOP. -/
def computeOutcode {α : Type} [LinearOrderedField α]
    (xmin ymin xmax ymax x y : α) : Outcode :=
  ⟨if x < xmin then true else false,
   if ¬ x < xmin ∧ x > xmax then true else false,
   if y < ymin then true else false,
   if ¬ y < ymin ∧ y > ymax then true else false⟩

/-- A segment state of the clipping loop: the two (mutable) endpoints. -/
structure CSSeg (α : Type) where
  x1 : α
  y1 : α
  x2 : α
  y2 : α
deriving Repr

/-- The two endpoint outcodes of a segment state. -/
def csOutcodes {α : Type} [LinearOrderedField α]
    (xmin ymin xmax ymax : α) (s : CSSeg α) : Outcode × Outcode :=
  (computeOutcode xmin ymin xmax ymax s.x1 s.y1,
   computeOutcode xmin ymin xmax ymax s.x2 s.y2)

/-- Number of outcode bits set across the two endpoints of a state. -/
def csUnionCount {α : Type} [LinearOrderedField α]
    (xmin ymin xmax ymax : α) (s : CSSeg α) : ℕ :=
  ocCount (ocUnion (csOutcodes xmin ymin xmax ymax s).1
    (csOutcodes xmin ymin xmax ymax s).2)

/-- `outcode_out = outcode1 if outcode1 != 0 else outcode2` (line 824). -/
def csSelected {α : Type} [LinearOrderedField α]
    (xmin ymin xmax ymax : α) (s : CSSeg α) : Outcode :=
  if (csOutcodes xmin ymin xmax ymax s).1 ≠ ocZero then
    (csOutcodes xmin ymin xmax ymax s).1
  else (csOutcodes xmin ymin xmax ymax s).2

/-- The loop is in its clipping case (lines 821-846): not both endpoints
inside, and no outcode bit shared between the two endpoints. -/
def csClipCase {α : Type} [LinearOrderedField α]
    (xmin ymin xmax ymax : α) (s : CSSeg α) : Prop :=
  ¬ ((csOutcodes xmin ymin xmax ymax s).1 = ocZero ∧
     (csOutcodes xmin ymin xmax ymax s).2 = ocZero) ∧
  ocAnd (csOutcodes xmin ymin xmax ymax s).1 (csOutcodes xmin ymin xmax ymax s).2 = ocZero

/-- One clipping step (lines 826-846): intersect with the boundary named by
the first set bit of the selected outcode (TOP, BOTTOM, RIGHT, LEFT in the
elif order of the source) and replace the endpoint whose outcode equals the
selected one.  Outside the clipping case the result is unused junk. -/
def csClip {α : Type} [LinearOrderedField α]
    (xmin ymin xmax ymax : α) (s : CSSeg α) : CSSeg α :=
  if (csSelected xmin ymin xmax ymax s).top = true then
    (if csSelected xmin ymin xmax ymax s = (csOutcodes xmin ymin xmax ymax s).1 then
      ⟨s.x1 + (s.x2 - s.x1) * (ymax - s.y1) / (s.y2 - s.y1), ymax, s.x2, s.y2⟩
    else ⟨s.x1, s.y1, s.x1 + (s.x2 - s.x1) * (ymax - s.y1) / (s.y2 - s.y1), ymax⟩)
  else if (csSelected xmin ymin xmax ymax s).bottom = true then
    (if csSelected xmin ymin xmax ymax s = (csOutcodes xmin ymin xmax ymax s).1 then
      ⟨s.x1 + (s.x2 - s.x1) * (ymin - s.y1) / (s.y2 - s.y1), ymin, s.x2, s.y2⟩
    else ⟨s.x1, s.y1, s.x1 + (s.x2 - s.x1) * (ymin - s.y1) / (s.y2 - s.y1), ymin⟩)
  else if (csSelected xmin ymin xmax ymax s).right = true then
    (if csSelected xmin ymin xmax ymax s = (csOutcodes xmin ymin xmax ymax s).1 then
      ⟨xmax, s.y1 + (s.y2 - s.y1) * (xmax - s.x1) / (s.x2 - s.x1), s.x2, s.y2⟩
    else ⟨s.x1, s.y1, xmax, s.y1 + (s.y2 - s.y1) * (xmax - s.x1) / (s.x2 - s.x1)⟩)
  else if (csSelected xmin ymin xmax ymax s).left = true then
    (if csSelected xmin ymin xmax ymax s = (csOutcodes xmin ymin xmax ymax s).1 then
      ⟨xmin, s.y1 + (s.y2 - s.y1) * (xmin - s.x1) / (s.x2 - s.x1), s.x2, s.y2⟩
    else ⟨s.x1, s.y1, xmin, s.y1 + (s.y2 - s.y1) * (xmin - s.x1) / (s.x2 - s.x1)⟩)
  else s

/-- The `while True` loop of `_line_rectangle_intersect` (lines 814-846),
with explicit fuel: `none` models a loop that is still running after `fuel`
iterations. -/
def csLoop {α : Type} [LinearOrderedField α]
    (xmin ymin xmax ymax : α) : ℕ → CSSeg α → Option Bool
  | 0, _ => none
  | fuel + 1, s =>
    if (csOutcodes xmin ymin xmax ymax s).1 = ocZero ∧
       (csOutcodes xmin ymin xmax ymax s).2 = ocZero then some true
    else if ocAnd (csOutcodes xmin ymin xmax ymax s).1
        (csOutcodes xmin ymin xmax ymax s).2 ≠ ocZero then some false
    else csLoop xmin ymin xmax ymax fuel (csClip xmin ymin xmax ymax s)

/-- `_line_rectangle_intersect(p1, p2, rect)`: the clipping loop run with
fuel 5 (5 iterations always suffice for a proper rectangle, proved below). -/
def lineRectangleIntersect {α : Type} [LinearOrderedField α]
    (xmin ymin xmax ymax : α) (s : CSSeg α) : Option Bool :=
  csLoop xmin ymin xmax ymax 5 s

/-! ### Helper lemmas for evaluating the real instantiation -/

theorem realLit_pi :
    (⟨Real.pi, Real.sqrt, Real.cos, Real.sin, fun y x => Complex.arg ⟨x, y⟩⟩ :
      RealOps ℝ).pi = Real.pi := rfl

theorem realLit_sqrt :
    (⟨Real.pi, Real.sqrt, Real.cos, Real.sin, fun y x => Complex.arg ⟨x, y⟩⟩ :
      RealOps ℝ).sqrt = Real.sqrt := rfl

theorem realLit_cos :
    (⟨Real.pi, Real.sqrt, Real.cos, Real.sin, fun y x => Complex.arg ⟨x, y⟩⟩ :
      RealOps ℝ).cos = Real.cos := rfl

theorem realLit_sin :
    (⟨Real.pi, Real.sqrt, Real.cos, Real.sin, fun y x => Complex.arg ⟨x, y⟩⟩ :
      RealOps ℝ).sin = Real.sin := rfl

/-- Evaluation rule for Python `int()` on a nonnegative value. -/
theorem itrunc_eq_of_nonneg {α : Type} [LinearOrderedField α] [FloorRing α]
    (x : α) (n : ℤ) (h0 : 0 ≤ x) (h1 : (n : α) ≤ x) (h2 : x < n + 1) :
    itrunc x = n := by
  unfold itrunc
  rw [if_pos h0]
  exact Int.floor_eq_iff.mpr ⟨h1, by exact_mod_cast h2⟩

theorem sqrt3_lt : Real.sqrt 3 < 1.74 := by
  nlinarith [Real.sq_sqrt (by norm_num : (0:ℝ) ≤ 3), Real.sqrt_nonneg 3]

theorem sqrt3_gt : (1.73 : ℝ) < Real.sqrt 3 := by
  nlinarith [Real.sq_sqrt (by norm_num : (0:ℝ) ≤ 3), Real.sqrt_nonneg 3]

theorem cos_sec0 : Real.cos (((0:ℕ):ℝ) * (2 * Real.pi / ((12:ℕ):ℝ))) = 1 := by
  rw [show (((0:ℕ):ℝ) * (2 * Real.pi / ((12:ℕ):ℝ))) = 0 by push_cast; ring]
  exact Real.cos_zero

theorem sin_sec0 : Real.sin (((0:ℕ):ℝ) * (2 * Real.pi / ((12:ℕ):ℝ))) = 0 := by
  rw [show (((0:ℕ):ℝ) * (2 * Real.pi / ((12:ℕ):ℝ))) = 0 by push_cast; ring]
  exact Real.sin_zero

theorem cos_sec1 : Real.cos (((1:ℕ):ℝ) * (2 * Real.pi / ((12:ℕ):ℝ))) =
    Real.sqrt 3 / 2 := by
  rw [show (((1:ℕ):ℝ) * (2 * Real.pi / ((12:ℕ):ℝ))) = Real.pi / 6 by push_cast; ring]
  exact Real.cos_pi_div_six

theorem sin_sec1 : Real.sin (((1:ℕ):ℝ) * (2 * Real.pi / ((12:ℕ):ℝ))) = 1 / 2 := by
  rw [show (((1:ℕ):ℝ) * (2 * Real.pi / ((12:ℕ):ℝ))) = Real.pi / 6 by push_cast; ring]
  exact Real.sin_pi_div_six

theorem cos_sec2 : Real.cos (((2:ℕ):ℝ) * (2 * Real.pi / ((12:ℕ):ℝ))) = 1 / 2 := by
  rw [show (((2:ℕ):ℝ) * (2 * Real.pi / ((12:ℕ):ℝ))) = Real.pi / 3 by push_cast; ring]
  exact Real.cos_pi_div_three

theorem sin_sec2 : Real.sin (((2:ℕ):ℝ) * (2 * Real.pi / ((12:ℕ):ℝ))) =
    Real.sqrt 3 / 2 := by
  rw [show (((2:ℕ):ℝ) * (2 * Real.pi / ((12:ℕ):ℝ))) = Real.pi / 3 by push_cast; ring]
  exact Real.sin_pi_div_three

theorem cos_sec3 : Real.cos (((3:ℕ):ℝ) * (2 * Real.pi / ((12:ℕ):ℝ))) = 0 := by
  rw [show (((3:ℕ):ℝ) * (2 * Real.pi / ((12:ℕ):ℝ))) = Real.pi / 2 by push_cast; ring]
  exact Real.cos_pi_div_two

theorem sin_sec3 : Real.sin (((3:ℕ):ℝ) * (2 * Real.pi / ((12:ℕ):ℝ))) = 1 := by
  rw [show (((3:ℕ):ℝ) * (2 * Real.pi / ((12:ℕ):ℝ))) = Real.pi / 2 by push_cast; ring]
  exact Real.sin_pi_div_two

theorem cos_sec4 : Real.cos (((4:ℕ):ℝ) * (2 * Real.pi / ((12:ℕ):ℝ))) = -(1 / 2) := by
  rw [show (((4:ℕ):ℝ) * (2 * Real.pi / ((12:ℕ):ℝ))) = Real.pi - Real.pi / 3 by
    push_cast; ring]
  rw [Real.cos_pi_sub, Real.cos_pi_div_three]

theorem sin_sec4 : Real.sin (((4:ℕ):ℝ) * (2 * Real.pi / ((12:ℕ):ℝ))) =
    Real.sqrt 3 / 2 := by
  rw [show (((4:ℕ):ℝ) * (2 * Real.pi / ((12:ℕ):ℝ))) = Real.pi - Real.pi / 3 by
    push_cast; ring]
  rw [Real.sin_pi_sub, Real.sin_pi_div_three]

theorem cos_sec5 : Real.cos (((5:ℕ):ℝ) * (2 * Real.pi / ((12:ℕ):ℝ))) =
    -(Real.sqrt 3 / 2) := by
  rw [show (((5:ℕ):ℝ) * (2 * Real.pi / ((12:ℕ):ℝ))) = Real.pi - Real.pi / 6 by
    push_cast; ring]
  rw [Real.cos_pi_sub, Real.cos_pi_div_six]

theorem sin_sec5 : Real.sin (((5:ℕ):ℝ) * (2 * Real.pi / ((12:ℕ):ℝ))) = 1 / 2 := by
  rw [show (((5:ℕ):ℝ) * (2 * Real.pi / ((12:ℕ):ℝ))) = Real.pi - Real.pi / 6 by
    push_cast; ring]
  rw [Real.sin_pi_sub, Real.sin_pi_div_six]

theorem cos_sec6 : Real.cos (((6:ℕ):ℝ) * (2 * Real.pi / ((12:ℕ):ℝ))) = -1 := by
  rw [show (((6:ℕ):ℝ) * (2 * Real.pi / ((12:ℕ):ℝ))) = Real.pi by push_cast; ring]
  exact Real.cos_pi

theorem sin_sec6 : Real.sin (((6:ℕ):ℝ) * (2 * Real.pi / ((12:ℕ):ℝ))) = 0 := by
  rw [show (((6:ℕ):ℝ) * (2 * Real.pi / ((12:ℕ):ℝ))) = Real.pi by push_cast; ring]
  exact Real.sin_pi

theorem cos_sec7 : Real.cos (((7:ℕ):ℝ) * (2 * Real.pi / ((12:ℕ):ℝ))) =
    -(Real.sqrt 3 / 2) := by
  rw [show (((7:ℕ):ℝ) * (2 * Real.pi / ((12:ℕ):ℝ))) = Real.pi + Real.pi / 6 by
    push_cast; ring]
  rw [Real.cos_add, Real.cos_pi, Real.sin_pi, Real.cos_pi_div_six]
  ring

theorem sin_sec7 : Real.sin (((7:ℕ):ℝ) * (2 * Real.pi / ((12:ℕ):ℝ))) = -(1 / 2) := by
  rw [show (((7:ℕ):ℝ) * (2 * Real.pi / ((12:ℕ):ℝ))) = Real.pi + Real.pi / 6 by
    push_cast; ring]
  rw [Real.sin_add, Real.cos_pi, Real.sin_pi, Real.sin_pi_div_six]
  ring

theorem cos_sec8 : Real.cos (((8:ℕ):ℝ) * (2 * Real.pi / ((12:ℕ):ℝ))) = -(1 / 2) := by
  rw [show (((8:ℕ):ℝ) * (2 * Real.pi / ((12:ℕ):ℝ))) = Real.pi + Real.pi / 3 by
    push_cast; ring]
  rw [Real.cos_add, Real.cos_pi, Real.sin_pi, Real.cos_pi_div_three]
  ring

theorem sin_sec8 : Real.sin (((8:ℕ):ℝ) * (2 * Real.pi / ((12:ℕ):ℝ))) =
    -(Real.sqrt 3 / 2) := by
  rw [show (((8:ℕ):ℝ) * (2 * Real.pi / ((12:ℕ):ℝ))) = Real.pi + Real.pi / 3 by
    push_cast; ring]
  rw [Real.sin_add, Real.cos_pi, Real.sin_pi, Real.sin_pi_div_three]
  ring

theorem cos_sec9 : Real.cos (((9:ℕ):ℝ) * (2 * Real.pi / ((12:ℕ):ℝ))) = 0 := by
  rw [show (((9:ℕ):ℝ) * (2 * Real.pi / ((12:ℕ):ℝ))) = Real.pi + Real.pi / 2 by
    push_cast; ring]
  rw [Real.cos_add, Real.cos_pi, Real.sin_pi, Real.cos_pi_div_two]
  ring

theorem sin_sec9 : Real.sin (((9:ℕ):ℝ) * (2 * Real.pi / ((12:ℕ):ℝ))) = -1 := by
  rw [show (((9:ℕ):ℝ) * (2 * Real.pi / ((12:ℕ):ℝ))) = Real.pi + Real.pi / 2 by
    push_cast; ring]
  rw [Real.sin_add, Real.cos_pi, Real.sin_pi, Real.sin_pi_div_two]
  ring

theorem cos_sec10 : Real.cos (((10:ℕ):ℝ) * (2 * Real.pi / ((12:ℕ):ℝ))) = 1 / 2 := by
  rw [show (((10:ℕ):ℝ) * (2 * Real.pi / ((12:ℕ):ℝ))) = 2 * Real.pi - Real.pi / 3 by
    push_cast; ring]
  rw [Real.cos_sub, Real.cos_two_pi, Real.sin_two_pi, Real.cos_pi_div_three]
  ring

theorem sin_sec10 : Real.sin (((10:ℕ):ℝ) * (2 * Real.pi / ((12:ℕ):ℝ))) =
    -(Real.sqrt 3 / 2) := by
  rw [show (((10:ℕ):ℝ) * (2 * Real.pi / ((12:ℕ):ℝ))) = 2 * Real.pi - Real.pi / 3 by
    push_cast; ring]
  rw [Real.sin_sub, Real.cos_two_pi, Real.sin_two_pi, Real.sin_pi_div_three]
  ring

theorem cos_sec11 : Real.cos (((11:ℕ):ℝ) * (2 * Real.pi / ((12:ℕ):ℝ))) =
    Real.sqrt 3 / 2 := by
  rw [show (((11:ℕ):ℝ) * (2 * Real.pi / ((12:ℕ):ℝ))) = 2 * Real.pi - Real.pi / 6 by
    push_cast; ring]
  rw [Real.cos_sub, Real.cos_two_pi, Real.sin_two_pi, Real.cos_pi_div_six]
  ring

theorem sin_sec11 : Real.sin (((11:ℕ):ℝ) * (2 * Real.pi / ((12:ℕ):ℝ))) = -(1 / 2) := by
  rw [show (((11:ℕ):ℝ) * (2 * Real.pi / ((12:ℕ):ℝ))) = 2 * Real.pi - Real.pi / 6 by
    push_cast; ring]
  rw [Real.sin_sub, Real.cos_two_pi, Real.sin_two_pi, Real.sin_pi_div_six]
  ring

/-! ### C1: a concrete run whose placed label box overlaps the title zone -/

/-- Canvas and measured text sizes of the C1 run: canvas 1024x1024, title
measured 800x200, watermark measured 300x20. -/
def c1cfg : OverlayConfig := ⟨1024, 1024, 800, 200, 300, 20⟩

/-- One mapping: anchor star (512, 160), label text measured 40x20. -/
def c1mappings : List LabelMapping := [((512, 160), (40, 20))]

/-- Template star positions of the C1 run. -/
def c1positions : List (ℤ × ℤ) := [(512, 160)]

/-- With no edges, no occupied boxes, and the star 60 px inside the title
zone, all twelve sectors of the C1 run score exactly `100 - 200 = -100`:
every hypothetical test point lands inside the title zone. -/
theorem c1_score_eval (θ : ℝ) :
    sectorScore ⟨Real.pi, Real.sqrt, Real.cos, Real.sin, fun y x => Complex.arg ⟨x, y⟩⟩
      [] c1positions [] c1cfg 512 160 [] θ = -100 := by
  unfold sectorScore connAnglePenaltyFold linePenaltyFold labelNearCount
    testPointX testPointY
  rw [realLit_cos, realLit_sin]
  simp only [List.foldl_nil, List.countP_nil]
  have htz : titleZone c1cfg = ⟨97, 45, 927, 275⟩ := rfl
  have hwz : watermarkZone c1cfg = ⟨680, 960, 996, 996⟩ := rfl
  rw [htz, hwz]
  have htitle : pointInBox ((512:ℤ) + 60 * Real.cos θ : ℝ)
      ((160:ℤ) + 60 * Real.sin θ : ℝ) ⟨97, 45, 927, 275⟩ := by
    refine ⟨?_, ?_, ?_, ?_⟩ <;> push_cast <;>
      nlinarith [Real.neg_one_le_cos θ, Real.cos_le_one θ,
        Real.neg_one_le_sin θ, Real.sin_le_one θ]
  have hwm : ¬ pointInBox ((512:ℤ) + 60 * Real.cos θ : ℝ)
      ((160:ℤ) + 60 * Real.sin θ : ℝ) ⟨680, 960, 996, 996⟩ := by
    intro h
    have h1 := h.2.2.1
    push_cast at h1
    nlinarith [Real.sin_le_one θ]
  rw [if_neg hwm, if_pos htitle]
  norm_num

/-- The sector-score list of the single C1 label: twelve sectors, each scoring
exactly -100, kept in sector order by the stable sort. -/
theorem c1_scores :
    calculateSectorScores
      ⟨Real.pi, Real.sqrt, Real.cos, Real.sin, fun y x => Complex.arg ⟨x, y⟩⟩
      0 512 160 [] c1positions [] c1cfg 12 =
    (List.range 12).map (fun i =>
      (((i:ℕ):ℝ) * (2 * Real.pi / ((12:ℕ):ℝ)), -100)) := by
  unfold calculateSectorScores
  rw [show connectionAngles
      (⟨Real.pi, Real.sqrt, Real.cos, Real.sin, fun y x => Complex.arg ⟨x, y⟩⟩ :
        RealOps ℝ) 0 512 160 [] c1positions = [] from rfl]
  rw [realLit_pi]
  simp only [c1_score_eval]
  refine sortByDesc_const_key Prod.snd (-100) _ ?_
  intro y hy
  rcases List.mem_map.mp hy with ⟨i, _, rfl⟩
  rfl

/-- Unfolding rule of the sector loop on an empty sector list. -/
theorem trySectors_nil {α : Type} [LinearOrderedField α] [FloorRing α]
    (ops : RealOps α) (sx sy w h : ℤ) (occupied : List Box) (cfg : OverlayConfig)
    (allStars : List (ℤ × ℤ)) :
    trySectors ops sx sy w h occupied cfg allStars [] = none := rfl

/-- One-step unfolding rule of the sector loop. -/
theorem trySectors_cons {α : Type} [LinearOrderedField α] [FloorRing α]
    (ops : RealOps α) (sx sy w h : ℤ) (occupied : List Box) (cfg : OverlayConfig)
    (allStars : List (ℤ × ℤ)) (θ score : α) (rest : List (α × α)) :
    trySectors ops sx sy w h occupied cfg allStars ((θ, score) :: rest) =
      if score < -100 then trySectors ops sx sy w h occupied cfg allStars rest
      else
        if (mkTestBox (itrunc (testPointX ops sx θ - (w : α) / 2))
              (itrunc (testPointY ops sy θ - (h : α) / 2)) w h).x1 < 0 ∨
           (mkTestBox (itrunc (testPointX ops sx θ - (w : α) / 2))
              (itrunc (testPointY ops sy θ - (h : α) / 2)) w h).y1 < 0 ∨
           (mkTestBox (itrunc (testPointX ops sx θ - (w : α) / 2))
              (itrunc (testPointY ops sy θ - (h : α) / 2)) w h).x2 > cfg.canvasW ∨
           (mkTestBox (itrunc (testPointX ops sx θ - (w : α) / 2))
              (itrunc (testPointY ops sy θ - (h : α) / 2)) w h).y2 > cfg.canvasH then
          trySectors ops sx sy w h occupied cfg allStars rest
        else if boxesOverlap (mkTestBox (itrunc (testPointX ops sx θ - (w : α) / 2))
              (itrunc (testPointY ops sy θ - (h : α) / 2)) w h) occupied then
          trySectors ops sx sy w h occupied cfg allStars rest
        else if tooCloseToOtherStars ops (mkTestBox (itrunc (testPointX ops sx θ - (w : α) / 2))
              (itrunc (testPointY ops sy θ - (h : α) / 2)) w h) sx sy allStars then
          trySectors ops sx sy w h occupied cfg allStars rest
        else
          some (itrunc (testPointX ops sx θ - (w : α) / 2),
                itrunc (testPointY ops sy θ - (h : α) / 2)) := rfl

/-- The C1 per-label search returns sector 0 (angle 0): a score of exactly
-100 from the title-zone point penalty does not satisfy the `score < -100`
skip test, and the rectangle validation never looks at the zones. -/
theorem c1_find :
    findLabelPosition
      ⟨Real.pi, Real.sqrt, Real.cos, Real.sin, fun y x => Complex.arg ⟨x, y⟩⟩
      512 160 40 20 [] c1cfg [(512, 160)] 0 [] c1positions = some (552, 150) := by
  unfold findLabelPosition
  rw [c1_scores]
  rw [show (List.range 12) = [0, 1, 2, 3, 4, 5, 6, 7, 8, 9, 10, 11] from rfl]
  simp only [List.map_cons, List.map_nil]
  rw [trySectors_cons]
  have hx : itrunc (testPointX
      (⟨Real.pi, Real.sqrt, Real.cos, Real.sin, fun y x => Complex.arg ⟨x, y⟩⟩ :
        RealOps ℝ) 512 (((0:ℕ):ℝ) * (2 * Real.pi / ((12:ℕ):ℝ))) - ((40:ℤ):ℝ) / 2)
      = 552 := by
    unfold testPointX
    rw [realLit_cos, cos_sec0]
    exact itrunc_eq_of_nonneg _ 552 (by push_cast; norm_num)
      (by push_cast; norm_num) (by push_cast; norm_num)
  have hy : itrunc (testPointY
      (⟨Real.pi, Real.sqrt, Real.cos, Real.sin, fun y x => Complex.arg ⟨x, y⟩⟩ :
        RealOps ℝ) 160 (((0:ℕ):ℝ) * (2 * Real.pi / ((12:ℕ):ℝ))) - ((20:ℤ):ℝ) / 2)
      = 150 := by
    unfold testPointY
    rw [realLit_sin, sin_sec0]
    exact itrunc_eq_of_nonneg _ 150 (by push_cast; norm_num)
      (by push_cast; norm_num) (by push_cast; norm_num)
  rw [hx, hy]
  rw [if_neg (show ¬ ((-100:ℝ) < -100) by norm_num)]
  have hb : ¬ ((mkTestBox 552 150 40 20).x1 < 0 ∨ (mkTestBox 552 150 40 20).y1 < 0 ∨
      (mkTestBox 552 150 40 20).x2 > c1cfg.canvasW ∨
      (mkTestBox 552 150 40 20).y2 > c1cfg.canvasH) := by decide
  have hov : ¬ boxesOverlap (mkTestBox 552 150 40 20) [] := by
    simp [boxesOverlap]
  have hcl : ¬ tooCloseToOtherStars
      (⟨Real.pi, Real.sqrt, Real.cos, Real.sin, fun y x => Complex.arg ⟨x, y⟩⟩ :
        RealOps ℝ) (mkTestBox 552 150 40 20) 512 160 [(512, 160)] := by
    rw [tooCloseToOtherStars_iff]
    simp
  rw [if_neg hb, if_neg hov, if_neg hcl]

/-- C1: the exclusion invariant fails on the code.  In the concrete run with
one star at (512, 160), no edges, canvas 1024x1024, title measured 800x200
and watermark measured 300x20, the single label is successfully placed and
its recorded rectangle (544, 142, 600, 178) overlaps the title exclusion
zone (97, 45, 927, 275).  The sector scores are all exactly -100 (title-zone
point penalty), which passes the `score < -100` skip test, and
`_find_label_position` validates the candidate rectangle only against canvas
bounds, occupied label boxes and star proximity - contradicting its own
docstring, which lists the title and watermark zones among the collision
checks. -/
theorem c1_placed_box_overlaps_title_zone :
    placedBoxes ⟨Real.pi, Real.sqrt, Real.cos, Real.sin, fun y x => Complex.arg ⟨x, y⟩⟩
        c1cfg c1mappings [] c1positions = [⟨544, 142, 600, 178⟩] ∧
    rectsOverlap ⟨544, 142, 600, 178⟩ (titleZone c1cfg) := by
  constructor
  · unfold placedBoxes addTechLabels
    rw [show processingOrder (List.length c1mappings) [] = [(0, 0)] from rfl]
    simp only [placeLoop, c1mappings, List.getD_cons_zero, List.map_cons, List.map_nil]
    rw [c1_find]
    rfl
  · decide

/-! ### C2: a concrete run where two recorded label boxes overlap -/

theorem boolIf_eq_true {c : Prop} [Decidable c] :
    ((if c then true else false) = true) ↔ c := by
  by_cases h : c <;> simp [h]

/-- Canvas and measured text sizes of the C2 run: canvas 1024x1024, title
measured 400x30, watermark measured 300x20. -/
def c2cfg : OverlayConfig := ⟨1024, 1024, 400, 30, 300, 20⟩

/-- Two mappings: star (9, 920) with label measured 63x54, and star (75, 960)
with label measured 40x20.  No edges. -/
def c2mappings : List LabelMapping := [((9, 920), (63, 54)), ((75, 960), (40, 20))]

/-- Template star positions of the C2 run. -/
def c2positions : List (ℤ × ℤ) := [(9, 920), (75, 960)]

/-- First C2 label: with no edges and nothing occupied, and both exclusion
zones far away, every sector scores exactly 100. -/
theorem c2_l1_score (θ : ℝ) :
    sectorScore ⟨Real.pi, Real.sqrt, Real.cos, Real.sin, fun y x => Complex.arg ⟨x, y⟩⟩
      [] c2positions [] c2cfg 9 920 [] θ = 100 := by
  unfold sectorScore connAnglePenaltyFold linePenaltyFold labelNearCount
    testPointX testPointY
  rw [realLit_cos, realLit_sin]
  simp only [List.foldl_nil, List.countP_nil]
  rw [show titleZone c2cfg = ⟨297, 45, 727, 105⟩ from rfl,
    show watermarkZone c2cfg = ⟨680, 960, 996, 996⟩ from rfl]
  have htitle : ¬ pointInBox ((9:ℤ) + 60 * Real.cos θ : ℝ)
      ((920:ℤ) + 60 * Real.sin θ : ℝ) ⟨297, 45, 727, 105⟩ := by
    intro h
    have h1 := h.2.2.2
    push_cast at h1
    nlinarith [Real.neg_one_le_sin θ]
  have hwm : ¬ pointInBox ((9:ℤ) + 60 * Real.cos θ : ℝ)
      ((920:ℤ) + 60 * Real.sin θ : ℝ) ⟨680, 960, 996, 996⟩ := by
    intro h
    have h1 := h.1
    push_cast at h1
    nlinarith [Real.cos_le_one θ]
  rw [if_neg hwm, if_neg htitle]
  norm_num

/-- The sector-score list of the first C2 label: all twelve sectors score
100, kept in sector order by the stable sort. -/
theorem c2_l1_scores :
    calculateSectorScores
      ⟨Real.pi, Real.sqrt, Real.cos, Real.sin, fun y x => Complex.arg ⟨x, y⟩⟩
      0 9 920 [] c2positions [] c2cfg 12 =
    (List.range 12).map (fun i =>
      (((i:ℕ):ℝ) * (2 * Real.pi / ((12:ℕ):ℝ)), 100)) := by
  unfold calculateSectorScores
  rw [show connectionAngles
      (⟨Real.pi, Real.sqrt, Real.cos, Real.sin, fun y x => Complex.arg ⟨x, y⟩⟩ :
        RealOps ℝ) 0 9 920 [] c2positions = [] from rfl]
  rw [realLit_pi]
  simp only [c2_l1_score]
  refine sortByDesc_const_key Prod.snd 100 _ ?_
  intro y hy
  rcases List.mem_map.mp hy with ⟨i, _, rfl⟩
  rfl

/-- The first C2 label is placed at sector 0: top-left corner (37, 893). -/
theorem c2_l1_find :
    findLabelPosition
      ⟨Real.pi, Real.sqrt, Real.cos, Real.sin, fun y x => Complex.arg ⟨x, y⟩⟩
      9 920 63 54 [] c2cfg [(9, 920), (75, 960)] 0 [] c2positions =
      some (37, 893) := by
  unfold findLabelPosition
  rw [c2_l1_scores]
  rw [show (List.range 12) = [0, 1, 2, 3, 4, 5, 6, 7, 8, 9, 10, 11] from rfl]
  simp only [List.map_cons, List.map_nil]
  rw [trySectors_cons]
  have hx : itrunc (testPointX
      (⟨Real.pi, Real.sqrt, Real.cos, Real.sin, fun y x => Complex.arg ⟨x, y⟩⟩ :
        RealOps ℝ) 9 (((0:ℕ):ℝ) * (2 * Real.pi / ((12:ℕ):ℝ))) - ((63:ℤ):ℝ) / 2)
      = 37 := by
    unfold testPointX
    rw [realLit_cos, cos_sec0]
    exact itrunc_eq_of_nonneg _ 37 (by push_cast; norm_num)
      (by push_cast; norm_num) (by push_cast; norm_num)
  have hy : itrunc (testPointY
      (⟨Real.pi, Real.sqrt, Real.cos, Real.sin, fun y x => Complex.arg ⟨x, y⟩⟩ :
        RealOps ℝ) 920 (((0:ℕ):ℝ) * (2 * Real.pi / ((12:ℕ):ℝ))) - ((54:ℤ):ℝ) / 2)
      = 893 := by
    unfold testPointY
    rw [realLit_sin, sin_sec0]
    exact itrunc_eq_of_nonneg _ 893 (by push_cast; norm_num)
      (by push_cast; norm_num) (by push_cast; norm_num)
  rw [hx, hy]
  rw [if_neg (show ¬ ((100:ℝ) < -100) by norm_num)]
  have hb : ¬ ((mkTestBox 37 893 63 54).x1 < 0 ∨ (mkTestBox 37 893 63 54).y1 < 0 ∨
      (mkTestBox 37 893 63 54).x2 > c2cfg.canvasW ∨
      (mkTestBox 37 893 63 54).y2 > c2cfg.canvasH) := by decide
  have hov : ¬ boxesOverlap (mkTestBox 37 893 63 54) [] := by
    simp [boxesOverlap]
  have hcl : ¬ tooCloseToOtherStars
      (⟨Real.pi, Real.sqrt, Real.cos, Real.sin, fun y x => Complex.arg ⟨x, y⟩⟩ :
        RealOps ℝ) (mkTestBox 37 893 63 54) 9 920 [(9, 920), (75, 960)] := by
    rw [tooCloseToOtherStars_iff]
    rw [realLit_sqrt]
    rintro ⟨p, hp, hne, hlt⟩
    rcases List.mem_cons.mp hp with rfl | hp'
    · exact hne (by constructor <;> rfl)
    · rcases List.mem_cons.mp hp' with rfl | hp''
      · rw [Real.sqrt_lt' (by norm_num)] at hlt
        rw [show mkTestBox 37 893 63 54 = ⟨33, 889, 104, 951⟩ from rfl] at hlt
        push_cast at hlt
        nlinarith [hlt]
      · exact absurd hp'' (List.not_mem_nil p)
  rw [if_neg hb, if_neg hov, if_neg hcl]

/-- Second C2 label, sector 0: the test point is within 100 px
of the center of the recorded first box, so the sector scores 80. -/
theorem c2_l2_score0 :
    sectorScore ⟨Real.pi, Real.sqrt, Real.cos, Real.sin, fun y x => Complex.arg ⟨x, y⟩⟩
      [] c2positions [⟨29, 885, 108, 955⟩] c2cfg 75 960 []
      (((0:ℕ):ℝ) * (2 * Real.pi / ((12:ℕ):ℝ))) = 80 := by
  unfold sectorScore connAnglePenaltyFold linePenaltyFold labelNearCount
    testPointX testPointY
  rw [realLit_cos, realLit_sin, realLit_sqrt, cos_sec0, sin_sec0]
  simp only [List.foldl_nil, List.countP_cons, List.countP_nil, boolIf_eq_true]
  rw [show titleZone c2cfg = ⟨297, 45, 727, 105⟩ from rfl,
    show watermarkZone c2cfg = ⟨680, 960, 996, 996⟩ from rfl]
  split
  · rename_i h
    exfalso
    unfold pointInBox at h
    obtain ⟨h1, h2, h3, h4⟩ := h
    push_cast at h1
    nlinarith [sqrt3_lt, sqrt3_gt, Real.sq_sqrt (show (0:ℝ) ≤ 3 by norm_num), Real.sqrt_nonneg 3]
  · split
    · rename_i h
      exfalso
      unfold pointInBox at h
      obtain ⟨h1, h2, h3, h4⟩ := h
      push_cast at h4
      nlinarith [sqrt3_lt, sqrt3_gt, Real.sq_sqrt (show (0:ℝ) ≤ 3 by norm_num), Real.sqrt_nonneg 3]
    · split
      · push_cast
        norm_num
      · rename_i hc
        exfalso
        apply hc
        rw [Real.sqrt_lt' (by norm_num)]
        push_cast
        nlinarith [sqrt3_lt, sqrt3_gt, Real.sq_sqrt (show (0:ℝ) ≤ 3 by norm_num), Real.sqrt_nonneg 3]

/-- Second C2 label, sector 1: the test point is within 100 px
of the center of the recorded first box, so the sector scores 80. -/
theorem c2_l2_score1 :
    sectorScore ⟨Real.pi, Real.sqrt, Real.cos, Real.sin, fun y x => Complex.arg ⟨x, y⟩⟩
      [] c2positions [⟨29, 885, 108, 955⟩] c2cfg 75 960 []
      (((1:ℕ):ℝ) * (2 * Real.pi / ((12:ℕ):ℝ))) = 80 := by
  unfold sectorScore connAnglePenaltyFold linePenaltyFold labelNearCount
    testPointX testPointY
  rw [realLit_cos, realLit_sin, realLit_sqrt, cos_sec1, sin_sec1]
  simp only [List.foldl_nil, List.countP_cons, List.countP_nil, boolIf_eq_true]
  rw [show titleZone c2cfg = ⟨297, 45, 727, 105⟩ from rfl,
    show watermarkZone c2cfg = ⟨680, 960, 996, 996⟩ from rfl]
  split
  · rename_i h
    exfalso
    unfold pointInBox at h
    obtain ⟨h1, h2, h3, h4⟩ := h
    push_cast at h1
    nlinarith [sqrt3_lt, sqrt3_gt, Real.sq_sqrt (show (0:ℝ) ≤ 3 by norm_num), Real.sqrt_nonneg 3]
  · split
    · rename_i h
      exfalso
      unfold pointInBox at h
      obtain ⟨h1, h2, h3, h4⟩ := h
      push_cast at h4
      nlinarith [sqrt3_lt, sqrt3_gt, Real.sq_sqrt (show (0:ℝ) ≤ 3 by norm_num), Real.sqrt_nonneg 3]
    · split
      · push_cast
        norm_num
      · rename_i hc
        exfalso
        apply hc
        rw [Real.sqrt_lt' (by norm_num)]
        push_cast
        nlinarith [sqrt3_lt, sqrt3_gt, Real.sq_sqrt (show (0:ℝ) ≤ 3 by norm_num), Real.sqrt_nonneg 3]

/-- Second C2 label, sector 2: the test point is within 100 px
of the center of the recorded first box, so the sector scores 80. -/
theorem c2_l2_score2 :
    sectorScore ⟨Real.pi, Real.sqrt, Real.cos, Real.sin, fun y x => Complex.arg ⟨x, y⟩⟩
      [] c2positions [⟨29, 885, 108, 955⟩] c2cfg 75 960 []
      (((2:ℕ):ℝ) * (2 * Real.pi / ((12:ℕ):ℝ))) = 80 := by
  unfold sectorScore connAnglePenaltyFold linePenaltyFold labelNearCount
    testPointX testPointY
  rw [realLit_cos, realLit_sin, realLit_sqrt, cos_sec2, sin_sec2]
  simp only [List.foldl_nil, List.countP_cons, List.countP_nil, boolIf_eq_true]
  rw [show titleZone c2cfg = ⟨297, 45, 727, 105⟩ from rfl,
    show watermarkZone c2cfg = ⟨680, 960, 996, 996⟩ from rfl]
  split
  · rename_i h
    exfalso
    unfold pointInBox at h
    obtain ⟨h1, h2, h3, h4⟩ := h
    push_cast at h1
    nlinarith [sqrt3_lt, sqrt3_gt, Real.sq_sqrt (show (0:ℝ) ≤ 3 by norm_num), Real.sqrt_nonneg 3]
  · split
    · rename_i h
      exfalso
      unfold pointInBox at h
      obtain ⟨h1, h2, h3, h4⟩ := h
      push_cast at h4
      nlinarith [sqrt3_lt, sqrt3_gt, Real.sq_sqrt (show (0:ℝ) ≤ 3 by norm_num), Real.sqrt_nonneg 3]
    · split
      · push_cast
        norm_num
      · rename_i hc
        exfalso
        apply hc
        rw [Real.sqrt_lt' (by norm_num)]
        push_cast
        nlinarith [sqrt3_lt, sqrt3_gt, Real.sq_sqrt (show (0:ℝ) ≤ 3 by norm_num), Real.sqrt_nonneg 3]

/-- Second C2 label, sector 3: the test point is at least 100 px
from the center of the recorded first box, so the sector scores 100. -/
theorem c2_l2_score3 :
    sectorScore ⟨Real.pi, Real.sqrt, Real.cos, Real.sin, fun y x => Complex.arg ⟨x, y⟩⟩
      [] c2positions [⟨29, 885, 108, 955⟩] c2cfg 75 960 []
      (((3:ℕ):ℝ) * (2 * Real.pi / ((12:ℕ):ℝ))) = 100 := by
  unfold sectorScore connAnglePenaltyFold linePenaltyFold labelNearCount
    testPointX testPointY
  rw [realLit_cos, realLit_sin, realLit_sqrt, cos_sec3, sin_sec3]
  simp only [List.foldl_nil, List.countP_cons, List.countP_nil, boolIf_eq_true]
  rw [show titleZone c2cfg = ⟨297, 45, 727, 105⟩ from rfl,
    show watermarkZone c2cfg = ⟨680, 960, 996, 996⟩ from rfl]
  split
  · rename_i h
    exfalso
    unfold pointInBox at h
    obtain ⟨h1, h2, h3, h4⟩ := h
    push_cast at h1
    nlinarith [sqrt3_lt, sqrt3_gt, Real.sq_sqrt (show (0:ℝ) ≤ 3 by norm_num), Real.sqrt_nonneg 3]
  · split
    · rename_i h
      exfalso
      unfold pointInBox at h
      obtain ⟨h1, h2, h3, h4⟩ := h
      push_cast at h4
      nlinarith [sqrt3_lt, sqrt3_gt, Real.sq_sqrt (show (0:ℝ) ≤ 3 by norm_num), Real.sqrt_nonneg 3]
    · split
      · rename_i hc
        exfalso
        rw [Real.sqrt_lt' (by norm_num)] at hc
        push_cast at hc
        nlinarith [sqrt3_lt, sqrt3_gt, Real.sq_sqrt (show (0:ℝ) ≤ 3 by norm_num), Real.sqrt_nonneg 3, hc]
      · push_cast
        norm_num

/-- Second C2 label, sector 4: the test point is within 100 px
of the center of the recorded first box, so the sector scores 80. -/
theorem c2_l2_score4 :
    sectorScore ⟨Real.pi, Real.sqrt, Real.cos, Real.sin, fun y x => Complex.arg ⟨x, y⟩⟩
      [] c2positions [⟨29, 885, 108, 955⟩] c2cfg 75 960 []
      (((4:ℕ):ℝ) * (2 * Real.pi / ((12:ℕ):ℝ))) = 80 := by
  unfold sectorScore connAnglePenaltyFold linePenaltyFold labelNearCount
    testPointX testPointY
  rw [realLit_cos, realLit_sin, realLit_sqrt, cos_sec4, sin_sec4]
  simp only [List.foldl_nil, List.countP_cons, List.countP_nil, boolIf_eq_true]
  rw [show titleZone c2cfg = ⟨297, 45, 727, 105⟩ from rfl,
    show watermarkZone c2cfg = ⟨680, 960, 996, 996⟩ from rfl]
  split
  · rename_i h
    exfalso
    unfold pointInBox at h
    obtain ⟨h1, h2, h3, h4⟩ := h
    push_cast at h1
    nlinarith [sqrt3_lt, sqrt3_gt, Real.sq_sqrt (show (0:ℝ) ≤ 3 by norm_num), Real.sqrt_nonneg 3]
  · split
    · rename_i h
      exfalso
      unfold pointInBox at h
      obtain ⟨h1, h2, h3, h4⟩ := h
      push_cast at h4
      nlinarith [sqrt3_lt, sqrt3_gt, Real.sq_sqrt (show (0:ℝ) ≤ 3 by norm_num), Real.sqrt_nonneg 3]
    · split
      · push_cast
        norm_num
      · rename_i hc
        exfalso
        apply hc
        rw [Real.sqrt_lt' (by norm_num)]
        push_cast
        nlinarith [sqrt3_lt, sqrt3_gt, Real.sq_sqrt (show (0:ℝ) ≤ 3 by norm_num), Real.sqrt_nonneg 3]

/-- Second C2 label, sector 5: the test point is within 100 px
of the center of the recorded first box, so the sector scores 80. -/
theorem c2_l2_score5 :
    sectorScore ⟨Real.pi, Real.sqrt, Real.cos, Real.sin, fun y x => Complex.arg ⟨x, y⟩⟩
      [] c2positions [⟨29, 885, 108, 955⟩] c2cfg 75 960 []
      (((5:ℕ):ℝ) * (2 * Real.pi / ((12:ℕ):ℝ))) = 80 := by
  unfold sectorScore connAnglePenaltyFold linePenaltyFold labelNearCount
    testPointX testPointY
  rw [realLit_cos, realLit_sin, realLit_sqrt, cos_sec5, sin_sec5]
  simp only [List.foldl_nil, List.countP_cons, List.countP_nil, boolIf_eq_true]
  rw [show titleZone c2cfg = ⟨297, 45, 727, 105⟩ from rfl,
    show watermarkZone c2cfg = ⟨680, 960, 996, 996⟩ from rfl]
  split
  · rename_i h
    exfalso
    unfold pointInBox at h
    obtain ⟨h1, h2, h3, h4⟩ := h
    push_cast at h1
    nlinarith [sqrt3_lt, sqrt3_gt, Real.sq_sqrt (show (0:ℝ) ≤ 3 by norm_num), Real.sqrt_nonneg 3]
  · split
    · rename_i h
      exfalso
      unfold pointInBox at h
      obtain ⟨h1, h2, h3, h4⟩ := h
      push_cast at h4
      nlinarith [sqrt3_lt, sqrt3_gt, Real.sq_sqrt (show (0:ℝ) ≤ 3 by norm_num), Real.sqrt_nonneg 3]
    · split
      · push_cast
        norm_num
      · rename_i hc
        exfalso
        apply hc
        rw [Real.sqrt_lt' (by norm_num)]
        push_cast
        nlinarith [sqrt3_lt, sqrt3_gt, Real.sq_sqrt (show (0:ℝ) ≤ 3 by norm_num), Real.sqrt_nonneg 3]

/-- Second C2 label, sector 6: the test point is within 100 px
of the center of the recorded first box, so the sector scores 80. -/
theorem c2_l2_score6 :
    sectorScore ⟨Real.pi, Real.sqrt, Real.cos, Real.sin, fun y x => Complex.arg ⟨x, y⟩⟩
      [] c2positions [⟨29, 885, 108, 955⟩] c2cfg 75 960 []
      (((6:ℕ):ℝ) * (2 * Real.pi / ((12:ℕ):ℝ))) = 80 := by
  unfold sectorScore connAnglePenaltyFold linePenaltyFold labelNearCount
    testPointX testPointY
  rw [realLit_cos, realLit_sin, realLit_sqrt, cos_sec6, sin_sec6]
  simp only [List.foldl_nil, List.countP_cons, List.countP_nil, boolIf_eq_true]
  rw [show titleZone c2cfg = ⟨297, 45, 727, 105⟩ from rfl,
    show watermarkZone c2cfg = ⟨680, 960, 996, 996⟩ from rfl]
  split
  · rename_i h
    exfalso
    unfold pointInBox at h
    obtain ⟨h1, h2, h3, h4⟩ := h
    push_cast at h1
    nlinarith [sqrt3_lt, sqrt3_gt, Real.sq_sqrt (show (0:ℝ) ≤ 3 by norm_num), Real.sqrt_nonneg 3]
  · split
    · rename_i h
      exfalso
      unfold pointInBox at h
      obtain ⟨h1, h2, h3, h4⟩ := h
      push_cast at h4
      nlinarith [sqrt3_lt, sqrt3_gt, Real.sq_sqrt (show (0:ℝ) ≤ 3 by norm_num), Real.sqrt_nonneg 3]
    · split
      · push_cast
        norm_num
      · rename_i hc
        exfalso
        apply hc
        rw [Real.sqrt_lt' (by norm_num)]
        push_cast
        nlinarith [sqrt3_lt, sqrt3_gt, Real.sq_sqrt (show (0:ℝ) ≤ 3 by norm_num), Real.sqrt_nonneg 3]

/-- Second C2 label, sector 7: the test point is within 100 px
of the center of the recorded first box, so the sector scores 80. -/
theorem c2_l2_score7 :
    sectorScore ⟨Real.pi, Real.sqrt, Real.cos, Real.sin, fun y x => Complex.arg ⟨x, y⟩⟩
      [] c2positions [⟨29, 885, 108, 955⟩] c2cfg 75 960 []
      (((7:ℕ):ℝ) * (2 * Real.pi / ((12:ℕ):ℝ))) = 80 := by
  unfold sectorScore connAnglePenaltyFold linePenaltyFold labelNearCount
    testPointX testPointY
  rw [realLit_cos, realLit_sin, realLit_sqrt, cos_sec7, sin_sec7]
  simp only [List.foldl_nil, List.countP_cons, List.countP_nil, boolIf_eq_true]
  rw [show titleZone c2cfg = ⟨297, 45, 727, 105⟩ from rfl,
    show watermarkZone c2cfg = ⟨680, 960, 996, 996⟩ from rfl]
  split
  · rename_i h
    exfalso
    unfold pointInBox at h
    obtain ⟨h1, h2, h3, h4⟩ := h
    push_cast at h1
    nlinarith [sqrt3_lt, sqrt3_gt, Real.sq_sqrt (show (0:ℝ) ≤ 3 by norm_num), Real.sqrt_nonneg 3]
  · split
    · rename_i h
      exfalso
      unfold pointInBox at h
      obtain ⟨h1, h2, h3, h4⟩ := h
      push_cast at h4
      nlinarith [sqrt3_lt, sqrt3_gt, Real.sq_sqrt (show (0:ℝ) ≤ 3 by norm_num), Real.sqrt_nonneg 3]
    · split
      · push_cast
        norm_num
      · rename_i hc
        exfalso
        apply hc
        rw [Real.sqrt_lt' (by norm_num)]
        push_cast
        nlinarith [sqrt3_lt, sqrt3_gt, Real.sq_sqrt (show (0:ℝ) ≤ 3 by norm_num), Real.sqrt_nonneg 3]

/-- Second C2 label, sector 8: the test point is within 100 px
of the center of the recorded first box, so the sector scores 80. -/
theorem c2_l2_score8 :
    sectorScore ⟨Real.pi, Real.sqrt, Real.cos, Real.sin, fun y x => Complex.arg ⟨x, y⟩⟩
      [] c2positions [⟨29, 885, 108, 955⟩] c2cfg 75 960 []
      (((8:ℕ):ℝ) * (2 * Real.pi / ((12:ℕ):ℝ))) = 80 := by
  unfold sectorScore connAnglePenaltyFold linePenaltyFold labelNearCount
    testPointX testPointY
  rw [realLit_cos, realLit_sin, realLit_sqrt, cos_sec8, sin_sec8]
  simp only [List.foldl_nil, List.countP_cons, List.countP_nil, boolIf_eq_true]
  rw [show titleZone c2cfg = ⟨297, 45, 727, 105⟩ from rfl,
    show watermarkZone c2cfg = ⟨680, 960, 996, 996⟩ from rfl]
  split
  · rename_i h
    exfalso
    unfold pointInBox at h
    obtain ⟨h1, h2, h3, h4⟩ := h
    push_cast at h1
    nlinarith [sqrt3_lt, sqrt3_gt, Real.sq_sqrt (show (0:ℝ) ≤ 3 by norm_num), Real.sqrt_nonneg 3]
  · split
    · rename_i h
      exfalso
      unfold pointInBox at h
      obtain ⟨h1, h2, h3, h4⟩ := h
      push_cast at h4
      nlinarith [sqrt3_lt, sqrt3_gt, Real.sq_sqrt (show (0:ℝ) ≤ 3 by norm_num), Real.sqrt_nonneg 3]
    · split
      · push_cast
        norm_num
      · rename_i hc
        exfalso
        apply hc
        rw [Real.sqrt_lt' (by norm_num)]
        push_cast
        nlinarith [sqrt3_lt, sqrt3_gt, Real.sq_sqrt (show (0:ℝ) ≤ 3 by norm_num), Real.sqrt_nonneg 3]

/-- Second C2 label, sector 9: the test point is within 100 px
of the center of the recorded first box, so the sector scores 80. -/
theorem c2_l2_score9 :
    sectorScore ⟨Real.pi, Real.sqrt, Real.cos, Real.sin, fun y x => Complex.arg ⟨x, y⟩⟩
      [] c2positions [⟨29, 885, 108, 955⟩] c2cfg 75 960 []
      (((9:ℕ):ℝ) * (2 * Real.pi / ((12:ℕ):ℝ))) = 80 := by
  unfold sectorScore connAnglePenaltyFold linePenaltyFold labelNearCount
    testPointX testPointY
  rw [realLit_cos, realLit_sin, realLit_sqrt, cos_sec9, sin_sec9]
  simp only [List.foldl_nil, List.countP_cons, List.countP_nil, boolIf_eq_true]
  rw [show titleZone c2cfg = ⟨297, 45, 727, 105⟩ from rfl,
    show watermarkZone c2cfg = ⟨680, 960, 996, 996⟩ from rfl]
  split
  · rename_i h
    exfalso
    unfold pointInBox at h
    obtain ⟨h1, h2, h3, h4⟩ := h
    push_cast at h1
    nlinarith [sqrt3_lt, sqrt3_gt, Real.sq_sqrt (show (0:ℝ) ≤ 3 by norm_num), Real.sqrt_nonneg 3]
  · split
    · rename_i h
      exfalso
      unfold pointInBox at h
      obtain ⟨h1, h2, h3, h4⟩ := h
      push_cast at h4
      nlinarith [sqrt3_lt, sqrt3_gt, Real.sq_sqrt (show (0:ℝ) ≤ 3 by norm_num), Real.sqrt_nonneg 3]
    · split
      · push_cast
        norm_num
      · rename_i hc
        exfalso
        apply hc
        rw [Real.sqrt_lt' (by norm_num)]
        push_cast
        nlinarith [sqrt3_lt, sqrt3_gt, Real.sq_sqrt (show (0:ℝ) ≤ 3 by norm_num), Real.sqrt_nonneg 3]

/-- Second C2 label, sector 10: the test point is within 100 px
of the center of the recorded first box, so the sector scores 80. -/
theorem c2_l2_score10 :
    sectorScore ⟨Real.pi, Real.sqrt, Real.cos, Real.sin, fun y x => Complex.arg ⟨x, y⟩⟩
      [] c2positions [⟨29, 885, 108, 955⟩] c2cfg 75 960 []
      (((10:ℕ):ℝ) * (2 * Real.pi / ((12:ℕ):ℝ))) = 80 := by
  unfold sectorScore connAnglePenaltyFold linePenaltyFold labelNearCount
    testPointX testPointY
  rw [realLit_cos, realLit_sin, realLit_sqrt, cos_sec10, sin_sec10]
  simp only [List.foldl_nil, List.countP_cons, List.countP_nil, boolIf_eq_true]
  rw [show titleZone c2cfg = ⟨297, 45, 727, 105⟩ from rfl,
    show watermarkZone c2cfg = ⟨680, 960, 996, 996⟩ from rfl]
  split
  · rename_i h
    exfalso
    unfold pointInBox at h
    obtain ⟨h1, h2, h3, h4⟩ := h
    push_cast at h1
    nlinarith [sqrt3_lt, sqrt3_gt, Real.sq_sqrt (show (0:ℝ) ≤ 3 by norm_num), Real.sqrt_nonneg 3]
  · split
    · rename_i h
      exfalso
      unfold pointInBox at h
      obtain ⟨h1, h2, h3, h4⟩ := h
      push_cast at h4
      nlinarith [sqrt3_lt, sqrt3_gt, Real.sq_sqrt (show (0:ℝ) ≤ 3 by norm_num), Real.sqrt_nonneg 3]
    · split
      · push_cast
        norm_num
      · rename_i hc
        exfalso
        apply hc
        rw [Real.sqrt_lt' (by norm_num)]
        push_cast
        nlinarith [sqrt3_lt, sqrt3_gt, Real.sq_sqrt (show (0:ℝ) ≤ 3 by norm_num), Real.sqrt_nonneg 3]

/-- Second C2 label, sector 11: the test point is within 100 px
of the center of the recorded first box, so the sector scores 80. -/
theorem c2_l2_score11 :
    sectorScore ⟨Real.pi, Real.sqrt, Real.cos, Real.sin, fun y x => Complex.arg ⟨x, y⟩⟩
      [] c2positions [⟨29, 885, 108, 955⟩] c2cfg 75 960 []
      (((11:ℕ):ℝ) * (2 * Real.pi / ((12:ℕ):ℝ))) = 80 := by
  unfold sectorScore connAnglePenaltyFold linePenaltyFold labelNearCount
    testPointX testPointY
  rw [realLit_cos, realLit_sin, realLit_sqrt, cos_sec11, sin_sec11]
  simp only [List.foldl_nil, List.countP_cons, List.countP_nil, boolIf_eq_true]
  rw [show titleZone c2cfg = ⟨297, 45, 727, 105⟩ from rfl,
    show watermarkZone c2cfg = ⟨680, 960, 996, 996⟩ from rfl]
  split
  · rename_i h
    exfalso
    unfold pointInBox at h
    obtain ⟨h1, h2, h3, h4⟩ := h
    push_cast at h1
    nlinarith [sqrt3_lt, sqrt3_gt, Real.sq_sqrt (show (0:ℝ) ≤ 3 by norm_num), Real.sqrt_nonneg 3]
  · split
    · rename_i h
      exfalso
      unfold pointInBox at h
      obtain ⟨h1, h2, h3, h4⟩ := h
      push_cast at h4
      nlinarith [sqrt3_lt, sqrt3_gt, Real.sq_sqrt (show (0:ℝ) ≤ 3 by norm_num), Real.sqrt_nonneg 3]
    · split
      · push_cast
        norm_num
      · rename_i hc
        exfalso
        apply hc
        rw [Real.sqrt_lt' (by norm_num)]
        push_cast
        nlinarith [sqrt3_lt, sqrt3_gt, Real.sq_sqrt (show (0:ℝ) ≤ 3 by norm_num), Real.sqrt_nonneg 3]
/-- Stable descending sort of twelve scores where only the fourth is 100 and
the rest are 80: the 100 moves to the front, ties keep sector order. -/
theorem sort_scores_one_high (a0 a1 a2 a3 a4 a5 a6 a7 a8 a9 a10 a11 : ℝ) :
    sortByDesc Prod.snd [(a0, (80:ℝ)), (a1, 80), (a2, 80), (a3, 100), (a4, 80),
      (a5, 80), (a6, 80), (a7, 80), (a8, 80), (a9, 80), (a10, 80), (a11, 80)] =
    [(a3, 100), (a0, 80), (a1, 80), (a2, 80), (a4, 80), (a5, 80), (a6, 80),
      (a7, 80), (a8, 80), (a9, 80), (a10, 80), (a11, 80)] := by
  norm_num [sortByDesc, insertDesc]

/-- The sector-score list of the second C2 label: sector 3 scores 100, all
others 80, so the stable sort puts sector 3 first followed by the remaining
sectors in order. -/
theorem c2_l2_scores :
    calculateSectorScores
      ⟨Real.pi, Real.sqrt, Real.cos, Real.sin, fun y x => Complex.arg ⟨x, y⟩⟩
      1 75 960 [] c2positions [⟨29, 885, 108, 955⟩] c2cfg 12 =
    [(((3:ℕ):ℝ) * (2 * Real.pi / ((12:ℕ):ℝ)), 100),
     (((0:ℕ):ℝ) * (2 * Real.pi / ((12:ℕ):ℝ)), 80),
     (((1:ℕ):ℝ) * (2 * Real.pi / ((12:ℕ):ℝ)), 80),
     (((2:ℕ):ℝ) * (2 * Real.pi / ((12:ℕ):ℝ)), 80),
     (((4:ℕ):ℝ) * (2 * Real.pi / ((12:ℕ):ℝ)), 80),
     (((5:ℕ):ℝ) * (2 * Real.pi / ((12:ℕ):ℝ)), 80),
     (((6:ℕ):ℝ) * (2 * Real.pi / ((12:ℕ):ℝ)), 80),
     (((7:ℕ):ℝ) * (2 * Real.pi / ((12:ℕ):ℝ)), 80),
     (((8:ℕ):ℝ) * (2 * Real.pi / ((12:ℕ):ℝ)), 80),
     (((9:ℕ):ℝ) * (2 * Real.pi / ((12:ℕ):ℝ)), 80),
     (((10:ℕ):ℝ) * (2 * Real.pi / ((12:ℕ):ℝ)), 80),
     (((11:ℕ):ℝ) * (2 * Real.pi / ((12:ℕ):ℝ)), 80)] := by
  unfold calculateSectorScores
  rw [show connectionAngles
      (⟨Real.pi, Real.sqrt, Real.cos, Real.sin, fun y x => Complex.arg ⟨x, y⟩⟩ :
        RealOps ℝ) 1 75 960 [] c2positions = [] from rfl]
  rw [realLit_pi]
  rw [show (List.range 12) = [0, 1, 2, 3, 4, 5, 6, 7, 8, 9, 10, 11] from rfl]
  simp only [List.map_cons, List.map_nil]
  rw [c2_l2_score0, c2_l2_score1, c2_l2_score2, c2_l2_score3, c2_l2_score4,
    c2_l2_score5, c2_l2_score6, c2_l2_score7, c2_l2_score8, c2_l2_score9,
    c2_l2_score10, c2_l2_score11]
  exact sort_scores_one_high _ _ _ _ _ _ _ _ _ _ _ _

/-- The second C2 label: sector 3 (best score) is rejected because its box
leaves the canvas at the bottom, and the next sector in order, sector 0,
passes validation: its 4 px test box (111, 946, 159, 974) clears the first
recorded box (29, 885, 108, 955) by 3 px. -/
theorem c2_l2_find :
    findLabelPosition
      ⟨Real.pi, Real.sqrt, Real.cos, Real.sin, fun y x => Complex.arg ⟨x, y⟩⟩
      75 960 40 20 [⟨29, 885, 108, 955⟩] c2cfg [(9, 920), (75, 960)] 1 []
      c2positions = some (115, 950) := by
  unfold findLabelPosition
  rw [c2_l2_scores]
  rw [trySectors_cons]
  have hx3 : itrunc (testPointX
      (⟨Real.pi, Real.sqrt, Real.cos, Real.sin, fun y x => Complex.arg ⟨x, y⟩⟩ :
        RealOps ℝ) 75 (((3:ℕ):ℝ) * (2 * Real.pi / ((12:ℕ):ℝ))) - ((40:ℤ):ℝ) / 2)
      = 55 := by
    unfold testPointX
    rw [realLit_cos, cos_sec3]
    exact itrunc_eq_of_nonneg _ 55 (by push_cast; norm_num)
      (by push_cast; norm_num) (by push_cast; norm_num)
  have hy3 : itrunc (testPointY
      (⟨Real.pi, Real.sqrt, Real.cos, Real.sin, fun y x => Complex.arg ⟨x, y⟩⟩ :
        RealOps ℝ) 960 (((3:ℕ):ℝ) * (2 * Real.pi / ((12:ℕ):ℝ))) - ((20:ℤ):ℝ) / 2)
      = 1010 := by
    unfold testPointY
    rw [realLit_sin, sin_sec3]
    exact itrunc_eq_of_nonneg _ 1010 (by push_cast; norm_num)
      (by push_cast; norm_num) (by push_cast; norm_num)
  rw [hx3, hy3]
  rw [if_neg (show ¬ ((100:ℝ) < -100) by norm_num)]
  rw [if_pos (show (mkTestBox 55 1010 40 20).x1 < 0 ∨ (mkTestBox 55 1010 40 20).y1 < 0 ∨
      (mkTestBox 55 1010 40 20).x2 > c2cfg.canvasW ∨
      (mkTestBox 55 1010 40 20).y2 > c2cfg.canvasH by decide)]
  rw [trySectors_cons]
  have hx0 : itrunc (testPointX
      (⟨Real.pi, Real.sqrt, Real.cos, Real.sin, fun y x => Complex.arg ⟨x, y⟩⟩ :
        RealOps ℝ) 75 (((0:ℕ):ℝ) * (2 * Real.pi / ((12:ℕ):ℝ))) - ((40:ℤ):ℝ) / 2)
      = 115 := by
    unfold testPointX
    rw [realLit_cos, cos_sec0]
    exact itrunc_eq_of_nonneg _ 115 (by push_cast; norm_num)
      (by push_cast; norm_num) (by push_cast; norm_num)
  have hy0 : itrunc (testPointY
      (⟨Real.pi, Real.sqrt, Real.cos, Real.sin, fun y x => Complex.arg ⟨x, y⟩⟩ :
        RealOps ℝ) 960 (((0:ℕ):ℝ) * (2 * Real.pi / ((12:ℕ):ℝ))) - ((20:ℤ):ℝ) / 2)
      = 950 := by
    unfold testPointY
    rw [realLit_sin, sin_sec0]
    exact itrunc_eq_of_nonneg _ 950 (by push_cast; norm_num)
      (by push_cast; norm_num) (by push_cast; norm_num)
  rw [hx0, hy0]
  rw [if_neg (show ¬ ((80:ℝ) < -100) by norm_num)]
  have hb : ¬ ((mkTestBox 115 950 40 20).x1 < 0 ∨ (mkTestBox 115 950 40 20).y1 < 0 ∨
      (mkTestBox 115 950 40 20).x2 > c2cfg.canvasW ∨
      (mkTestBox 115 950 40 20).y2 > c2cfg.canvasH) := by decide
  have hov : ¬ boxesOverlap (mkTestBox 115 950 40 20) [⟨29, 885, 108, 955⟩] := by
    decide
  have hcl : ¬ tooCloseToOtherStars
      (⟨Real.pi, Real.sqrt, Real.cos, Real.sin, fun y x => Complex.arg ⟨x, y⟩⟩ :
        RealOps ℝ) (mkTestBox 115 950 40 20) 75 960 [(9, 920), (75, 960)] := by
    rw [tooCloseToOtherStars_iff]
    rw [realLit_sqrt]
    rintro ⟨p, hp, hne, hlt⟩
    rcases List.mem_cons.mp hp with rfl | hp'
    · rw [Real.sqrt_lt' (by norm_num)] at hlt
      rw [show mkTestBox 115 950 40 20 = ⟨111, 946, 159, 974⟩ from rfl] at hlt
      push_cast at hlt
      nlinarith [hlt]
    · rcases List.mem_cons.mp hp' with rfl | hp''
      · exact hne (by constructor <;> rfl)
      · exact absurd hp'' (List.not_mem_nil p)
  rw [if_neg hb, if_neg hov, if_neg hcl]

/-- Unfolding rule of the placement loop: a label whose search succeeds at
`(x, y)` records its 8 px box and the loop continues with it occupied. -/
theorem placeLoop_cons_some {α : Type} [LinearOrderedField α] [FloorRing α]
    (ops : RealOps α) (cfg : OverlayConfig) (mappings : List LabelMapping)
    (conns : List (ℕ × ℕ)) (positions : List (ℤ × ℤ)) (idx cnt : ℕ)
    (rest : List (ℕ × ℕ)) (occupied : List Box) (sx sy w h x y : ℤ)
    (hm : mappings.getD idx ((0, 0), (0, 0)) = ((sx, sy), (w, h)))
    (hf : findLabelPosition ops sx sy w h occupied cfg (mappings.map Prod.fst)
      idx conns positions = some (x, y)) :
    placeLoop ops cfg mappings conns positions ((idx, cnt) :: rest) occupied =
      some (mkLabelBox x y w h) ::
        placeLoop ops cfg mappings conns positions rest
          (occupied ++ [mkLabelBox x y w h]) := by
  simp only [placeLoop, hm, hf]

/-- Unfolding rule of the placement loop: a label whose search fails is
skipped and the loop continues with the occupied set unchanged. -/
theorem placeLoop_cons_none {α : Type} [LinearOrderedField α] [FloorRing α]
    (ops : RealOps α) (cfg : OverlayConfig) (mappings : List LabelMapping)
    (conns : List (ℕ × ℕ)) (positions : List (ℤ × ℤ)) (idx cnt : ℕ)
    (rest : List (ℕ × ℕ)) (occupied : List Box) (sx sy w h : ℤ)
    (hm : mappings.getD idx ((0, 0), (0, 0)) = ((sx, sy), (w, h)))
    (hf : findLabelPosition ops sx sy w h occupied cfg (mappings.map Prod.fst)
      idx conns positions = none) :
    placeLoop ops cfg mappings conns positions ((idx, cnt) :: rest) occupied =
      none :: placeLoop ops cfg mappings conns positions rest occupied := by
  simp only [placeLoop, hm, hf]

/-- C2 (counterexample): the no-overlap claim fails on the code.  In the
concrete two-label run (stars (9, 920) and (75, 960), labels measured 63x54
and 40x20, no edges, canvas 1024x1024), both labels are placed and their
recorded rectangles (29, 885, 108, 955) and (107, 942, 163, 978) overlap:
validation uses a 4 px-padded rectangle while recording uses an 8 px-padded
one, so two recorded boxes can overlap by up to 8 px. -/
theorem c2_counterexample_recorded_boxes_overlap :
    placedBoxes ⟨Real.pi, Real.sqrt, Real.cos, Real.sin, fun y x => Complex.arg ⟨x, y⟩⟩
        c2cfg c2mappings [] c2positions =
      [⟨29, 885, 108, 955⟩, ⟨107, 942, 163, 978⟩] ∧
    rectsOverlap ⟨29, 885, 108, 955⟩ ⟨107, 942, 163, 978⟩ := by
  constructor
  · unfold placedBoxes addTechLabels
    rw [show processingOrder (List.length c2mappings) [] = [(0, 0), (1, 0)] from rfl]
    rw [placeLoop_cons_some
      (⟨Real.pi, Real.sqrt, Real.cos, Real.sin, fun y x => Complex.arg ⟨x, y⟩⟩ :
        RealOps ℝ) c2cfg c2mappings [] c2positions 0 0 [(1, 0)] [] 9 920 63 54 37 893
      rfl
      (by rw [show c2mappings.map Prod.fst = [(9, 920), (75, 960)] from rfl]
          exact c2_l1_find)]
    rw [show ([] : List Box) ++ [mkLabelBox 37 893 63 54] =
      [(⟨29, 885, 108, 955⟩ : Box)] from rfl]
    rw [placeLoop_cons_some
      (⟨Real.pi, Real.sqrt, Real.cos, Real.sin, fun y x => Complex.arg ⟨x, y⟩⟩ :
        RealOps ℝ) c2cfg c2mappings [] c2positions 1 0 [] [⟨29, 885, 108, 955⟩]
      75 960 40 20 115 950
      rfl
      (by rw [show c2mappings.map Prod.fst = [(9, 920), (75, 960)] from rfl]
          exact c2_l2_find)]
    rfl
  · decide

theorem shrink_mkLabelBox (x y w h : ℤ) :
    shrinkBox (mkLabelBox x y w h) 4 = mkTestBox x y w h := by
  simp only [shrinkBox, mkLabelBox, mkTestBox, Box.mk.injEq]
  omega

/-- Whenever the sector loop returns a position, the 4 px-padded rectangle at
that position passed validation: it overlaps none of the occupied boxes. -/
theorem trySectors_some_not_overlap {α : Type} [LinearOrderedField α] [FloorRing α]
    (ops : RealOps α) (sx sy wd ht : ℤ) (occupied : List Box)
    (cfg : OverlayConfig) (allStars : List (ℤ × ℤ)) :
    ∀ (l : List (α × α)) (x y : ℤ),
      trySectors ops sx sy wd ht occupied cfg allStars l = some (x, y) →
      ¬ boxesOverlap (mkTestBox x y wd ht) occupied
  | [], x, y, heq => by
    rw [trySectors_nil] at heq
    exact Option.noConfusion heq
  | (θ, score) :: rest, x, y, heq => by
    rw [trySectors_cons] at heq
    split_ifs at heq with h1 h2 h3 h4
    · exact trySectors_some_not_overlap ops sx sy wd ht occupied cfg allStars rest x y heq
    · exact trySectors_some_not_overlap ops sx sy wd ht occupied cfg allStars rest x y heq
    · exact trySectors_some_not_overlap ops sx sy wd ht occupied cfg allStars rest x y heq
    · exact trySectors_some_not_overlap ops sx sy wd ht occupied cfg allStars rest x y heq
    · rcases Option.some.injEq _ _ ▸ heq with heq'
      have hx : itrunc (testPointX ops sx θ - (wd : α) / 2) = x :=
        congrArg Prod.fst (Option.some.inj heq)
      have hy : itrunc (testPointY ops sy θ - (ht : α) / 2) = y :=
        congrArg Prod.snd (Option.some.inj heq)
      rw [← hx, ← hy]
      exact h3

/-- Invariant of the placement loop: the 4 px-shrunk rectangle of every label
placed by the loop is disjoint from every initially occupied box and from
every earlier placed box. -/
theorem placeLoop_shrunk_disjoint {α : Type} [LinearOrderedField α] [FloorRing α]
    (ops : RealOps α) (cfg : OverlayConfig) (mappings : List LabelMapping)
    (conns : List (ℕ × ℕ)) (positions : List (ℤ × ℤ)) :
    ∀ (order : List (ℕ × ℕ)) (occ : List Box),
      (∀ a ∈ occ,
        ∀ b ∈ (placeLoop ops cfg mappings conns positions order occ).filterMap id,
          ¬ rectsOverlap (shrinkBox b 4) a) ∧
      ((placeLoop ops cfg mappings conns positions order occ).filterMap id).Pairwise
        (fun a b => ¬ rectsOverlap (shrinkBox b 4) a)
  | [], occ => by
    constructor
    · intro a _ b hb
      rw [show placeLoop ops cfg mappings conns positions [] occ = [] from rfl] at hb
      simp at hb
    · rw [show placeLoop ops cfg mappings conns positions [] occ = [] from rfl]
      exact List.Pairwise.nil
  | (idx, cnt) :: rest, occ => by
    rcases hfind : findLabelPosition ops
        (mappings.getD idx ((0, 0), (0, 0))).1.1 (mappings.getD idx ((0, 0), (0, 0))).1.2
        (mappings.getD idx ((0, 0), (0, 0))).2.1 (mappings.getD idx ((0, 0), (0, 0))).2.2
        occ cfg (mappings.map Prod.fst) idx conns positions with _ | ⟨x, y⟩
    · rw [placeLoop_cons_none ops cfg mappings conns positions idx cnt rest occ
        (mappings.getD idx ((0, 0), (0, 0))).1.1 (mappings.getD idx ((0, 0), (0, 0))).1.2
        (mappings.getD idx ((0, 0), (0, 0))).2.1 (mappings.getD idx ((0, 0), (0, 0))).2.2
        rfl hfind]
      simp only [List.filterMap_cons, id_eq]
      exact placeLoop_shrunk_disjoint ops cfg mappings conns positions rest occ
    · rw [placeLoop_cons_some ops cfg mappings conns positions idx cnt rest occ
        (mappings.getD idx ((0, 0), (0, 0))).1.1 (mappings.getD idx ((0, 0), (0, 0))).1.2
        (mappings.getD idx ((0, 0), (0, 0))).2.1 (mappings.getD idx ((0, 0), (0, 0))).2.2
        x y rfl hfind]
      simp only [List.filterMap_cons, id_eq]
      have hno : ¬ boxesOverlap
          (mkTestBox x y (mappings.getD idx ((0, 0), (0, 0))).2.1
            (mappings.getD idx ((0, 0), (0, 0))).2.2) occ := by
        unfold findLabelPosition at hfind
        exact trySectors_some_not_overlap ops
          (mappings.getD idx ((0, 0), (0, 0))).1.1 (mappings.getD idx ((0, 0), (0, 0))).1.2
          (mappings.getD idx ((0, 0), (0, 0))).2.1 (mappings.getD idx ((0, 0), (0, 0))).2.2
          occ cfg (mappings.map Prod.fst) _ x y hfind
      have ih := placeLoop_shrunk_disjoint ops cfg mappings conns positions rest
        (occ ++ [mkLabelBox x y (mappings.getD idx ((0, 0), (0, 0))).2.1
          (mappings.getD idx ((0, 0), (0, 0))).2.2])
      constructor
      · intro a ha b hb
        rcases List.mem_cons.mp hb with rfl | hb'
        · rw [shrink_mkLabelBox]
          intro hov
          exact hno ⟨a, ha, hov⟩
        · exact ih.1 a (List.mem_append_left _ ha) b hb'
      · refine List.pairwise_cons.mpr ⟨?_, ih.2⟩
        intro b hb
        exact ih.1 (mkLabelBox x y (mappings.getD idx ((0, 0), (0, 0))).2.1
            (mappings.getD idx ((0, 0), (0, 0))).2.2)
          (List.mem_append_right _ (List.mem_singleton.mpr rfl)) b hb

/-- C2 (amended): in every placement run, while the recorded 8 px-padded
rectangles of two placed labels may overlap, shrinking the later one by the 4
px difference between the recording padding (8 px) and the validation padding
(4 px) always yields a rectangle that does not overlap the earlier recorded
rectangle: for any placed boxes `a` before `b`,
`rects_overlap(shrink4(b), a) = false`. -/
theorem c2_amended_shrunk_boxes_pairwise_disjoint {α : Type}
    [LinearOrderedField α] [FloorRing α] (ops : RealOps α) (cfg : OverlayConfig)
    (mappings : List LabelMapping) (conns : List (ℕ × ℕ))
    (positions : List (ℤ × ℤ)) :
    (placedBoxes ops cfg mappings conns positions).Pairwise
      (fun a b => ¬ rectsOverlap (shrinkBox b 4) a) := by
  unfold placedBoxes addTechLabels
  exact (placeLoop_shrunk_disjoint ops cfg mappings conns positions
    (processingOrder mappings.length conns) []).2

/-! ### C3: the angular-distance helper -/

/-- C3 (counterexample): the claim that `_min_angular_distance` always lands
in [0, 180 degrees] is false: for inputs 0 and 3π (a legal float pair whose
difference exceeds 2π) the helper returns `min(3π, 2π - 3π) = -π < 0`. -/
theorem c3_counterexample_negative_result :
    minAngularDistance Real.pi 0 (3 * Real.pi) < 0 := by
  unfold minAngularDistance
  have h1 : |(0:ℝ) - 3 * Real.pi| = 3 * Real.pi := by
    rw [zero_sub, abs_neg, abs_of_nonneg (by positivity)]
  rw [h1]
  have h2 : min (3 * Real.pi) (2 * Real.pi - 3 * Real.pi) ≤
      2 * Real.pi - 3 * Real.pi := min_le_right _ _
  nlinarith [Real.pi_pos]

/-- C3 (amended): whenever the two input angles differ by at most 2π - which
covers every in-range pair of angles - the helper returns the minimum
circular distance between the two directions and its result lies in [0, π]:
it is a lower bound of `|a - b + 2πk|` over all integers `k`, and attains
that bound.  Moreover the two concrete values of the claim hold:
`angular_distance(10°, 350°) = 20°` and `angular_distance(0°, 180°) = 180°`
(angles in radians, as in the source). -/
theorem c3_amended_min_circular_distance :
    (∀ a b : ℝ, |a - b| ≤ 2 * Real.pi →
      0 ≤ minAngularDistance Real.pi a b ∧
      minAngularDistance Real.pi a b ≤ Real.pi ∧
      (∀ k : ℤ, minAngularDistance Real.pi a b ≤ |a - b + 2 * Real.pi * k|) ∧
      (∃ k : ℤ, minAngularDistance Real.pi a b = |a - b + 2 * Real.pi * k|)) ∧
    minAngularDistance Real.pi (10 * Real.pi / 180) (350 * Real.pi / 180) =
      20 * Real.pi / 180 ∧
    minAngularDistance Real.pi 0 Real.pi = Real.pi := by
  refine ⟨?_, ?_, ?_⟩
  · intro a b hab
    unfold minAngularDistance
    have hD0 : 0 ≤ |a - b| := abs_nonneg _
    refine ⟨le_min hD0 (by linarith), ?_, ?_, ?_⟩
    · rcases le_total (|a - b|) Real.pi with h | h
      · exact le_trans (min_le_left _ _) h
      · exact le_trans (min_le_right _ _) (by linarith)
    · intro k
      rcases eq_or_ne k 0 with rfl | hk
      · push_cast
        rw [mul_zero, add_zero]
        exact min_le_left _ _
      · have hk1 : (1:ℝ) ≤ |(k:ℝ)| := by
          rw [← Int.cast_abs]
          exact_mod_cast Int.one_le_abs hk
      -- reverse triangle inequality: |2πk| - |a - b| ≤ |a - b + 2πk|
        have h3 := abs_sub_abs_le_abs_sub (2 * Real.pi * (k:ℝ)) (-(a - b))
        rw [abs_neg, sub_neg_eq_add] at h3
        have h4 : |2 * Real.pi * (k:ℝ)| = 2 * Real.pi * |(k:ℝ)| := by
          rw [abs_mul, abs_of_nonneg (by positivity : (0:ℝ) ≤ 2 * Real.pi)]
        have h5 : 2 * Real.pi ≤ |2 * Real.pi * (k:ℝ)| := by
          rw [h4]
          nlinarith [Real.pi_pos]
        have h6 : |2 * Real.pi * (k:ℝ) + (a - b)| = |a - b + 2 * Real.pi * k| := by
          rw [add_comm]
        rw [h6] at h3
        have := min_le_right (|a - b|) (2 * Real.pi - |a - b|)
        linarith
    · rcases le_total (|a - b|) (2 * Real.pi - |a - b|) with h | h
      · refine ⟨0, ?_⟩
        push_cast
        rw [mul_zero, add_zero]
        exact min_eq_left h
      · rcases le_total 0 (a - b) with hs | hs
        · refine ⟨-1, ?_⟩
          have habd : |a - b| = a - b := abs_of_nonneg hs
          have : |a - b + 2 * Real.pi * ((-1 : ℤ) : ℝ)| = 2 * Real.pi - (a - b) := by
            push_cast
            rw [show a - b + 2 * Real.pi * (-1) = -(2 * Real.pi - (a - b)) by ring]
            rw [abs_neg, abs_of_nonneg (by rw [habd] at hab; linarith)]
          rw [this, min_eq_right h, habd]
        · refine ⟨1, ?_⟩
          have habd : |a - b| = -(a - b) := abs_of_nonpos hs
          have : |a - b + 2 * Real.pi * ((1 : ℤ) : ℝ)| = 2 * Real.pi + (a - b) := by
            push_cast
            rw [abs_of_nonneg (by rw [habd] at hab; linarith)]
            ring
          rw [this, min_eq_right h, habd]
          ring
  · unfold minAngularDistance
    have h1 : |(10 * Real.pi / 180 : ℝ) - 350 * Real.pi / 180| =
        340 * Real.pi / 180 := by
      rw [show (10 * Real.pi / 180 : ℝ) - 350 * Real.pi / 180 =
        -(340 * Real.pi / 180) by ring]
      rw [abs_neg, abs_of_nonneg (by positivity)]
    rw [h1, min_eq_right (by nlinarith [Real.pi_pos])]
    ring
  · unfold minAngularDistance
    have h1 : |(0:ℝ) - Real.pi| = Real.pi := by
      rw [zero_sub, abs_neg, abs_of_nonneg Real.pi_pos.le]
    rw [h1, show 2 * Real.pi - Real.pi = Real.pi by ring, min_self]

/-- Witness for the amended C3 theorem at the concrete input `(0, π)`, whose
difference is within 2π. -/
theorem c3_amended_witness :
    0 ≤ minAngularDistance Real.pi 0 Real.pi ∧
    minAngularDistance Real.pi 0 Real.pi ≤ Real.pi :=
  ⟨(c3_amended_min_circular_distance.1 0 Real.pi
      (by rw [zero_sub, abs_neg, abs_of_nonneg Real.pi_pos.le]
          linarith [Real.pi_pos])).1,
   (c3_amended_min_circular_distance.1 0 Real.pi
      (by rw [zero_sub, abs_neg, abs_of_nonneg Real.pi_pos.le]
          linarith [Real.pi_pos])).2.1⟩

/-! ### C4: the label processing order -/

/-- C4: `add_tech_labels` processes labels in descending order of the number
of connections incident to the anchor star, with ties broken by ascending
original index (Python `sort` is stable and the pair list is built in index
order).  The order is a permutation of all label indices, it is pairwise
sorted by the descending-count-then-ascending-index relation, and each entry
carries exactly the connection count of its index. -/
theorem c4_processing_order_sorted (n : ℕ) (conns : List (ℕ × ℕ)) :
    ((processingOrder n conns).map Prod.fst).Perm (List.range n) ∧
    (processingOrder n conns).Pairwise
      (fun a b => b.2 < a.2 ∨ (a.2 = b.2 ∧ a.1 < b.1)) ∧
    ∀ p ∈ processingOrder n conns, p.2 = connCount p.1 conns := by
  refine ⟨?_, ?_, ?_⟩
  · have h1 := (sortByDesc_perm Prod.snd
      ((List.range n).map (fun i => (i, connCount i conns)))).map Prod.fst
    unfold processingOrder
    refine h1.trans ?_
    rw [List.map_map]
    have : (Prod.fst ∘ fun i => (i, connCount i conns)) = id := rfl
    rw [this, List.map_id]
  · have hQ : ((List.range n).map (fun i => (i, connCount i conns))).Pairwise
        (fun a b => a.1 < b.1) := by
      refine List.Pairwise.map _ ?_ (List.pairwise_lt_range n)
      intro a b hab
      exact hab
    exact sortByDesc_pairwise Prod.snd (fun a b => a.1 < b.1) _ hQ
  · intro p hp
    have hp' : p ∈ (List.range n).map (fun i => (i, connCount i conns)) :=
      (sortByDesc_perm Prod.snd _).mem_iff.mp hp
    rcases List.mem_map.mp hp' with ⟨i, _, rfl⟩
    rfl

/-- Witness for C4 at a concrete input: three labels, connection counts
2, 3, 1, processed in the order 1, 0, 2. -/
theorem c4_witness :
    ((processingOrder 3 [(0, 1), (1, 2), (1, 0)]).map Prod.fst).Perm
      (List.range 3) ∧
    ((1, 3) : ℕ × ℕ).2 = connCount ((1, 3) : ℕ × ℕ).1 [(0, 1), (1, 2), (1, 0)] :=
  ⟨(c4_processing_order_sorted 3 [(0, 1), (1, 2), (1, 0)]).1,
   (c4_processing_order_sorted 3 [(0, 1), (1, 2), (1, 0)]).2.2 (1, 3) (by decide)⟩

/-! ### C5: bounded sector search, graceful per-label skip -/

/-- The placement loop produces exactly one result per processed label. -/
theorem placeLoop_length {α : Type} [LinearOrderedField α] [FloorRing α]
    (ops : RealOps α) (cfg : OverlayConfig) (mappings : List LabelMapping)
    (conns : List (ℕ × ℕ)) (positions : List (ℤ × ℤ)) :
    ∀ (order : List (ℕ × ℕ)) (occ : List Box),
      (placeLoop ops cfg mappings conns positions order occ).length = order.length
  | [], occ => by
    rw [show placeLoop ops cfg mappings conns positions [] occ = [] from rfl]
    rfl
  | (idx, cnt) :: rest, occ => by
    rcases hfind : findLabelPosition ops
        (mappings.getD idx ((0, 0), (0, 0))).1.1 (mappings.getD idx ((0, 0), (0, 0))).1.2
        (mappings.getD idx ((0, 0), (0, 0))).2.1 (mappings.getD idx ((0, 0), (0, 0))).2.2
        occ cfg (mappings.map Prod.fst) idx conns positions with _ | ⟨x, y⟩
    · rw [placeLoop_cons_none ops cfg mappings conns positions idx cnt rest occ
        (mappings.getD idx ((0, 0), (0, 0))).1.1 (mappings.getD idx ((0, 0), (0, 0))).1.2
        (mappings.getD idx ((0, 0), (0, 0))).2.1 (mappings.getD idx ((0, 0), (0, 0))).2.2
        rfl hfind]
      rw [List.length_cons, placeLoop_length ops cfg mappings conns positions rest occ]
      rfl
    · rw [placeLoop_cons_some ops cfg mappings conns positions idx cnt rest occ
        (mappings.getD idx ((0, 0), (0, 0))).1.1 (mappings.getD idx ((0, 0), (0, 0))).1.2
        (mappings.getD idx ((0, 0), (0, 0))).2.1 (mappings.getD idx ((0, 0), (0, 0))).2.2
        x y rfl hfind]
      rw [List.length_cons, placeLoop_length ops cfg mappings conns positions rest _]
      rfl

/-- Boundedness and skip behavior of the total placement model.
(1) The sector-score list the search walks has exactly 12 entries;
(2) the search is exactly the walk of that 12-entry list; (3)-(4) the
placement loop produces one result per label; (5) when the search returns
`none` for a label, that label is skipped and the loop continues with the
remaining labels unchanged. -/
theorem placement_bounded_and_skip {α : Type} [LinearOrderedField α]
    [FloorRing α] (ops : RealOps α) (cfg : OverlayConfig)
    (mappings : List LabelMapping) (conns : List (ℕ × ℕ))
    (positions : List (ℤ × ℤ)) :
    (∀ (starIdx : ℕ) (sx sy : ℤ) (occupied : List Box),
      (calculateSectorScores ops starIdx sx sy conns positions occupied cfg
        12).length = 12) ∧
    (∀ (sx sy w h : ℤ) (occupied : List Box) (allStars : List (ℤ × ℤ))
        (starIdx : ℕ),
      findLabelPosition ops sx sy w h occupied cfg allStars starIdx conns
          positions =
        trySectors ops sx sy w h occupied cfg allStars
          (calculateSectorScores ops starIdx sx sy conns positions occupied cfg
            12)) ∧
    (∀ (order : List (ℕ × ℕ)) (occupied : List Box),
      (placeLoop ops cfg mappings conns positions order occupied).length =
        order.length) ∧
    (addTechLabels ops cfg mappings conns positions).length = mappings.length ∧
    (∀ (idx cnt : ℕ) (rest : List (ℕ × ℕ)) (occupied : List Box),
      findLabelPosition ops
        (mappings.getD idx ((0, 0), (0, 0))).1.1
        (mappings.getD idx ((0, 0), (0, 0))).1.2
        (mappings.getD idx ((0, 0), (0, 0))).2.1
        (mappings.getD idx ((0, 0), (0, 0))).2.2
        occupied cfg (mappings.map Prod.fst) idx conns positions = none →
      placeLoop ops cfg mappings conns positions ((idx, cnt) :: rest) occupied =
        none :: placeLoop ops cfg mappings conns positions rest occupied) := by
  refine ⟨?_, ?_, ?_, ?_, ?_⟩
  · intro starIdx sx sy occupied
    unfold calculateSectorScores
    rw [(sortByDesc_perm Prod.snd _).length_eq, List.length_map,
      List.length_range]
  · intro sx sy w h occupied allStars starIdx
    rfl
  · exact placeLoop_length ops cfg mappings conns positions
  · unfold addTechLabels
    rw [placeLoop_length ops cfg mappings conns positions]
    unfold processingOrder
    rw [(sortByDesc_perm Prod.snd _).length_eq, List.length_map,
      List.length_range]
  · intro idx cnt rest occupied hf
    exact placeLoop_cons_none ops cfg mappings conns positions idx cnt rest
      occupied _ _ _ _ rfl hf

/-- A concrete unplaceable-label run: with both exclusion zones covering the
whole neighborhood of the star, every sector scores `100 - 200 - 200 = -300`
and is skipped by the `score < -100` test, so the label is unplaceable. -/
theorem c5_score_eval (θ : ℚ) :
    sectorScore (⟨0, id, fun _ => 0, fun _ => 0, fun _ _ => 0⟩ : RealOps ℚ)
      [] [] [] ⟨1000, 1000, 900, 1000, 900, 900⟩ 500 500 [] θ = -300 := by
  unfold sectorScore connAnglePenaltyFold linePenaltyFold labelNearCount
    testPointX testPointY
  simp only [List.foldl_nil, List.countP_nil]
  rw [show titleZone ⟨1000, 1000, 900, 1000, 900, 900⟩ = ⟨35, 45, 965, 1075⟩
    from rfl]
  rw [show watermarkZone ⟨1000, 1000, 900, 1000, 900, 900⟩ = ⟨56, 56, 972, 972⟩
    from rfl]
  have hwm : pointInBox (((500:ℤ):ℚ) + 60 * 0) (((500:ℤ):ℚ) + 60 * 0)
      ⟨56, 56, 972, 972⟩ := by
    unfold pointInBox
    norm_num
  have htitle : pointInBox (((500:ℤ):ℚ) + 60 * 0) (((500:ℤ):ℚ) + 60 * 0)
      ⟨35, 45, 965, 1075⟩ := by
    unfold pointInBox
    norm_num
  rw [if_pos hwm, if_pos htitle]
  norm_num

/-- The sector-score list of the C5 witness run: all twelve sectors score
-300. -/
theorem c5_scores :
    calculateSectorScores
      (⟨0, id, fun _ => 0, fun _ => 0, fun _ _ => 0⟩ : RealOps ℚ)
      0 500 500 [] [] [] ⟨1000, 1000, 900, 1000, 900, 900⟩ 12 =
    (List.range 12).map (fun i => (((i:ℕ):ℚ) * (2 * 0 / ((12:ℕ):ℚ)), -300)) := by
  unfold calculateSectorScores
  rw [show connectionAngles
      (⟨0, id, fun _ => 0, fun _ => 0, fun _ _ => 0⟩ : RealOps ℚ)
      0 500 500 [] [] = [] from rfl]
  rw [show (⟨0, id, fun _ => 0, fun _ => 0, fun _ _ => 0⟩ : RealOps ℚ).pi = 0
    from rfl]
  simp only [c5_score_eval]
  refine sortByDesc_const_key Prod.snd (-300) _ ?_
  intro y hy
  rcases List.mem_map.mp hy with ⟨i, _, rfl⟩
  rfl

/-- The C5 witness search: every sector is skipped, the label is
unplaceable, the search returns `none` after the 12 bounded tries. -/
theorem c5_find :
    findLabelPosition
      (⟨0, id, fun _ => 0, fun _ => 0, fun _ _ => 0⟩ : RealOps ℚ)
      500 500 0 0 [] ⟨1000, 1000, 900, 1000, 900, 900⟩ [(500, 500)] 0 [] [] =
      none := by
  unfold findLabelPosition
  rw [c5_scores]
  rw [show (List.range 12) = [0, 1, 2, 3, 4, 5, 6, 7, 8, 9, 10, 11] from rfl]
  simp only [List.map_cons, List.map_nil]
  iterate 12
    rw [trySectors_cons, if_pos (show (-300:ℚ) < -100 by norm_num)]
  exact trySectors_nil _ _ _ _ _ _ _ _

/-- The unplaceable label of the run above is a recoverable skip: the run
still produces one result per label. -/
theorem c5_skip_run :
    (calculateSectorScores
      (⟨0, id, fun _ => 0, fun _ => 0, fun _ _ => 0⟩ : RealOps ℚ)
      0 500 500 [] [] [] ⟨1000, 1000, 900, 1000, 900, 900⟩ 12).length = 12 ∧
    (addTechLabels (⟨0, id, fun _ => 0, fun _ => 0, fun _ _ => 0⟩ : RealOps ℚ)
      ⟨1000, 1000, 900, 1000, 900, 900⟩ [((500, 500), (0, 0))] [] []).length = 1 ∧
    placeLoop (⟨0, id, fun _ => 0, fun _ => 0, fun _ _ => 0⟩ : RealOps ℚ)
        ⟨1000, 1000, 900, 1000, 900, 900⟩ [((500, 500), (0, 0))] [] []
        [(0, 5)] [] =
      none :: placeLoop (⟨0, id, fun _ => 0, fun _ => 0, fun _ _ => 0⟩ : RealOps ℚ)
        ⟨1000, 1000, 900, 1000, 900, 900⟩ [((500, 500), (0, 0))] [] [] [] [] :=
  ⟨(placement_bounded_and_skip
      (⟨0, id, fun _ => 0, fun _ => 0, fun _ _ => 0⟩ : RealOps ℚ)
      ⟨1000, 1000, 900, 1000, 900, 900⟩ [((500, 500), (0, 0))] [] []).1 0 500 500 [],
   (placement_bounded_and_skip
      (⟨0, id, fun _ => 0, fun _ => 0, fun _ _ => 0⟩ : RealOps ℚ)
      ⟨1000, 1000, 900, 1000, 900, 900⟩ [((500, 500), (0, 0))] [] []).2.2.2.1,
   (placement_bounded_and_skip
      (⟨0, id, fun _ => 0, fun _ => 0, fun _ _ => 0⟩ : RealOps ℚ)
      ⟨1000, 1000, 900, 1000, 900, 900⟩ [((500, 500), (0, 0))] [] []).2.2.2.2
      0 5 [] [] c5_find⟩

/-! ### C10: the other-star proximity check exempts by coordinate equality -/

/-- C10: in `_too_close_to_other_stars` the anchor star is exempted by
coordinate equality, not identity: the check succeeds (the candidate is
rejected) exactly when some star of the list whose coordinates differ from
the anchor coordinates lies strictly closer than 40 px to the label-box
center.  In particular a distinct star located exactly at the anchor
position never triggers the rejection, and a star at any other position
triggers it exactly when its distance to the box center is < 40 px. -/
theorem c10_exempt_by_coordinate_equality {α : Type} [LinearOrderedField α]
    (ops : RealOps α) (tb : Box) (sx sy : ℤ) (allStars : List (ℤ × ℤ)) :
    tooCloseToOtherStars ops tb sx sy allStars ↔
      ∃ p ∈ allStars, ¬ (p.1 = sx ∧ p.2 = sy) ∧
        ops.sqrt (((p.1 : α) - ((tb.x1 : α) + (tb.x2 : α)) / 2) ^ 2 +
          ((p.2 : α) - ((tb.y1 : α) + (tb.y2 : α)) / 2) ^ 2) < 40 :=
  tooCloseToOtherStars_iff ops tb sx sy allStars

/-! ### C6: malformed templates load unvalidated and are skipped at render -/

/-- C6 (counterexample): a template whose edge (0, 5) references a star
index out of range (it has only 2 stars) is returned by the template loader
without any error, and render time is reached: the compositor loop skips
the malformed edge with a warning and still draws the well-formed edge
(0, 1).  There is no fail-fast configuration error at template-load time. -/
theorem c6_counterexample_render_reached :
    getConstellationTemplate
        [⟨"bad", [(300, 200), (700, 180)], [(0, 5), (0, 1)]⟩] 7 =
      ⟨"bad", [(300, 200), (700, 180)], [(0, 5), (0, 1)]⟩ ∧
    composeLines [(300, 200), (700, 180)] [(0, 5), (0, 1)] =
      [((300, 200), (700, 180))] := by
  constructor
  · rfl
  · rfl

/-- C6 (amended): templates are not validated at load time - the loader
returns the catalog entry at `index mod size` for any index, malformed or
not - and an out-of-range edge instead reaches render time, where the
compositor skips exactly that edge and still draws all remaining edges. -/
theorem c6_amended_no_validation_render_skips :
    (∀ (ts : List ConstellationTemplate) (i : ℕ),
      ts ≠ [] → getConstellationTemplate ts i ∈ ts) ∧
    (∀ (positions : List (ℤ × ℤ)) (pre post : List (ℕ × ℕ)) (c : ℕ × ℕ),
      positions.length ≤ c.1 ∨ positions.length ≤ c.2 →
      composeLines positions (pre ++ c :: post) =
        composeLines positions (pre ++ post)) := by
  constructor
  · intro ts i hne
    unfold getConstellationTemplate
    have hlen : 0 < ts.length := List.length_pos.mpr hne
    rw [List.getD_eq_getElem ts _ (Nat.mod_lt i hlen)]
    exact List.getElem_mem _
  · intro positions pre post c hc
    unfold composeLines
    rw [List.filterMap_append, List.filterMap_append, List.filterMap_cons]
    rw [if_pos hc]

/-- Witness for the amended C6 theorem: a concrete catalog and a concrete
malformed edge. -/
theorem c6_amended_witness :
    getConstellationTemplate
        [⟨"bad", [(300, 200), (700, 180)], [(0, 5), (0, 1)]⟩] 3 ∈
      [(⟨"bad", [(300, 200), (700, 180)], [(0, 5), (0, 1)]⟩ :
        ConstellationTemplate)] ∧
    composeLines [(300, 200), (700, 180)] ([] ++ (0, 5) :: [(0, 1)]) =
      composeLines [(300, 200), (700, 180)] ([] ++ [(0, 1)]) :=
  ⟨c6_amended_no_validation_render_skips.1
      [⟨"bad", [(300, 200), (700, 180)], [(0, 5), (0, 1)]⟩] 3 (by simp),
   c6_amended_no_validation_render_skips.2
      [(300, 200), (700, 180)] [] [(0, 1)] (0, 5) (by norm_num)⟩

/-! ### C8: the star-to-technology mapping -/

theorem zip_getD {A B : Type} (d1 : A) (d2 : B) :
    ∀ (l1 : List A) (l2 : List B) (i : ℕ), i < (l1.zip l2).length →
      (l1.zip l2).getD i (d1, d2) = (l1.getD i d1, l2.getD i d2)
  | [], _, i, h => by simp at h
  | a :: l1, [], i, h => by simp at h
  | a :: l1, b :: l2, 0, h => rfl
  | a :: l1, b :: l2, i + 1, h => by
    simp only [List.zip_cons_cons, List.getD_cons_succ]
    exact zip_getD d1 d2 l1 l2 i (by simpa using h)

/-- C8: `TechnologyMapper.map` returns exactly
`min(len(stars), len(technologies))` mappings (0 when either list is empty),
pairing the i-th star (in list order) with the i-th entry of the
technologies sorted by descending score: the sorted list is a permutation of
the input, it is pairwise descending in score, and the i-th mapping is
`(stars[i], sorted_techs[i])`. -/
theorem c8_mapping_pairs (stars : List (ℤ × ℤ)) (techs : List TechItem) :
    (mapStarsToTechs stars techs).length = min stars.length techs.length ∧
    (sortByDesc TechItem.score techs).Perm techs ∧
    (sortByDesc TechItem.score techs).Pairwise (fun a b => b.score ≤ a.score) ∧
    (∀ i, i < (mapStarsToTechs stars techs).length →
      (mapStarsToTechs stars techs).getD i ((0, 0), ⟨0, 0⟩) =
        (stars.getD i (0, 0), (sortByDesc TechItem.score techs).getD i ⟨0, 0⟩)) := by
  refine ⟨?_, sortByDesc_perm TechItem.score techs, ?_, ?_⟩
  · unfold mapStarsToTechs
    split_ifs with h1 h2
    · rw [List.isEmpty_iff.mp h1]
      simp
    · rw [List.isEmpty_iff.mp h2]
      simp
    · rw [List.length_zip, (sortByDesc_perm TechItem.score techs).length_eq]
  · have htriv : techs.Pairwise (fun _ _ => True) := by
      induction techs with
      | nil => exact List.Pairwise.nil
      | cons a l ih => exact List.Pairwise.cons (fun _ _ => trivial) ih
    have h := sortByDesc_pairwise TechItem.score (fun _ _ => True) techs htriv
    refine h.imp ?_
    intro a b hab
    rcases hab with h1 | h1
    · exact le_of_lt h1
    · exact le_of_eq h1.1.symm
  · intro i hi
    unfold mapStarsToTechs at hi ⊢
    split_ifs at hi ⊢ with h1 h2
    · simp at hi
    · simp at hi
    · exact zip_getD (0, 0) ⟨0, 0⟩ stars (sortByDesc TechItem.score techs) i hi

/-- Witness for C8 at a concrete input: two stars, two technologies with
scores 5 and 9; the first star is paired with the score-9 technology. -/
theorem c8_witness :
    (mapStarsToTechs [(1, 2), (3, 4)] [⟨1, 5⟩, ⟨2, 9⟩]).getD 0 ((0, 0), ⟨0, 0⟩) =
      ([((1:ℤ), (2:ℤ)), (3, 4)].getD 0 (0, 0),
       (sortByDesc TechItem.score [⟨1, 5⟩, ⟨2, 9⟩]).getD 0 ⟨0, 0⟩) :=
  (c8_mapping_pairs [(1, 2), (3, 4)] [⟨1, 5⟩, ⟨2, 9⟩]).2.2.2 0 (by decide)

/-! ### C7: the point-to-line distance helper -/

/-- C7: `_point_to_line_distance` returns the distance from the point to the
infinite line through the two endpoints: when the endpoints coincide it
returns the Euclidean point distance (explicit branch, no division by zero),
and otherwise its value is a lower bound of the distances from the point to
every point `(x1, y1) + t * ((x2, y2) - (x1, y1))` of the line and attains
that bound; moreover the concrete value of the claim holds:
the distance from (50, 50) to the segment (0, 0)-(100, 0) equals 50. -/
theorem c7_point_to_line_distance (px py x1 y1 x2 y2 : ℝ) :
    ((x1 = x2 ∧ y1 = y2) →
      pointToLineDistance
        ⟨Real.pi, Real.sqrt, Real.cos, Real.sin, fun y x => Complex.arg ⟨x, y⟩⟩
        px py x1 y1 x2 y2 = Real.sqrt ((px - x1) ^ 2 + (py - y1) ^ 2)) ∧
    (¬ (x1 = x2 ∧ y1 = y2) →
      (∀ t : ℝ, pointToLineDistance
          ⟨Real.pi, Real.sqrt, Real.cos, Real.sin, fun y x => Complex.arg ⟨x, y⟩⟩
          px py x1 y1 x2 y2 ≤
        Real.sqrt ((px - (x1 + t * (x2 - x1))) ^ 2 +
          (py - (y1 + t * (y2 - y1))) ^ 2)) ∧
      (∃ t : ℝ, pointToLineDistance
          ⟨Real.pi, Real.sqrt, Real.cos, Real.sin, fun y x => Complex.arg ⟨x, y⟩⟩
          px py x1 y1 x2 y2 =
        Real.sqrt ((px - (x1 + t * (x2 - x1))) ^ 2 +
          (py - (y1 + t * (y2 - y1))) ^ 2))) ∧
    pointToLineDistance
      ⟨Real.pi, Real.sqrt, Real.cos, Real.sin, fun y x => Complex.arg ⟨x, y⟩⟩
      50 50 0 0 100 0 = 50 := by
  refine ⟨?_, ?_, ?_⟩
  · intro h
    unfold pointToLineDistance
    rw [if_pos h]
  · intro h
    unfold pointToLineDistance
    rw [if_neg h, realLit_sqrt]
    have hD : 0 < (y2 - y1) ^ 2 + (x2 - x1) ^ 2 := by
      rcases not_and_or.mp h with hx | hy
      · have hne : x2 - x1 ≠ 0 := sub_ne_zero.mpr (Ne.symm hx)
        have h2 : 0 < (x2 - x1) ^ 2 :=
          lt_of_le_of_ne (sq_nonneg _) (Ne.symm (pow_ne_zero 2 hne))
        nlinarith [sq_nonneg (y2 - y1)]
      · have hne : y2 - y1 ≠ 0 := sub_ne_zero.mpr (Ne.symm hy)
        have h2 : 0 < (y2 - y1) ^ 2 :=
          lt_of_le_of_ne (sq_nonneg _) (Ne.symm (pow_ne_zero 2 hne))
        nlinarith [sq_nonneg (x2 - x1)]
    have hsD : 0 < Real.sqrt ((y2 - y1) ^ 2 + (x2 - x1) ^ 2) :=
      Real.sqrt_pos.mpr hD
    constructor
    · intro t
      have hq0 : (0:ℝ) ≤ (px - (x1 + t * (x2 - x1))) ^ 2 +
          (py - (y1 + t * (y2 - y1))) ^ 2 := by positivity
      have hid : ((px - (x1 + t * (x2 - x1))) ^ 2 +
            (py - (y1 + t * (y2 - y1))) ^ 2) *
            ((y2 - y1) ^ 2 + (x2 - x1) ^ 2) =
          ((y2 - y1) * px - (x2 - x1) * py + x2 * y1 - y2 * x1) ^ 2 +
          ((px - x1 - t * (x2 - x1)) * (x2 - x1) +
            (py - y1 - t * (y2 - y1)) * (y2 - y1)) ^ 2 := by
        ring
      have hN2 : |(y2 - y1) * px - (x2 - x1) * py + x2 * y1 - y2 * x1| ^ 2 ≤
          ((px - (x1 + t * (x2 - x1))) ^ 2 + (py - (y1 + t * (y2 - y1))) ^ 2) *
            ((y2 - y1) ^ 2 + (x2 - x1) ^ 2) := by
        rw [sq_abs]
        linarith [sq_nonneg ((px - x1 - t * (x2 - x1)) * (x2 - x1) +
          (py - y1 - t * (y2 - y1)) * (y2 - y1)), hid]
      rw [div_le_iff hsD]
      calc |(y2 - y1) * px - (x2 - x1) * py + x2 * y1 - y2 * x1|
          = Real.sqrt (|(y2 - y1) * px - (x2 - x1) * py + x2 * y1 - y2 * x1| ^ 2) :=
            (Real.sqrt_sq (abs_nonneg _)).symm
        _ ≤ Real.sqrt (((px - (x1 + t * (x2 - x1))) ^ 2 +
              (py - (y1 + t * (y2 - y1))) ^ 2) *
              ((y2 - y1) ^ 2 + (x2 - x1) ^ 2)) := Real.sqrt_le_sqrt hN2
        _ = Real.sqrt ((px - (x1 + t * (x2 - x1))) ^ 2 +
              (py - (y1 + t * (y2 - y1))) ^ 2) *
            Real.sqrt ((y2 - y1) ^ 2 + (x2 - x1) ^ 2) := Real.sqrt_mul hq0 _
    · refine ⟨((px - x1) * (x2 - x1) + (py - y1) * (y2 - y1)) /
        ((y2 - y1) ^ 2 + (x2 - x1) ^ 2), ?_⟩
      have hq : (px - (x1 + (((px - x1) * (x2 - x1) + (py - y1) * (y2 - y1)) /
            ((y2 - y1) ^ 2 + (x2 - x1) ^ 2)) * (x2 - x1))) ^ 2 +
          (py - (y1 + (((px - x1) * (x2 - x1) + (py - y1) * (y2 - y1)) /
            ((y2 - y1) ^ 2 + (x2 - x1) ^ 2)) * (y2 - y1))) ^ 2 =
          (|(y2 - y1) * px - (x2 - x1) * py + x2 * y1 - y2 * x1| /
            Real.sqrt ((y2 - y1) ^ 2 + (x2 - x1) ^ 2)) ^ 2 := by
        rw [div_pow, sq_abs, Real.sq_sqrt hD.le]
        field_simp
        ring
      rw [hq, Real.sqrt_sq (by positivity)]
  · unfold pointToLineDistance
    rw [if_neg (by norm_num), realLit_sqrt]
    rw [show ((0:ℝ) - 0) ^ 2 + ((100:ℝ) - 0) ^ 2 = 100 ^ 2 by norm_num]
    rw [Real.sqrt_sq (by norm_num : (0:ℝ) ≤ 100)]
    norm_num

/-- Witness for C7 at the concrete input of the claim: the segment
(0, 0)-(100, 0) is non-degenerate, the value is 50, and 50 is a lower bound
of the distance to the line point at parameter t = 0. -/
theorem c7_witness :
    pointToLineDistance
        ⟨Real.pi, Real.sqrt, Real.cos, Real.sin, fun y x => Complex.arg ⟨x, y⟩⟩
        50 50 0 0 100 0 = 50 ∧
    pointToLineDistance
        ⟨Real.pi, Real.sqrt, Real.cos, Real.sin, fun y x => Complex.arg ⟨x, y⟩⟩
        50 50 0 0 100 0 ≤
      Real.sqrt ((50 - ((0:ℝ) + 0 * (100 - 0))) ^ 2 +
        (50 - ((0:ℝ) + 0 * (0 - 0))) ^ 2) :=
  ⟨(c7_point_to_line_distance 50 50 0 0 100 0).2.2,
   ((c7_point_to_line_distance 50 50 0 0 100 0).2.1 (by norm_num)).1 0⟩

/-! ### C9: helper lemmas for the Cohen-Sutherland loop -/

theorem oc_left_iff {α : Type} [LinearOrderedField α] (xmin ymin xmax ymax x y : α) :
    (computeOutcode xmin ymin xmax ymax x y).left = true ↔ x < xmin := by
  simp [computeOutcode, boolIf_eq_true]

theorem oc_right_iff {α : Type} [LinearOrderedField α] (xmin ymin xmax ymax x y : α) :
    (computeOutcode xmin ymin xmax ymax x y).right = true ↔ ¬ x < xmin ∧ x > xmax := by
  simp [computeOutcode, boolIf_eq_true]

theorem oc_bottom_iff {α : Type} [LinearOrderedField α] (xmin ymin xmax ymax x y : α) :
    (computeOutcode xmin ymin xmax ymax x y).bottom = true ↔ y < ymin := by
  simp [computeOutcode, boolIf_eq_true]

theorem oc_top_iff {α : Type} [LinearOrderedField α] (xmin ymin xmax ymax x y : α) :
    (computeOutcode xmin ymin xmax ymax x y).top = true ↔ ¬ y < ymin ∧ y > ymax := by
  simp [computeOutcode, boolIf_eq_true]

theorem oc_eq_zero_iff (o : Outcode) :
    o = ocZero ↔ o.left = false ∧ o.right = false ∧ o.bottom = false ∧ o.top = false := by
  rcases o with ⟨l, r, b, t⟩
  simp [ocZero]

theorem oc_ne_zero_bits (o : Outcode) (h : o ≠ ocZero) :
    o.left = true ∨ o.right = true ∨ o.bottom = true ∨ o.top = true := by
  rcases o with ⟨l, r, b, t⟩
  revert h
  rcases l <;> rcases r <;> rcases b <;> rcases t <;> decide

theorem ocAnd_zero_disjoint (a b : Outcode) (h : ocAnd a b = ocZero) :
    (a.left = true → b.left = false) ∧ (a.right = true → b.right = false) ∧
    (a.bottom = true → b.bottom = false) ∧ (a.top = true → b.top = false) := by
  rcases a with ⟨l1, r1, b1, t1⟩
  rcases b with ⟨l2, r2, b2, t2⟩
  revert h
  rcases l1 <;> rcases r1 <;> rcases b1 <;> rcases t1 <;>
    rcases l2 <;> rcases r2 <;> rcases b2 <;> rcases t2 <;> decide

theorem ocCount_lt_of (a b : Outcode)
    (hl : a.left = true → b.left = true) (hr : a.right = true → b.right = true)
    (hb : a.bottom = true → b.bottom = true) (ht : a.top = true → b.top = true)
    (hs : (a.left = false ∧ b.left = true) ∨ (a.right = false ∧ b.right = true) ∨
      (a.bottom = false ∧ b.bottom = true) ∨ (a.top = false ∧ b.top = true)) :
    ocCount a < ocCount b := by
  rcases a with ⟨l1, r1, b1, t1⟩
  rcases b with ⟨l2, r2, b2, t2⟩
  revert hl hr hb ht hs
  rcases l1 <;> rcases r1 <;> rcases b1 <;> rcases t1 <;>
    rcases l2 <;> rcases r2 <;> rcases b2 <;> rcases t2 <;> decide

theorem csSelected_of_ne {α : Type} [LinearOrderedField α]
    (xmin ymin xmax ymax : α) (s : CSSeg α)
    (h : (csOutcodes xmin ymin xmax ymax s).1 ≠ ocZero) :
    csSelected xmin ymin xmax ymax s = (csOutcodes xmin ymin xmax ymax s).1 := by
  unfold csSelected
  rw [if_pos h]

theorem csSelected_of_eq {α : Type} [LinearOrderedField α]
    (xmin ymin xmax ymax : α) (s : CSSeg α)
    (h : (csOutcodes xmin ymin xmax ymax s).1 = ocZero) :
    csSelected xmin ymin xmax ymax s = (csOutcodes xmin ymin xmax ymax s).2 := by
  unfold csSelected
  rw [if_neg (not_not_intro h)]

theorem ratio_bounds {α : Type} [LinearOrderedField α] (w u v : α) (hne : u ≠ v)
    (h : (v ≤ w ∧ w ≤ u) ∨ (u ≤ w ∧ w ≤ v)) :
    0 ≤ (w - u) / (v - u) ∧ (w - u) / (v - u) ≤ 1 := by
  rcases h with ⟨h1, h2⟩ | ⟨h1, h2⟩
  · have hvu : v < u := lt_of_le_of_ne (le_trans h1 h2) (fun he => hne he.symm)
    have hd : v - u < 0 := by linarith
    constructor
    · rw [div_nonneg_iff]
      right
      exact ⟨by linarith, by linarith⟩
    · rw [div_le_one_iff]
      right
      right
      exact ⟨hd, by linarith⟩
  · have huv : u < v := lt_of_le_of_ne (le_trans h1 h2) hne
    have hd : 0 < v - u := by linarith
    constructor
    · exact div_nonneg (by linarith) (by linarith)
    · rw [div_le_one hd]
      linarith

theorem interp_between {α : Type} [LinearOrderedField α] (u v t : α)
    (h0 : 0 ≤ t) (h1 : t ≤ 1) :
    (u ≤ u + (v - u) * t ∧ u + (v - u) * t ≤ v) ∨
    (v ≤ u + (v - u) * t ∧ u + (v - u) * t ≤ u) := by
  rcases le_total u v with h | h
  · left
    constructor <;> nlinarith
  · right
    constructor <;> nlinarith

/-- The outcode of a point clipped to a horizontal boundary `w` between
`ymin` and `ymax`, whose x-coordinate lies between two given values: no
y-bit, and any x-bit is inherited from one of the two values. -/
theorem yclip_outcode {α : Type} [LinearOrderedField α]
    (xmin ymin xmax ymax w x1 x2 xc : α) (hym : ymin ≤ w) (hwy : w ≤ ymax)
    (hb : (x1 ≤ xc ∧ xc ≤ x2) ∨ (x2 ≤ xc ∧ xc ≤ x1)) :
    (computeOutcode xmin ymin xmax ymax xc w).bottom = false ∧
    (computeOutcode xmin ymin xmax ymax xc w).top = false ∧
    ((computeOutcode xmin ymin xmax ymax xc w).left = true →
      x1 < xmin ∨ x2 < xmin) ∧
    ((computeOutcode xmin ymin xmax ymax xc w).right = true →
      x1 > xmax ∨ x2 > xmax) := by
  refine ⟨?_, ?_, ?_, ?_⟩
  · rw [Bool.eq_false_iff]
    intro hcon
    have := (oc_bottom_iff xmin ymin xmax ymax xc w).mp hcon
    linarith
  · rw [Bool.eq_false_iff]
    intro hcon
    have := ((oc_top_iff xmin ymin xmax ymax xc w).mp hcon).2
    linarith
  · intro hl
    have hx := (oc_left_iff xmin ymin xmax ymax xc w).mp hl
    rcases hb with ⟨hb1, _⟩ | ⟨hb1, _⟩
    · left
      linarith
    · right
      linarith
  · intro hr
    have hx := ((oc_right_iff xmin ymin xmax ymax xc w).mp hr).2
    rcases hb with ⟨_, hb2⟩ | ⟨_, hb2⟩
    · right
      linarith
    · left
      linarith

/-- The outcode of a point clipped to a vertical boundary `w` between `xmin`
and `xmax`, whose y-coordinate lies between two given values: no x-bit, and
any y-bit is inherited from one of the two values. -/
theorem xclip_outcode {α : Type} [LinearOrderedField α]
    (xmin ymin xmax ymax w y1 y2 yc : α) (hxm : xmin ≤ w) (hwx : w ≤ xmax)
    (hb : (y1 ≤ yc ∧ yc ≤ y2) ∨ (y2 ≤ yc ∧ yc ≤ y1)) :
    (computeOutcode xmin ymin xmax ymax w yc).left = false ∧
    (computeOutcode xmin ymin xmax ymax w yc).right = false ∧
    ((computeOutcode xmin ymin xmax ymax w yc).bottom = true →
      y1 < ymin ∨ y2 < ymin) ∧
    ((computeOutcode xmin ymin xmax ymax w yc).top = true →
      y1 > ymax ∨ y2 > ymax) := by
  refine ⟨?_, ?_, ?_, ?_⟩
  · rw [Bool.eq_false_iff]
    intro hcon
    have := (oc_left_iff xmin ymin xmax ymax w yc).mp hcon
    linarith
  · rw [Bool.eq_false_iff]
    intro hcon
    have := ((oc_right_iff xmin ymin xmax ymax w yc).mp hcon).2
    linarith
  · intro hl
    have hx := (oc_bottom_iff xmin ymin xmax ymax w yc).mp hl
    rcases hb with ⟨hb1, _⟩ | ⟨hb1, _⟩
    · left
      linarith
    · right
      linarith
  · intro hr
    have hx := ((oc_top_iff xmin ymin xmax ymax w yc).mp hr).2
    rcases hb with ⟨_, hb2⟩ | ⟨_, hb2⟩
    · right
      linarith
    · left
      linarith

theorem csClip_eq_top_p1 {α : Type} [LinearOrderedField α]
    (xmin ymin xmax ymax : α) (s : CSSeg α)
    (hne : (csOutcodes xmin ymin xmax ymax s).1 ≠ ocZero)
    (htop : (csOutcodes xmin ymin xmax ymax s).1.top = true) :
    csClip xmin ymin xmax ymax s =
      ⟨s.x1 + (s.x2 - s.x1) * (ymax - s.y1) / (s.y2 - s.y1), ymax, s.x2, s.y2⟩ := by
  unfold csClip
  rw [csSelected_of_ne xmin ymin xmax ymax s hne]
  rw [if_pos htop, if_pos rfl]

theorem cs_dec_top_p1 {α : Type} [LinearOrderedField α]
    (xmin ymin xmax ymax : α) (s : CSSeg α)
    (hxm : xmin ≤ xmax) (hym : ymin ≤ ymax)
    (hand : ocAnd (csOutcodes xmin ymin xmax ymax s).1
      (csOutcodes xmin ymin xmax ymax s).2 = ocZero)
    (hne : (csOutcodes xmin ymin xmax ymax s).1 ≠ ocZero)
    (htop : (csOutcodes xmin ymin xmax ymax s).1.top = true) :
    csUnionCount xmin ymin xmax ymax (csClip xmin ymin xmax ymax s) <
      csUnionCount xmin ymin xmax ymax s := by
  have ho2 := ocAnd_zero_disjoint _ _ hand
  have ho2top : (computeOutcode xmin ymin xmax ymax s.x2 s.y2).top = false :=
    ho2.2.2.2 htop
  have htop' : (computeOutcode xmin ymin xmax ymax s.x1 s.y1).top = true := htop
  have hy1 : s.y1 > ymax := ((oc_top_iff xmin ymin xmax ymax s.x1 s.y1).mp htop').2
  have hy2 : s.y2 ≤ ymax := by
    by_contra hcon
    push_neg at hcon
    have h2 : (computeOutcode xmin ymin xmax ymax s.x2 s.y2).top = true :=
      (oc_top_iff xmin ymin xmax ymax s.x2 s.y2).mpr ⟨by intro hlt; linarith, hcon⟩
    rw [h2] at ho2top
    exact Bool.noConfusion ho2top
  have hne12 : s.y1 ≠ s.y2 := by
    intro he
    rw [he] at hy1
    linarith
  have ht := ratio_bounds ymax s.y1 s.y2 hne12 (Or.inl ⟨hy2, le_of_lt hy1⟩)
  have hx' := interp_between s.x1 s.x2 ((ymax - s.y1) / (s.y2 - s.y1)) ht.1 ht.2
  have hyc := yclip_outcode xmin ymin xmax ymax ymax s.x1 s.x2
    (s.x1 + (s.x2 - s.x1) * ((ymax - s.y1) / (s.y2 - s.y1))) hym (le_refl _) hx'
  rw [csClip_eq_top_p1 xmin ymin xmax ymax s hne htop]
  simp only [csUnionCount, csOutcodes]
  rw [mul_div_assoc]
  apply ocCount_lt_of
  · simp only [ocUnion, Bool.or_eq_true]
    rintro (h | h)
    · rcases hyc.2.2.1 h with h1 | h1
      · exact Or.inl ((oc_left_iff xmin ymin xmax ymax s.x1 s.y1).mpr h1)
      · exact Or.inr ((oc_left_iff xmin ymin xmax ymax s.x2 s.y2).mpr h1)
    · exact Or.inr h
  · simp only [ocUnion, Bool.or_eq_true]
    rintro (h | h)
    · rcases hyc.2.2.2 h with h1 | h1
      · exact Or.inl ((oc_right_iff xmin ymin xmax ymax s.x1 s.y1).mpr
          ⟨by intro hlt; linarith, h1⟩)
      · exact Or.inr ((oc_right_iff xmin ymin xmax ymax s.x2 s.y2).mpr
          ⟨by intro hlt; linarith, h1⟩)
    · exact Or.inr h
  · simp only [ocUnion, Bool.or_eq_true]
    rintro (h | h)
    · rw [hyc.1] at h
      exact Bool.noConfusion h
    · exact Or.inr h
  · simp only [ocUnion, Bool.or_eq_true]
    rintro (h | h)
    · rw [hyc.2.1] at h
      exact Bool.noConfusion h
    · exact Or.inr h
  · right
    right
    right
    constructor
    · simp only [ocUnion]
      rw [hyc.2.1, ho2top]
      rfl
    · simp only [ocUnion]
      rw [htop']
      rfl

theorem bool_ne_true {b : Bool} (h : b = false) : ¬ b = true := by
  rw [h]
  exact Bool.false_ne_true

theorem csClip_eq_top_p2 {α : Type} [LinearOrderedField α]
    (xmin ymin xmax ymax : α) (s : CSSeg α)
    (hz : (csOutcodes xmin ymin xmax ymax s).1 = ocZero)
    (hnz2 : (csOutcodes xmin ymin xmax ymax s).2 ≠ ocZero)
    (hbit : (csOutcodes xmin ymin xmax ymax s).2.top = true) :
    csClip xmin ymin xmax ymax s = ⟨s.x1, s.y1, s.x1 + (s.x2 - s.x1) * (ymax - s.y1) / (s.y2 - s.y1), ymax⟩ := by
  unfold csClip
  rw [csSelected_of_eq xmin ymin xmax ymax s hz]
  rw [if_pos hbit, if_neg (show ¬ ((csOutcodes xmin ymin xmax ymax s).2 = (csOutcodes xmin ymin xmax ymax s).1) from fun he => hnz2 (he.trans hz))]

theorem csClip_eq_bottom_p1 {α : Type} [LinearOrderedField α]
    (xmin ymin xmax ymax : α) (s : CSSeg α)
    (hne : (csOutcodes xmin ymin xmax ymax s).1 ≠ ocZero)
    (hpftop : (csOutcodes xmin ymin xmax ymax s).1.top = false)
    (hbit : (csOutcodes xmin ymin xmax ymax s).1.bottom = true) :
    csClip xmin ymin xmax ymax s = ⟨s.x1 + (s.x2 - s.x1) * (ymin - s.y1) / (s.y2 - s.y1), ymin, s.x2, s.y2⟩ := by
  unfold csClip
  rw [csSelected_of_ne xmin ymin xmax ymax s hne]
  rw [if_neg (bool_ne_true hpftop), if_pos hbit, if_pos rfl]

theorem csClip_eq_bottom_p2 {α : Type} [LinearOrderedField α]
    (xmin ymin xmax ymax : α) (s : CSSeg α)
    (hz : (csOutcodes xmin ymin xmax ymax s).1 = ocZero)
    (hnz2 : (csOutcodes xmin ymin xmax ymax s).2 ≠ ocZero)
    (hpftop : (csOutcodes xmin ymin xmax ymax s).2.top = false)
    (hbit : (csOutcodes xmin ymin xmax ymax s).2.bottom = true) :
    csClip xmin ymin xmax ymax s = ⟨s.x1, s.y1, s.x1 + (s.x2 - s.x1) * (ymin - s.y1) / (s.y2 - s.y1), ymin⟩ := by
  unfold csClip
  rw [csSelected_of_eq xmin ymin xmax ymax s hz]
  rw [if_neg (bool_ne_true hpftop), if_pos hbit, if_neg (show ¬ ((csOutcodes xmin ymin xmax ymax s).2 = (csOutcodes xmin ymin xmax ymax s).1) from fun he => hnz2 (he.trans hz))]

theorem csClip_eq_right_p1 {α : Type} [LinearOrderedField α]
    (xmin ymin xmax ymax : α) (s : CSSeg α)
    (hne : (csOutcodes xmin ymin xmax ymax s).1 ≠ ocZero)
    (hpftop : (csOutcodes xmin ymin xmax ymax s).1.top = false)
    (hpfbottom : (csOutcodes xmin ymin xmax ymax s).1.bottom = false)
    (hbit : (csOutcodes xmin ymin xmax ymax s).1.right = true) :
    csClip xmin ymin xmax ymax s = ⟨xmax, s.y1 + (s.y2 - s.y1) * (xmax - s.x1) / (s.x2 - s.x1), s.x2, s.y2⟩ := by
  unfold csClip
  rw [csSelected_of_ne xmin ymin xmax ymax s hne]
  rw [if_neg (bool_ne_true hpftop), if_neg (bool_ne_true hpfbottom), if_pos hbit, if_pos rfl]

theorem csClip_eq_right_p2 {α : Type} [LinearOrderedField α]
    (xmin ymin xmax ymax : α) (s : CSSeg α)
    (hz : (csOutcodes xmin ymin xmax ymax s).1 = ocZero)
    (hnz2 : (csOutcodes xmin ymin xmax ymax s).2 ≠ ocZero)
    (hpftop : (csOutcodes xmin ymin xmax ymax s).2.top = false)
    (hpfbottom : (csOutcodes xmin ymin xmax ymax s).2.bottom = false)
    (hbit : (csOutcodes xmin ymin xmax ymax s).2.right = true) :
    csClip xmin ymin xmax ymax s = ⟨s.x1, s.y1, xmax, s.y1 + (s.y2 - s.y1) * (xmax - s.x1) / (s.x2 - s.x1)⟩ := by
  unfold csClip
  rw [csSelected_of_eq xmin ymin xmax ymax s hz]
  rw [if_neg (bool_ne_true hpftop), if_neg (bool_ne_true hpfbottom), if_pos hbit, if_neg (show ¬ ((csOutcodes xmin ymin xmax ymax s).2 = (csOutcodes xmin ymin xmax ymax s).1) from fun he => hnz2 (he.trans hz))]

theorem csClip_eq_left_p1 {α : Type} [LinearOrderedField α]
    (xmin ymin xmax ymax : α) (s : CSSeg α)
    (hne : (csOutcodes xmin ymin xmax ymax s).1 ≠ ocZero)
    (hpftop : (csOutcodes xmin ymin xmax ymax s).1.top = false)
    (hpfbottom : (csOutcodes xmin ymin xmax ymax s).1.bottom = false)
    (hpfright : (csOutcodes xmin ymin xmax ymax s).1.right = false)
    (hbit : (csOutcodes xmin ymin xmax ymax s).1.left = true) :
    csClip xmin ymin xmax ymax s = ⟨xmin, s.y1 + (s.y2 - s.y1) * (xmin - s.x1) / (s.x2 - s.x1), s.x2, s.y2⟩ := by
  unfold csClip
  rw [csSelected_of_ne xmin ymin xmax ymax s hne]
  rw [if_neg (bool_ne_true hpftop), if_neg (bool_ne_true hpfbottom), if_neg (bool_ne_true hpfright), if_pos hbit, if_pos rfl]

theorem csClip_eq_left_p2 {α : Type} [LinearOrderedField α]
    (xmin ymin xmax ymax : α) (s : CSSeg α)
    (hz : (csOutcodes xmin ymin xmax ymax s).1 = ocZero)
    (hnz2 : (csOutcodes xmin ymin xmax ymax s).2 ≠ ocZero)
    (hpftop : (csOutcodes xmin ymin xmax ymax s).2.top = false)
    (hpfbottom : (csOutcodes xmin ymin xmax ymax s).2.bottom = false)
    (hpfright : (csOutcodes xmin ymin xmax ymax s).2.right = false)
    (hbit : (csOutcodes xmin ymin xmax ymax s).2.left = true) :
    csClip xmin ymin xmax ymax s = ⟨s.x1, s.y1, xmin, s.y1 + (s.y2 - s.y1) * (xmin - s.x1) / (s.x2 - s.x1)⟩ := by
  unfold csClip
  rw [csSelected_of_eq xmin ymin xmax ymax s hz]
  rw [if_neg (bool_ne_true hpftop), if_neg (bool_ne_true hpfbottom), if_neg (bool_ne_true hpfright), if_pos hbit, if_neg (show ¬ ((csOutcodes xmin ymin xmax ymax s).2 = (csOutcodes xmin ymin xmax ymax s).1) from fun he => hnz2 (he.trans hz))]
theorem cs_dec_top_p2 {α : Type} [LinearOrderedField α]
    (xmin ymin xmax ymax : α) (s : CSSeg α)
    (hxm : xmin ≤ xmax) (hym : ymin ≤ ymax)
    (hand : ocAnd (csOutcodes xmin ymin xmax ymax s).1
      (csOutcodes xmin ymin xmax ymax s).2 = ocZero)
    (hz : (csOutcodes xmin ymin xmax ymax s).1 = ocZero)
    (hnz2 : (csOutcodes xmin ymin xmax ymax s).2 ≠ ocZero)
    (hbit : (csOutcodes xmin ymin xmax ymax s).2.top = true) :
    csUnionCount xmin ymin xmax ymax (csClip xmin ymin xmax ymax s) <
      csUnionCount xmin ymin xmax ymax s := by
  have ho1bits := (oc_eq_zero_iff (csOutcodes xmin ymin xmax ymax s).1).mp hz
  have ho1left : (computeOutcode xmin ymin xmax ymax s.x1 s.y1).left = false := ho1bits.1
  have ho1right : (computeOutcode xmin ymin xmax ymax s.x1 s.y1).right = false := ho1bits.2.1
  have ho1bottom : (computeOutcode xmin ymin xmax ymax s.x1 s.y1).bottom = false := ho1bits.2.2.1
  have ho1top : (computeOutcode xmin ymin xmax ymax s.x1 s.y1).top = false := ho1bits.2.2.2
  have hbit' : (computeOutcode xmin ymin xmax ymax s.x2 s.y2).top = true := hbit
  have hout : s.y2 > ymax := ((oc_top_iff xmin ymin xmax ymax s.x2 s.y2).mp hbit').2
  have hnb1 : ¬ s.y1 < ymin := fun hlt => bool_ne_true ho1bottom ((oc_bottom_iff xmin ymin xmax ymax s.x1 s.y1).mpr hlt)
  have hoth : s.y1 ≤ ymax := by
    by_contra hcon
    push_neg at hcon
    exact bool_ne_true ho1top ((oc_top_iff xmin ymin xmax ymax s.x1 s.y1).mpr ⟨hnb1, hcon⟩)
  have hne12 : s.y1 ≠ s.y2 := by
    intro he
    rw [he] at hoth
    linarith
  have ht := ratio_bounds ymax s.y1 s.y2 hne12 (Or.inr ⟨hoth, le_of_lt hout⟩)
  have hiv := interp_between s.x1 s.x2 ((ymax - s.y1) / (s.y2 - s.y1)) ht.1 ht.2
  have hcl := yclip_outcode xmin ymin xmax ymax ymax s.x1 s.x2
    (s.x1 + (s.x2 - s.x1) * ((ymax - s.y1) / (s.y2 - s.y1))) hym (le_refl _) hiv
  rw [csClip_eq_top_p2 xmin ymin xmax ymax s hz hnz2 hbit]
  simp only [csUnionCount, csOutcodes]
  rw [mul_div_assoc]
  apply ocCount_lt_of
  · simp only [ocUnion, Bool.or_eq_true]
    rintro (h | h)
    · exact Or.inl h
    · rcases hcl.2.2.1 h with h1 | h1
      · exact Or.inl ((oc_left_iff xmin ymin xmax ymax s.x1 s.y1).mpr h1)
      · exact Or.inr ((oc_left_iff xmin ymin xmax ymax s.x2 s.y2).mpr h1)
  · simp only [ocUnion, Bool.or_eq_true]
    rintro (h | h)
    · exact Or.inl h
    · rcases hcl.2.2.2 h with h1 | h1
      · exact Or.inl ((oc_right_iff xmin ymin xmax ymax s.x1 s.y1).mpr
          ⟨by intro hlt; linarith, h1⟩)
      · exact Or.inr ((oc_right_iff xmin ymin xmax ymax s.x2 s.y2).mpr
          ⟨by intro hlt; linarith, h1⟩)
  · simp only [ocUnion, Bool.or_eq_true]
    rintro (h | h)
    · exact Or.inl h
    · rw [hcl.1] at h
      exact Bool.noConfusion h
  · simp only [ocUnion, Bool.or_eq_true]
    rintro (h | h)
    · exact Or.inl h
    · rw [hcl.2.1] at h
      exact Bool.noConfusion h
  · right
    right
    right
    constructor
    · simp only [ocUnion]
      rw [ho1top, hcl.2.1]
      rfl
    · simp only [ocUnion]
      rw [ho1top, hbit']
      rfl

theorem cs_dec_bottom_p1 {α : Type} [LinearOrderedField α]
    (xmin ymin xmax ymax : α) (s : CSSeg α)
    (hxm : xmin ≤ xmax) (hym : ymin ≤ ymax)
    (hand : ocAnd (csOutcodes xmin ymin xmax ymax s).1
      (csOutcodes xmin ymin xmax ymax s).2 = ocZero)
    (hne : (csOutcodes xmin ymin xmax ymax s).1 ≠ ocZero)
    (hpftop : (csOutcodes xmin ymin xmax ymax s).1.top = false)
    (hbit : (csOutcodes xmin ymin xmax ymax s).1.bottom = true) :
    csUnionCount xmin ymin xmax ymax (csClip xmin ymin xmax ymax s) <
      csUnionCount xmin ymin xmax ymax s := by
  have ho2 := ocAnd_zero_disjoint _ _ hand
  have ho2bottom : (computeOutcode xmin ymin xmax ymax s.x2 s.y2).bottom = false := ho2.2.2.1 hbit
  have hbit' : (computeOutcode xmin ymin xmax ymax s.x1 s.y1).bottom = true := hbit
  have hout : s.y1 < ymin := (oc_bottom_iff xmin ymin xmax ymax s.x1 s.y1).mp hbit'
  have hoth : ymin ≤ s.y2 := by
    by_contra hcon
    push_neg at hcon
    exact bool_ne_true ho2bottom ((oc_bottom_iff xmin ymin xmax ymax s.x2 s.y2).mpr hcon)
  have hne12 : s.y1 ≠ s.y2 := by
    intro he
    rw [he] at hout
    linarith
  have ht := ratio_bounds ymin s.y1 s.y2 hne12 (Or.inr ⟨le_of_lt hout, hoth⟩)
  have hiv := interp_between s.x1 s.x2 ((ymin - s.y1) / (s.y2 - s.y1)) ht.1 ht.2
  have hcl := yclip_outcode xmin ymin xmax ymax ymin s.x1 s.x2
    (s.x1 + (s.x2 - s.x1) * ((ymin - s.y1) / (s.y2 - s.y1))) (le_refl _) hym hiv
  rw [csClip_eq_bottom_p1 xmin ymin xmax ymax s hne hpftop hbit]
  simp only [csUnionCount, csOutcodes]
  rw [mul_div_assoc]
  apply ocCount_lt_of
  · simp only [ocUnion, Bool.or_eq_true]
    rintro (h | h)
    · rcases hcl.2.2.1 h with h1 | h1
      · exact Or.inl ((oc_left_iff xmin ymin xmax ymax s.x1 s.y1).mpr h1)
      · exact Or.inr ((oc_left_iff xmin ymin xmax ymax s.x2 s.y2).mpr h1)
    · exact Or.inr h
  · simp only [ocUnion, Bool.or_eq_true]
    rintro (h | h)
    · rcases hcl.2.2.2 h with h1 | h1
      · exact Or.inl ((oc_right_iff xmin ymin xmax ymax s.x1 s.y1).mpr
          ⟨by intro hlt; linarith, h1⟩)
      · exact Or.inr ((oc_right_iff xmin ymin xmax ymax s.x2 s.y2).mpr
          ⟨by intro hlt; linarith, h1⟩)
    · exact Or.inr h
  · simp only [ocUnion, Bool.or_eq_true]
    rintro (h | h)
    · rw [hcl.1] at h
      exact Bool.noConfusion h
    · exact Or.inr h
  · simp only [ocUnion, Bool.or_eq_true]
    rintro (h | h)
    · rw [hcl.2.1] at h
      exact Bool.noConfusion h
    · exact Or.inr h
  · right
    right
    left
    constructor
    · simp only [ocUnion]
      rw [hcl.1, ho2bottom]
      rfl
    · simp only [ocUnion]
      rw [hbit']
      rfl

theorem cs_dec_bottom_p2 {α : Type} [LinearOrderedField α]
    (xmin ymin xmax ymax : α) (s : CSSeg α)
    (hxm : xmin ≤ xmax) (hym : ymin ≤ ymax)
    (hand : ocAnd (csOutcodes xmin ymin xmax ymax s).1
      (csOutcodes xmin ymin xmax ymax s).2 = ocZero)
    (hz : (csOutcodes xmin ymin xmax ymax s).1 = ocZero)
    (hnz2 : (csOutcodes xmin ymin xmax ymax s).2 ≠ ocZero)
    (hpftop : (csOutcodes xmin ymin xmax ymax s).2.top = false)
    (hbit : (csOutcodes xmin ymin xmax ymax s).2.bottom = true) :
    csUnionCount xmin ymin xmax ymax (csClip xmin ymin xmax ymax s) <
      csUnionCount xmin ymin xmax ymax s := by
  have ho1bits := (oc_eq_zero_iff (csOutcodes xmin ymin xmax ymax s).1).mp hz
  have ho1left : (computeOutcode xmin ymin xmax ymax s.x1 s.y1).left = false := ho1bits.1
  have ho1right : (computeOutcode xmin ymin xmax ymax s.x1 s.y1).right = false := ho1bits.2.1
  have ho1bottom : (computeOutcode xmin ymin xmax ymax s.x1 s.y1).bottom = false := ho1bits.2.2.1
  have ho1top : (computeOutcode xmin ymin xmax ymax s.x1 s.y1).top = false := ho1bits.2.2.2
  have hbit' : (computeOutcode xmin ymin xmax ymax s.x2 s.y2).bottom = true := hbit
  have hout : s.y2 < ymin := (oc_bottom_iff xmin ymin xmax ymax s.x2 s.y2).mp hbit'
  have hoth : ymin ≤ s.y1 := by
    by_contra hcon
    push_neg at hcon
    exact bool_ne_true ho1bottom ((oc_bottom_iff xmin ymin xmax ymax s.x1 s.y1).mpr hcon)
  have hne12 : s.y1 ≠ s.y2 := by
    intro he
    rw [he] at hoth
    linarith
  have ht := ratio_bounds ymin s.y1 s.y2 hne12 (Or.inl ⟨le_of_lt hout, hoth⟩)
  have hiv := interp_between s.x1 s.x2 ((ymin - s.y1) / (s.y2 - s.y1)) ht.1 ht.2
  have hcl := yclip_outcode xmin ymin xmax ymax ymin s.x1 s.x2
    (s.x1 + (s.x2 - s.x1) * ((ymin - s.y1) / (s.y2 - s.y1))) (le_refl _) hym hiv
  rw [csClip_eq_bottom_p2 xmin ymin xmax ymax s hz hnz2 hpftop hbit]
  simp only [csUnionCount, csOutcodes]
  rw [mul_div_assoc]
  apply ocCount_lt_of
  · simp only [ocUnion, Bool.or_eq_true]
    rintro (h | h)
    · exact Or.inl h
    · rcases hcl.2.2.1 h with h1 | h1
      · exact Or.inl ((oc_left_iff xmin ymin xmax ymax s.x1 s.y1).mpr h1)
      · exact Or.inr ((oc_left_iff xmin ymin xmax ymax s.x2 s.y2).mpr h1)
  · simp only [ocUnion, Bool.or_eq_true]
    rintro (h | h)
    · exact Or.inl h
    · rcases hcl.2.2.2 h with h1 | h1
      · exact Or.inl ((oc_right_iff xmin ymin xmax ymax s.x1 s.y1).mpr
          ⟨by intro hlt; linarith, h1⟩)
      · exact Or.inr ((oc_right_iff xmin ymin xmax ymax s.x2 s.y2).mpr
          ⟨by intro hlt; linarith, h1⟩)
  · simp only [ocUnion, Bool.or_eq_true]
    rintro (h | h)
    · exact Or.inl h
    · rw [hcl.1] at h
      exact Bool.noConfusion h
  · simp only [ocUnion, Bool.or_eq_true]
    rintro (h | h)
    · exact Or.inl h
    · rw [hcl.2.1] at h
      exact Bool.noConfusion h
  · right
    right
    left
    constructor
    · simp only [ocUnion]
      rw [ho1bottom, hcl.1]
      rfl
    · simp only [ocUnion]
      rw [ho1bottom, hbit']
      rfl

theorem cs_dec_right_p1 {α : Type} [LinearOrderedField α]
    (xmin ymin xmax ymax : α) (s : CSSeg α)
    (hxm : xmin ≤ xmax) (hym : ymin ≤ ymax)
    (hand : ocAnd (csOutcodes xmin ymin xmax ymax s).1
      (csOutcodes xmin ymin xmax ymax s).2 = ocZero)
    (hne : (csOutcodes xmin ymin xmax ymax s).1 ≠ ocZero)
    (hpftop : (csOutcodes xmin ymin xmax ymax s).1.top = false)
    (hpfbottom : (csOutcodes xmin ymin xmax ymax s).1.bottom = false)
    (hbit : (csOutcodes xmin ymin xmax ymax s).1.right = true) :
    csUnionCount xmin ymin xmax ymax (csClip xmin ymin xmax ymax s) <
      csUnionCount xmin ymin xmax ymax s := by
  have ho2 := ocAnd_zero_disjoint _ _ hand
  have ho2right : (computeOutcode xmin ymin xmax ymax s.x2 s.y2).right = false := ho2.2.1 hbit
  have hbit' : (computeOutcode xmin ymin xmax ymax s.x1 s.y1).right = true := hbit
  have hout : s.x1 > xmax := ((oc_right_iff xmin ymin xmax ymax s.x1 s.y1).mp hbit').2
  have hoth : s.x2 ≤ xmax := by
    by_contra hcon
    push_neg at hcon
    exact bool_ne_true ho2right ((oc_right_iff xmin ymin xmax ymax s.x2 s.y2).mpr ⟨by intro hlt; linarith, hcon⟩)
  have hne12 : s.x1 ≠ s.x2 := by
    intro he
    rw [he] at hout
    linarith
  have ht := ratio_bounds xmax s.x1 s.x2 hne12 (Or.inl ⟨hoth, le_of_lt hout⟩)
  have hiv := interp_between s.y1 s.y2 ((xmax - s.x1) / (s.x2 - s.x1)) ht.1 ht.2
  have hcl := xclip_outcode xmin ymin xmax ymax xmax s.y1 s.y2
    (s.y1 + (s.y2 - s.y1) * ((xmax - s.x1) / (s.x2 - s.x1))) hxm (le_refl _) hiv
  rw [csClip_eq_right_p1 xmin ymin xmax ymax s hne hpftop hpfbottom hbit]
  simp only [csUnionCount, csOutcodes]
  rw [mul_div_assoc]
  apply ocCount_lt_of
  · simp only [ocUnion, Bool.or_eq_true]
    rintro (h | h)
    · rw [hcl.1] at h
      exact Bool.noConfusion h
    · exact Or.inr h
  · simp only [ocUnion, Bool.or_eq_true]
    rintro (h | h)
    · rw [hcl.2.1] at h
      exact Bool.noConfusion h
    · exact Or.inr h
  · simp only [ocUnion, Bool.or_eq_true]
    rintro (h | h)
    · rcases hcl.2.2.1 h with h1 | h1
      · exact Or.inl ((oc_bottom_iff xmin ymin xmax ymax s.x1 s.y1).mpr h1)
      · exact Or.inr ((oc_bottom_iff xmin ymin xmax ymax s.x2 s.y2).mpr h1)
    · exact Or.inr h
  · simp only [ocUnion, Bool.or_eq_true]
    rintro (h | h)
    · rcases hcl.2.2.2 h with h1 | h1
      · exact Or.inl ((oc_top_iff xmin ymin xmax ymax s.x1 s.y1).mpr
          ⟨by intro hlt; linarith, h1⟩)
      · exact Or.inr ((oc_top_iff xmin ymin xmax ymax s.x2 s.y2).mpr
          ⟨by intro hlt; linarith, h1⟩)
    · exact Or.inr h
  · right
    left
    constructor
    · simp only [ocUnion]
      rw [hcl.2.1, ho2right]
      rfl
    · simp only [ocUnion]
      rw [hbit']
      rfl

theorem cs_dec_right_p2 {α : Type} [LinearOrderedField α]
    (xmin ymin xmax ymax : α) (s : CSSeg α)
    (hxm : xmin ≤ xmax) (hym : ymin ≤ ymax)
    (hand : ocAnd (csOutcodes xmin ymin xmax ymax s).1
      (csOutcodes xmin ymin xmax ymax s).2 = ocZero)
    (hz : (csOutcodes xmin ymin xmax ymax s).1 = ocZero)
    (hnz2 : (csOutcodes xmin ymin xmax ymax s).2 ≠ ocZero)
    (hpftop : (csOutcodes xmin ymin xmax ymax s).2.top = false)
    (hpfbottom : (csOutcodes xmin ymin xmax ymax s).2.bottom = false)
    (hbit : (csOutcodes xmin ymin xmax ymax s).2.right = true) :
    csUnionCount xmin ymin xmax ymax (csClip xmin ymin xmax ymax s) <
      csUnionCount xmin ymin xmax ymax s := by
  have ho1bits := (oc_eq_zero_iff (csOutcodes xmin ymin xmax ymax s).1).mp hz
  have ho1left : (computeOutcode xmin ymin xmax ymax s.x1 s.y1).left = false := ho1bits.1
  have ho1right : (computeOutcode xmin ymin xmax ymax s.x1 s.y1).right = false := ho1bits.2.1
  have ho1bottom : (computeOutcode xmin ymin xmax ymax s.x1 s.y1).bottom = false := ho1bits.2.2.1
  have ho1top : (computeOutcode xmin ymin xmax ymax s.x1 s.y1).top = false := ho1bits.2.2.2
  have hbit' : (computeOutcode xmin ymin xmax ymax s.x2 s.y2).right = true := hbit
  have hout : s.x2 > xmax := ((oc_right_iff xmin ymin xmax ymax s.x2 s.y2).mp hbit').2
  have hnl1 : ¬ s.x1 < xmin := fun hlt => bool_ne_true ho1left ((oc_left_iff xmin ymin xmax ymax s.x1 s.y1).mpr hlt)
  have hoth : s.x1 ≤ xmax := by
    by_contra hcon
    push_neg at hcon
    exact bool_ne_true ho1right ((oc_right_iff xmin ymin xmax ymax s.x1 s.y1).mpr ⟨hnl1, hcon⟩)
  have hne12 : s.x1 ≠ s.x2 := by
    intro he
    rw [he] at hoth
    linarith
  have ht := ratio_bounds xmax s.x1 s.x2 hne12 (Or.inr ⟨hoth, le_of_lt hout⟩)
  have hiv := interp_between s.y1 s.y2 ((xmax - s.x1) / (s.x2 - s.x1)) ht.1 ht.2
  have hcl := xclip_outcode xmin ymin xmax ymax xmax s.y1 s.y2
    (s.y1 + (s.y2 - s.y1) * ((xmax - s.x1) / (s.x2 - s.x1))) hxm (le_refl _) hiv
  rw [csClip_eq_right_p2 xmin ymin xmax ymax s hz hnz2 hpftop hpfbottom hbit]
  simp only [csUnionCount, csOutcodes]
  rw [mul_div_assoc]
  apply ocCount_lt_of
  · simp only [ocUnion, Bool.or_eq_true]
    rintro (h | h)
    · exact Or.inl h
    · rw [hcl.1] at h
      exact Bool.noConfusion h
  · simp only [ocUnion, Bool.or_eq_true]
    rintro (h | h)
    · exact Or.inl h
    · rw [hcl.2.1] at h
      exact Bool.noConfusion h
  · simp only [ocUnion, Bool.or_eq_true]
    rintro (h | h)
    · exact Or.inl h
    · rcases hcl.2.2.1 h with h1 | h1
      · exact Or.inl ((oc_bottom_iff xmin ymin xmax ymax s.x1 s.y1).mpr h1)
      · exact Or.inr ((oc_bottom_iff xmin ymin xmax ymax s.x2 s.y2).mpr h1)
  · simp only [ocUnion, Bool.or_eq_true]
    rintro (h | h)
    · exact Or.inl h
    · rcases hcl.2.2.2 h with h1 | h1
      · exact Or.inl ((oc_top_iff xmin ymin xmax ymax s.x1 s.y1).mpr
          ⟨by intro hlt; linarith, h1⟩)
      · exact Or.inr ((oc_top_iff xmin ymin xmax ymax s.x2 s.y2).mpr
          ⟨by intro hlt; linarith, h1⟩)
  · right
    left
    constructor
    · simp only [ocUnion]
      rw [ho1right, hcl.2.1]
      rfl
    · simp only [ocUnion]
      rw [ho1right, hbit']
      rfl

theorem cs_dec_left_p1 {α : Type} [LinearOrderedField α]
    (xmin ymin xmax ymax : α) (s : CSSeg α)
    (hxm : xmin ≤ xmax) (hym : ymin ≤ ymax)
    (hand : ocAnd (csOutcodes xmin ymin xmax ymax s).1
      (csOutcodes xmin ymin xmax ymax s).2 = ocZero)
    (hne : (csOutcodes xmin ymin xmax ymax s).1 ≠ ocZero)
    (hpftop : (csOutcodes xmin ymin xmax ymax s).1.top = false)
    (hpfbottom : (csOutcodes xmin ymin xmax ymax s).1.bottom = false)
    (hpfright : (csOutcodes xmin ymin xmax ymax s).1.right = false)
    (hbit : (csOutcodes xmin ymin xmax ymax s).1.left = true) :
    csUnionCount xmin ymin xmax ymax (csClip xmin ymin xmax ymax s) <
      csUnionCount xmin ymin xmax ymax s := by
  have ho2 := ocAnd_zero_disjoint _ _ hand
  have ho2left : (computeOutcode xmin ymin xmax ymax s.x2 s.y2).left = false := ho2.1 hbit
  have hbit' : (computeOutcode xmin ymin xmax ymax s.x1 s.y1).left = true := hbit
  have hout : s.x1 < xmin := (oc_left_iff xmin ymin xmax ymax s.x1 s.y1).mp hbit'
  have hoth : xmin ≤ s.x2 := by
    by_contra hcon
    push_neg at hcon
    exact bool_ne_true ho2left ((oc_left_iff xmin ymin xmax ymax s.x2 s.y2).mpr hcon)
  have hne12 : s.x1 ≠ s.x2 := by
    intro he
    rw [he] at hout
    linarith
  have ht := ratio_bounds xmin s.x1 s.x2 hne12 (Or.inr ⟨le_of_lt hout, hoth⟩)
  have hiv := interp_between s.y1 s.y2 ((xmin - s.x1) / (s.x2 - s.x1)) ht.1 ht.2
  have hcl := xclip_outcode xmin ymin xmax ymax xmin s.y1 s.y2
    (s.y1 + (s.y2 - s.y1) * ((xmin - s.x1) / (s.x2 - s.x1))) (le_refl _) hxm hiv
  rw [csClip_eq_left_p1 xmin ymin xmax ymax s hne hpftop hpfbottom hpfright hbit]
  simp only [csUnionCount, csOutcodes]
  rw [mul_div_assoc]
  apply ocCount_lt_of
  · simp only [ocUnion, Bool.or_eq_true]
    rintro (h | h)
    · rw [hcl.1] at h
      exact Bool.noConfusion h
    · exact Or.inr h
  · simp only [ocUnion, Bool.or_eq_true]
    rintro (h | h)
    · rw [hcl.2.1] at h
      exact Bool.noConfusion h
    · exact Or.inr h
  · simp only [ocUnion, Bool.or_eq_true]
    rintro (h | h)
    · rcases hcl.2.2.1 h with h1 | h1
      · exact Or.inl ((oc_bottom_iff xmin ymin xmax ymax s.x1 s.y1).mpr h1)
      · exact Or.inr ((oc_bottom_iff xmin ymin xmax ymax s.x2 s.y2).mpr h1)
    · exact Or.inr h
  · simp only [ocUnion, Bool.or_eq_true]
    rintro (h | h)
    · rcases hcl.2.2.2 h with h1 | h1
      · exact Or.inl ((oc_top_iff xmin ymin xmax ymax s.x1 s.y1).mpr
          ⟨by intro hlt; linarith, h1⟩)
      · exact Or.inr ((oc_top_iff xmin ymin xmax ymax s.x2 s.y2).mpr
          ⟨by intro hlt; linarith, h1⟩)
    · exact Or.inr h
  · left
    constructor
    · simp only [ocUnion]
      rw [hcl.1, ho2left]
      rfl
    · simp only [ocUnion]
      rw [hbit']
      rfl

theorem cs_dec_left_p2 {α : Type} [LinearOrderedField α]
    (xmin ymin xmax ymax : α) (s : CSSeg α)
    (hxm : xmin ≤ xmax) (hym : ymin ≤ ymax)
    (hand : ocAnd (csOutcodes xmin ymin xmax ymax s).1
      (csOutcodes xmin ymin xmax ymax s).2 = ocZero)
    (hz : (csOutcodes xmin ymin xmax ymax s).1 = ocZero)
    (hnz2 : (csOutcodes xmin ymin xmax ymax s).2 ≠ ocZero)
    (hpftop : (csOutcodes xmin ymin xmax ymax s).2.top = false)
    (hpfbottom : (csOutcodes xmin ymin xmax ymax s).2.bottom = false)
    (hpfright : (csOutcodes xmin ymin xmax ymax s).2.right = false)
    (hbit : (csOutcodes xmin ymin xmax ymax s).2.left = true) :
    csUnionCount xmin ymin xmax ymax (csClip xmin ymin xmax ymax s) <
      csUnionCount xmin ymin xmax ymax s := by
  have ho1bits := (oc_eq_zero_iff (csOutcodes xmin ymin xmax ymax s).1).mp hz
  have ho1left : (computeOutcode xmin ymin xmax ymax s.x1 s.y1).left = false := ho1bits.1
  have ho1right : (computeOutcode xmin ymin xmax ymax s.x1 s.y1).right = false := ho1bits.2.1
  have ho1bottom : (computeOutcode xmin ymin xmax ymax s.x1 s.y1).bottom = false := ho1bits.2.2.1
  have ho1top : (computeOutcode xmin ymin xmax ymax s.x1 s.y1).top = false := ho1bits.2.2.2
  have hbit' : (computeOutcode xmin ymin xmax ymax s.x2 s.y2).left = true := hbit
  have hout : s.x2 < xmin := (oc_left_iff xmin ymin xmax ymax s.x2 s.y2).mp hbit'
  have hoth : xmin ≤ s.x1 := by
    by_contra hcon
    push_neg at hcon
    exact bool_ne_true ho1left ((oc_left_iff xmin ymin xmax ymax s.x1 s.y1).mpr hcon)
  have hne12 : s.x1 ≠ s.x2 := by
    intro he
    rw [he] at hoth
    linarith
  have ht := ratio_bounds xmin s.x1 s.x2 hne12 (Or.inl ⟨le_of_lt hout, hoth⟩)
  have hiv := interp_between s.y1 s.y2 ((xmin - s.x1) / (s.x2 - s.x1)) ht.1 ht.2
  have hcl := xclip_outcode xmin ymin xmax ymax xmin s.y1 s.y2
    (s.y1 + (s.y2 - s.y1) * ((xmin - s.x1) / (s.x2 - s.x1))) (le_refl _) hxm hiv
  rw [csClip_eq_left_p2 xmin ymin xmax ymax s hz hnz2 hpftop hpfbottom hpfright hbit]
  simp only [csUnionCount, csOutcodes]
  rw [mul_div_assoc]
  apply ocCount_lt_of
  · simp only [ocUnion, Bool.or_eq_true]
    rintro (h | h)
    · exact Or.inl h
    · rw [hcl.1] at h
      exact Bool.noConfusion h
  · simp only [ocUnion, Bool.or_eq_true]
    rintro (h | h)
    · exact Or.inl h
    · rw [hcl.2.1] at h
      exact Bool.noConfusion h
  · simp only [ocUnion, Bool.or_eq_true]
    rintro (h | h)
    · exact Or.inl h
    · rcases hcl.2.2.1 h with h1 | h1
      · exact Or.inl ((oc_bottom_iff xmin ymin xmax ymax s.x1 s.y1).mpr h1)
      · exact Or.inr ((oc_bottom_iff xmin ymin xmax ymax s.x2 s.y2).mpr h1)
  · simp only [ocUnion, Bool.or_eq_true]
    rintro (h | h)
    · exact Or.inl h
    · rcases hcl.2.2.2 h with h1 | h1
      · exact Or.inl ((oc_top_iff xmin ymin xmax ymax s.x1 s.y1).mpr
          ⟨by intro hlt; linarith, h1⟩)
      · exact Or.inr ((oc_top_iff xmin ymin xmax ymax s.x2 s.y2).mpr
          ⟨by intro hlt; linarith, h1⟩)
  · left
    constructor
    · simp only [ocUnion]
      rw [ho1left, hcl.1]
      rfl
    · simp only [ocUnion]
      rw [ho1left, hbit']
      rfl

theorem cs_dec_clip {α : Type} [LinearOrderedField α]
    (xmin ymin xmax ymax : α) (s : CSSeg α)
    (hxm : xmin ≤ xmax) (hym : ymin ≤ ymax)
    (hcase : csClipCase xmin ymin xmax ymax s) :
    csUnionCount xmin ymin xmax ymax (csClip xmin ymin xmax ymax s) <
      csUnionCount xmin ymin xmax ymax s := by
  obtain ⟨hnboth, hand⟩ := hcase
  by_cases hz : (csOutcodes xmin ymin xmax ymax s).1 = ocZero
  · have hnz2 : (csOutcodes xmin ymin xmax ymax s).2 ≠ ocZero :=
      fun h2 => hnboth ⟨hz, h2⟩
    by_cases ht : (csOutcodes xmin ymin xmax ymax s).2.top = true
    · exact cs_dec_top_p2 xmin ymin xmax ymax s hxm hym hand hz hnz2 ht
    · have ht' := Bool.eq_false_iff.mpr ht
      by_cases hb : (csOutcodes xmin ymin xmax ymax s).2.bottom = true
      · exact cs_dec_bottom_p2 xmin ymin xmax ymax s hxm hym hand hz hnz2 ht' hb
      · have hb' := Bool.eq_false_iff.mpr hb
        by_cases hr : (csOutcodes xmin ymin xmax ymax s).2.right = true
        · exact cs_dec_right_p2 xmin ymin xmax ymax s hxm hym hand hz hnz2 ht' hb' hr
        · have hr' := Bool.eq_false_iff.mpr hr
          by_cases hl : (csOutcodes xmin ymin xmax ymax s).2.left = true
          · exact cs_dec_left_p2 xmin ymin xmax ymax s hxm hym hand hz hnz2 ht' hb' hr' hl
          · have hl' := Bool.eq_false_iff.mpr hl
            exact absurd ((oc_eq_zero_iff _).mpr ⟨hl', hr', hb', ht'⟩) hnz2
  · by_cases ht : (csOutcodes xmin ymin xmax ymax s).1.top = true
    · exact cs_dec_top_p1 xmin ymin xmax ymax s hxm hym hand hz ht
    · have ht' := Bool.eq_false_iff.mpr ht
      by_cases hb : (csOutcodes xmin ymin xmax ymax s).1.bottom = true
      · exact cs_dec_bottom_p1 xmin ymin xmax ymax s hxm hym hand hz ht' hb
      · have hb' := Bool.eq_false_iff.mpr hb
        by_cases hr : (csOutcodes xmin ymin xmax ymax s).1.right = true
        · exact cs_dec_right_p1 xmin ymin xmax ymax s hxm hym hand hz ht' hb' hr
        · have hr' := Bool.eq_false_iff.mpr hr
          by_cases hl : (csOutcodes xmin ymin xmax ymax s).1.left = true
          · exact cs_dec_left_p1 xmin ymin xmax ymax s hxm hym hand hz ht' hb' hr' hl
          · have hl' := Bool.eq_false_iff.mpr hl
            exact absurd ((oc_eq_zero_iff _).mpr ⟨hl', hr', hb', ht'⟩) hz

theorem cs_divsafe {α : Type} [LinearOrderedField α]
    (xmin ymin xmax ymax : α) (s : CSSeg α)
    (hcase : csClipCase xmin ymin xmax ymax s) :
    (((csSelected xmin ymin xmax ymax s).top = true ∨
      (csSelected xmin ymin xmax ymax s).bottom = true) → s.y1 ≠ s.y2) ∧
    (((csSelected xmin ymin xmax ymax s).left = true ∨
      (csSelected xmin ymin xmax ymax s).right = true) → s.x1 ≠ s.x2) := by
  obtain ⟨hnboth, hand⟩ := hcase
  have hdisj := ocAnd_zero_disjoint _ _ hand
  by_cases hz : (csOutcodes xmin ymin xmax ymax s).1 = ocZero
  · rw [csSelected_of_eq xmin ymin xmax ymax s hz]
    have hb := (oc_eq_zero_iff (csOutcodes xmin ymin xmax ymax s).1).mp hz
    constructor
    · rintro (h | h) he
      · have h1 := (oc_top_iff xmin ymin xmax ymax s.x2 s.y2).mp h
        exact bool_ne_true hb.2.2.2
          ((oc_top_iff xmin ymin xmax ymax s.x1 s.y1).mpr (by rw [he]; exact h1))
      · have h1 := (oc_bottom_iff xmin ymin xmax ymax s.x2 s.y2).mp h
        exact bool_ne_true hb.2.2.1
          ((oc_bottom_iff xmin ymin xmax ymax s.x1 s.y1).mpr (by rw [he]; exact h1))
    · rintro (h | h) he
      · have h1 := (oc_left_iff xmin ymin xmax ymax s.x2 s.y2).mp h
        exact bool_ne_true hb.1
          ((oc_left_iff xmin ymin xmax ymax s.x1 s.y1).mpr (by rw [he]; exact h1))
      · have h1 := (oc_right_iff xmin ymin xmax ymax s.x2 s.y2).mp h
        exact bool_ne_true hb.2.1
          ((oc_right_iff xmin ymin xmax ymax s.x1 s.y1).mpr (by rw [he]; exact h1))
  · rw [csSelected_of_ne xmin ymin xmax ymax s hz]
    constructor
    · rintro (h | h) he
      · have h1 := (oc_top_iff xmin ymin xmax ymax s.x1 s.y1).mp h
        exact bool_ne_true (hdisj.2.2.2 h)
          ((oc_top_iff xmin ymin xmax ymax s.x2 s.y2).mpr (by rw [← he]; exact h1))
      · have h1 := (oc_bottom_iff xmin ymin xmax ymax s.x1 s.y1).mp h
        exact bool_ne_true (hdisj.2.2.1 h)
          ((oc_bottom_iff xmin ymin xmax ymax s.x2 s.y2).mpr (by rw [← he]; exact h1))
    · rintro (h | h) he
      · have h1 := (oc_left_iff xmin ymin xmax ymax s.x1 s.y1).mp h
        exact bool_ne_true (hdisj.1 h)
          ((oc_left_iff xmin ymin xmax ymax s.x2 s.y2).mpr (by rw [← he]; exact h1))
      · have h1 := (oc_right_iff xmin ymin xmax ymax s.x1 s.y1).mp h
        exact bool_ne_true (hdisj.2.1 h)
          ((oc_right_iff xmin ymin xmax ymax s.x2 s.y2).mpr (by rw [← he]; exact h1))

theorem ocUnion_eq_zero (a b : Outcode) (h : ocUnion a b = ocZero) :
    a = ocZero ∧ b = ocZero := by
  rcases a with ⟨l1, r1, b1, t1⟩
  rcases b with ⟨l2, r2, b2, t2⟩
  revert h
  rcases l1 <;> rcases r1 <;> rcases b1 <;> rcases t1 <;>
    rcases l2 <;> rcases r2 <;> rcases b2 <;> rcases t2 <;> decide

theorem ocCount_eq_zero (o : Outcode) (h : ocCount o = 0) : o = ocZero := by
  rcases o with ⟨l, r, b, t⟩
  revert h
  rcases l <;> rcases r <;> rcases b <;> rcases t <;> decide

theorem ocCount_le_four (o : Outcode) : ocCount o ≤ 4 := by
  rcases o with ⟨l, r, b, t⟩
  rcases l <;> rcases r <;> rcases b <;> rcases t <;> decide

theorem csLoop_succ {α : Type} [LinearOrderedField α]
    (xmin ymin xmax ymax : α) (fuel : ℕ) (s : CSSeg α) :
    csLoop xmin ymin xmax ymax (fuel + 1) s =
      if (csOutcodes xmin ymin xmax ymax s).1 = ocZero ∧
         (csOutcodes xmin ymin xmax ymax s).2 = ocZero then some true
      else if ocAnd (csOutcodes xmin ymin xmax ymax s).1
          (csOutcodes xmin ymin xmax ymax s).2 ≠ ocZero then some false
      else csLoop xmin ymin xmax ymax fuel (csClip xmin ymin xmax ymax s) := rfl

theorem csLoop_some_of_count {α : Type} [LinearOrderedField α]
    (xmin ymin xmax ymax : α)
    (hxm : xmin ≤ xmax) (hym : ymin ≤ ymax) :
    ∀ n (s : CSSeg α), csUnionCount xmin ymin xmax ymax s ≤ n →
      ∃ b, csLoop xmin ymin xmax ymax (n + 1) s = some b := by
  intro n
  induction n with
  | zero =>
    intro s h
    have h0 : csUnionCount xmin ymin xmax ymax s = 0 := Nat.le_zero.mp h
    have hz := ocUnion_eq_zero _ _ (ocCount_eq_zero _ h0)
    exact ⟨true, by rw [csLoop_succ, if_pos hz]⟩
  | succ n ih =>
    intro s h
    rw [csLoop_succ]
    by_cases h1 : (csOutcodes xmin ymin xmax ymax s).1 = ocZero ∧
        (csOutcodes xmin ymin xmax ymax s).2 = ocZero
    · exact ⟨true, by rw [if_pos h1]⟩
    · rw [if_neg h1]
      by_cases h2 : ocAnd (csOutcodes xmin ymin xmax ymax s).1
          (csOutcodes xmin ymin xmax ymax s).2 ≠ ocZero
      · exact ⟨false, by rw [if_pos h2]⟩
      · rw [if_neg h2]
        have hdec := cs_dec_clip xmin ymin xmax ymax s hxm hym ⟨h1, not_not.mp h2⟩
        exact ih (csClip xmin ymin xmax ymax s) (by omega)

theorem lineRect_some {α : Type} [LinearOrderedField α]
    (xmin ymin xmax ymax : α) (s : CSSeg α)
    (hxm : xmin ≤ xmax) (hym : ymin ≤ ymax) :
    ∃ b, lineRectangleIntersect xmin ymin xmax ymax s = some b :=
  csLoop_some_of_count xmin ymin xmax ymax hxm hym 4 s (ocCount_le_four _)

/-- C9 (amended): for every segment and every proper rectangle (xmin ≤ xmax,
ymin ≤ ymax), the Cohen-Sutherland loop of `_line_rectangle_intersect`
terminates within its 5 iterations, returning a boolean; and in every
clipping iteration the selected outside endpoint having the TOP or BOTTOM
bit forces the endpoints to differ in y, having the LEFT or RIGHT bit
forces them to differ in x (so no clip divides by zero), and the clip
strictly decreases the number of distinct outcode bits over the two
endpoints.  (For an inverted rectangle the strict decrease can fail, see
the counterexample.) -/
theorem c9_amended_terminates_and_safe_clip {α : Type} [LinearOrderedField α]
    (xmin ymin xmax ymax : α) (s : CSSeg α)
    (hxm : xmin ≤ xmax) (hym : ymin ≤ ymax) :
    (∃ b, lineRectangleIntersect xmin ymin xmax ymax s = some b) ∧
    (csClipCase xmin ymin xmax ymax s →
      (((csSelected xmin ymin xmax ymax s).top = true ∨
        (csSelected xmin ymin xmax ymax s).bottom = true) → s.y1 ≠ s.y2) ∧
      (((csSelected xmin ymin xmax ymax s).left = true ∨
        (csSelected xmin ymin xmax ymax s).right = true) → s.x1 ≠ s.x2) ∧
      csUnionCount xmin ymin xmax ymax (csClip xmin ymin xmax ymax s) <
        csUnionCount xmin ymin xmax ymax s) := by
  refine ⟨lineRect_some xmin ymin xmax ymax s hxm hym, fun hcase => ?_⟩
  obtain ⟨hy, hx⟩ := cs_divsafe xmin ymin xmax ymax s hcase
  exact ⟨hy, hx, cs_dec_clip xmin ymin xmax ymax s hxm hym hcase⟩

/-- C9 counterexample: with the rectangle tuple (0, 10, 10, 0) - the code
uses the tuple entries directly as xmin, ymin, xmax, ymax, so an inverted
rectangle is possible - and the segment (5,12)-(9,5), the loop is in its
clipping case, yet the clip does not strictly decrease the number of
distinct outcode bits: the TOP clip moves endpoint 1 to (83/7, 0), which
has the RIGHT and BOTTOM bits, so the union bit count stays 2. -/
theorem c9_counterexample_no_bit_decrease :
    csClipCase (0:ℚ) 10 10 0 ⟨5, 12, 9, 5⟩ ∧
    ¬ (csUnionCount (0:ℚ) 10 10 0 (csClip (0:ℚ) 10 10 0 ⟨5, 12, 9, 5⟩) <
       csUnionCount (0:ℚ) 10 10 0 ⟨5, 12, 9, 5⟩) := by
  have ho1 : computeOutcode (0:ℚ) 10 10 0 5 12 = ⟨false, false, false, true⟩ := by
    decide
  have ho2 : computeOutcode (0:ℚ) 10 10 0 9 5 = ⟨false, false, true, false⟩ := by
    decide
  have hne : (csOutcodes (0:ℚ) 10 10 0 ⟨5, 12, 9, 5⟩).1 ≠ ocZero := by decide
  have htop : (csOutcodes (0:ℚ) 10 10 0 ⟨5, 12, 9, 5⟩).1.top = true := by decide
  have hcase : csClipCase (0:ℚ) 10 10 0 ⟨5, 12, 9, 5⟩ := by
    constructor
    · rintro ⟨h1, h2⟩
      exact hne h1
    · show ocAnd (computeOutcode (0:ℚ) 10 10 0 5 12)
        (computeOutcode (0:ℚ) 10 10 0 9 5) = ocZero
      rw [ho1, ho2]
      decide
  refine ⟨hcase, ?_⟩
  rw [csClip_eq_top_p1 (0:ℚ) 10 10 0 ⟨5, 12, 9, 5⟩ hne htop]
  have hx : ((5:ℚ) + (9 - 5) * (0 - 12) / (5 - 12)) = 83 / 7 := by norm_num
  show ¬ (ocCount (ocUnion
      (computeOutcode (0:ℚ) 10 10 0 (5 + (9 - 5) * (0 - 12) / (5 - 12)) 0)
      (computeOutcode (0:ℚ) 10 10 0 9 5)) <
    ocCount (ocUnion (computeOutcode (0:ℚ) 10 10 0 5 12)
      (computeOutcode (0:ℚ) 10 10 0 9 5)))
  rw [hx]
  have hnew : computeOutcode (0:ℚ) 10 10 0 (83 / 7) 0 =
      ⟨false, true, true, false⟩ := by
    simp only [computeOutcode]
    norm_num
  rw [hnew, ho1, ho2]
  decide

theorem c9_amended_witness :
    (0:ℚ) ≤ 10 ∧ csClipCase (0:ℚ) 0 10 10 ⟨5, 20, 5, -5⟩ ∧
    (∃ b, lineRectangleIntersect (0:ℚ) 0 10 10 ⟨5, 20, 5, -5⟩ = some b) ∧
    (20:ℚ) ≠ (-5:ℚ) ∧
    csUnionCount (0:ℚ) 0 10 10 (csClip (0:ℚ) 0 10 10 ⟨5, 20, 5, -5⟩) <
      csUnionCount (0:ℚ) 0 10 10 ⟨5, 20, 5, -5⟩ := by
  have hcase : csClipCase (0:ℚ) 0 10 10 ⟨5, 20, 5, -5⟩ := by
    constructor
    · rintro ⟨h1, h2⟩
      exact absurd h1 (by decide)
    · decide
  have htop : (csSelected (0:ℚ) 0 10 10 ⟨5, 20, 5, -5⟩).top = true := by decide
  have T := c9_amended_terminates_and_safe_clip (0:ℚ) 0 10 10 ⟨5, 20, 5, -5⟩
    (by norm_num) (by norm_num)
  exact ⟨by norm_num, hcase, T.1, (T.2 hcase).1 (Or.inl htop), (T.2 hcase).2.2⟩

/-! ### Agreement of the fallible model with the total model on in-range inputs -/

theorem pyGet_eq_getD {A : Type} (d : A) :
    ∀ (l : List A) (i : ℕ), i < l.length → pyGet l i = some (l.getD i d)
  | [], i, h => absurd h (by simp)
  | a :: l, 0, _ => rfl
  | a :: l, i + 1, h => by
    simp only [pyGet, List.getD_cons_succ]
    exact pyGet_eq_getD d l i (by simpa using h)

theorem connAngleLoopE_eq {α : Type} [LinearOrderedField α] (ops : RealOps α)
    (starIdx : ℕ) (sx sy : ℤ) (positions : List (ℤ × ℤ)) :
    ∀ (conns : List (ℕ × ℕ)),
      (∀ c ∈ conns, c.1 < positions.length ∧ c.2 < positions.length) →
      connAngleLoopE ops starIdx sx sy positions conns =
        some (connectionAngles ops starIdx sx sy conns positions)
  | [], _ => rfl
  | c :: rest, hin => by
    have h1 := hin c (List.mem_cons_self c rest)
    have hrest : ∀ d ∈ rest, d.1 < positions.length ∧ d.2 < positions.length :=
      fun d hd => hin d (List.mem_cons_of_mem c hd)
    have hb : (if c.1 = starIdx then c.2 else c.1) < positions.length := by
      split
      · exact h1.2
      · exact h1.1
    by_cases hc : c.1 = starIdx ∨ c.2 = starIdx
    · simp only [connAngleLoopE, connectionAngles, List.filterMap_cons, if_pos hc,
        pyGet_eq_getD (0, 0) positions _ hb,
        connAngleLoopE_eq ops starIdx sx sy positions rest hrest]
    · simp only [connAngleLoopE, connectionAngles, List.filterMap_cons, if_neg hc,
        connAngleLoopE_eq ops starIdx sx sy positions rest hrest]

theorem linePenaltyLoopE_eq {α : Type} [LinearOrderedField α] (ops : RealOps α)
    (positions : List (ℤ × ℤ)) (tx ty : α) :
    ∀ (conns : List (ℕ × ℕ)) (s : α),
      (∀ c ∈ conns, c.1 < positions.length ∧ c.2 < positions.length) →
      linePenaltyLoopE ops positions tx ty conns s =
        some (linePenaltyFold ops conns positions tx ty s)
  | [], s, _ => rfl
  | c :: rest, s, hin => by
    have h1 := hin c (List.mem_cons_self c rest)
    have hrest : ∀ d ∈ rest, d.1 < positions.length ∧ d.2 < positions.length :=
      fun d hd => hin d (List.mem_cons_of_mem c hd)
    simp only [linePenaltyLoopE, linePenaltyFold, List.foldl_cons,
      pyGet_eq_getD (0, 0) positions c.1 h1.1,
      pyGet_eq_getD (0, 0) positions c.2 h1.2]
    exact linePenaltyLoopE_eq ops positions tx ty rest _ hrest

theorem sectorScoreE_eq {α : Type} [LinearOrderedField α] (ops : RealOps α)
    (conns : List (ℕ × ℕ)) (positions : List (ℤ × ℤ)) (occupied : List Box)
    (cfg : OverlayConfig) (sx sy : ℤ) (connAngs : List α) (θ : α)
    (hin : ∀ c ∈ conns, c.1 < positions.length ∧ c.2 < positions.length) :
    sectorScoreE ops conns positions occupied cfg sx sy connAngs θ =
      some (sectorScore ops conns positions occupied cfg sx sy connAngs θ) := by
  unfold sectorScoreE sectorScore
  exact linePenaltyLoopE_eq ops positions _ _ conns _ hin

theorem sectorScoresLoopE_eq {α : Type} [LinearOrderedField α] (ops : RealOps α)
    (conns : List (ℕ × ℕ)) (positions : List (ℤ × ℤ)) (occupied : List Box)
    (cfg : OverlayConfig) (sx sy : ℤ) (numSectors : ℕ) (connAngs : List α)
    (hin : ∀ c ∈ conns, c.1 < positions.length ∧ c.2 < positions.length) :
    ∀ (idxs : List ℕ),
      sectorScoresLoopE ops conns positions occupied cfg sx sy numSectors
          connAngs idxs =
        some (idxs.map (fun (i : ℕ) =>
          (((i : ℕ) : α) * (2 * ops.pi / ((numSectors : ℕ) : α)),
           sectorScore ops conns positions occupied cfg sx sy connAngs
             (((i : ℕ) : α) * (2 * ops.pi / ((numSectors : ℕ) : α))))))
  | [] => rfl
  | i :: rest => by
    simp only [sectorScoresLoopE, List.map_cons,
      sectorScoreE_eq ops conns positions occupied cfg sx sy connAngs _ hin,
      sectorScoresLoopE_eq ops conns positions occupied cfg sx sy numSectors
        connAngs hin rest]

theorem calculateSectorScoresE_eq {α : Type} [LinearOrderedField α]
    (ops : RealOps α) (starIdx : ℕ) (sx sy : ℤ) (conns : List (ℕ × ℕ))
    (positions : List (ℤ × ℤ)) (occupied : List Box) (cfg : OverlayConfig)
    (numSectors : ℕ)
    (hin : ∀ c ∈ conns, c.1 < positions.length ∧ c.2 < positions.length) :
    calculateSectorScoresE ops starIdx sx sy conns positions occupied cfg
        numSectors =
      some (calculateSectorScores ops starIdx sx sy conns positions occupied cfg
        numSectors) := by
  simp only [calculateSectorScoresE, calculateSectorScores,
    connAngleLoopE_eq ops starIdx sx sy positions conns hin,
    sectorScoresLoopE_eq ops conns positions occupied cfg sx sy numSectors
      (connectionAngles ops starIdx sx sy conns positions) hin
      (List.range numSectors)]

theorem findLabelPositionE_eq {α : Type} [LinearOrderedField α] [FloorRing α]
    (ops : RealOps α) (sx sy w h : ℤ) (occupied : List Box)
    (cfg : OverlayConfig) (allStars : List (ℤ × ℤ)) (starIdx : ℕ)
    (conns : List (ℕ × ℕ)) (positions : List (ℤ × ℤ))
    (hin : ∀ c ∈ conns, c.1 < positions.length ∧ c.2 < positions.length) :
    findLabelPositionE ops sx sy w h occupied cfg allStars starIdx conns
        positions =
      some (findLabelPosition ops sx sy w h occupied cfg allStars starIdx conns
        positions) := by
  simp only [findLabelPositionE, findLabelPosition,
    calculateSectorScoresE_eq ops starIdx sx sy conns positions occupied cfg 12
      hin]

theorem placeLoopE_eq {α : Type} [LinearOrderedField α] [FloorRing α]
    (ops : RealOps α) (cfg : OverlayConfig) (mappings : List LabelMapping)
    (conns : List (ℕ × ℕ)) (positions : List (ℤ × ℤ))
    (hin : ∀ c ∈ conns, c.1 < positions.length ∧ c.2 < positions.length) :
    ∀ (order : List (ℕ × ℕ)) (occupied : List Box),
      placeLoopE ops cfg mappings conns positions order occupied =
        some (placeLoop ops cfg mappings conns positions order occupied)
  | [], occupied => rfl
  | (idx, cnt) :: rest, occupied => by
    rcases hfind : findLabelPosition ops
        (mappings.getD idx ((0, 0), (0, 0))).1.1 (mappings.getD idx ((0, 0), (0, 0))).1.2
        (mappings.getD idx ((0, 0), (0, 0))).2.1 (mappings.getD idx ((0, 0), (0, 0))).2.2
        occupied cfg (mappings.map Prod.fst) idx conns positions with _ | ⟨x, y⟩
    · rw [placeLoop_cons_none ops cfg mappings conns positions idx cnt rest occupied
        (mappings.getD idx ((0, 0), (0, 0))).1.1 (mappings.getD idx ((0, 0), (0, 0))).1.2
        (mappings.getD idx ((0, 0), (0, 0))).2.1 (mappings.getD idx ((0, 0), (0, 0))).2.2
        rfl hfind]
      simp only [placeLoopE,
        findLabelPositionE_eq ops _ _ _ _ occupied cfg (mappings.map Prod.fst)
          idx conns positions hin, hfind,
        placeLoopE_eq ops cfg mappings conns positions hin rest occupied]
    · rw [placeLoop_cons_some ops cfg mappings conns positions idx cnt rest occupied
        (mappings.getD idx ((0, 0), (0, 0))).1.1 (mappings.getD idx ((0, 0), (0, 0))).1.2
        (mappings.getD idx ((0, 0), (0, 0))).2.1 (mappings.getD idx ((0, 0), (0, 0))).2.2
        x y rfl hfind]
      simp only [placeLoopE,
        findLabelPositionE_eq ops _ _ _ _ occupied cfg (mappings.map Prod.fst)
          idx conns positions hin, hfind,
        placeLoopE_eq ops cfg mappings conns positions hin rest
          (occupied ++ [mkLabelBox x y (mappings.getD idx ((0, 0), (0, 0))).2.1
            (mappings.getD idx ((0, 0), (0, 0))).2.2])]

theorem addTechLabelsE_eq {α : Type} [LinearOrderedField α] [FloorRing α]
    (ops : RealOps α) (cfg : OverlayConfig) (mappings : List LabelMapping)
    (conns : List (ℕ × ℕ)) (positions : List (ℤ × ℤ))
    (hin : ∀ c ∈ conns, c.1 < positions.length ∧ c.2 < positions.length) :
    addTechLabelsE ops cfg mappings conns positions =
      some (addTechLabels ops cfg mappings conns positions) :=
  placeLoopE_eq ops cfg mappings conns positions hin
    (processingOrder mappings.length conns) []

/-- C5 (amended): for inputs whose connections reference only in-range star
indices, the per-label search evaluates at most 12 candidate sectors and
returns a position or `None` without raising and without looping forever,
an unplaceable label is a recoverable per-label skip, and the run returns
one result per label; this is stated as the old boundedness/skip properties
of the total model together with the fallible model (in which `none` is a
raised `IndexError`) returning normally and agreeing with the total model
at every level.  For a connection referencing an out-of-range index the
code instead raises `IndexError` (see the counterexample), so the original
for-every-input claim fails. -/
theorem c5_amended_inrange_bounded_and_skip {α : Type} [LinearOrderedField α]
    [FloorRing α] (ops : RealOps α) (cfg : OverlayConfig)
    (mappings : List LabelMapping) (conns : List (ℕ × ℕ))
    (positions : List (ℤ × ℤ))
    (hin : ∀ c ∈ conns, c.1 < positions.length ∧ c.2 < positions.length) :
    (∀ (starIdx : ℕ) (sx sy : ℤ) (occupied : List Box),
      (calculateSectorScores ops starIdx sx sy conns positions occupied cfg
        12).length = 12) ∧
    (∀ (sx sy w h : ℤ) (occupied : List Box) (allStars : List (ℤ × ℤ))
        (starIdx : ℕ),
      findLabelPosition ops sx sy w h occupied cfg allStars starIdx conns
          positions =
        trySectors ops sx sy w h occupied cfg allStars
          (calculateSectorScores ops starIdx sx sy conns positions occupied cfg
            12)) ∧
    (∀ (order : List (ℕ × ℕ)) (occupied : List Box),
      (placeLoop ops cfg mappings conns positions order occupied).length =
        order.length) ∧
    (addTechLabels ops cfg mappings conns positions).length = mappings.length ∧
    (∀ (idx cnt : ℕ) (rest : List (ℕ × ℕ)) (occupied : List Box),
      findLabelPosition ops
        (mappings.getD idx ((0, 0), (0, 0))).1.1
        (mappings.getD idx ((0, 0), (0, 0))).1.2
        (mappings.getD idx ((0, 0), (0, 0))).2.1
        (mappings.getD idx ((0, 0), (0, 0))).2.2
        occupied cfg (mappings.map Prod.fst) idx conns positions = none →
      placeLoop ops cfg mappings conns positions ((idx, cnt) :: rest) occupied =
        none :: placeLoop ops cfg mappings conns positions rest occupied) ∧
    (∀ (starIdx : ℕ) (sx sy : ℤ) (occupied : List Box),
      calculateSectorScoresE ops starIdx sx sy conns positions occupied cfg 12 =
        some (calculateSectorScores ops starIdx sx sy conns positions occupied
          cfg 12)) ∧
    (∀ (sx sy w h : ℤ) (occupied : List Box) (allStars : List (ℤ × ℤ))
        (starIdx : ℕ),
      findLabelPositionE ops sx sy w h occupied cfg allStars starIdx conns
          positions =
        some (findLabelPosition ops sx sy w h occupied cfg allStars starIdx
          conns positions)) ∧
    addTechLabelsE ops cfg mappings conns positions =
      some (addTechLabels ops cfg mappings conns positions) := by
  obtain ⟨h1, h2, h3, h4, h5⟩ :=
    placement_bounded_and_skip ops cfg mappings conns positions
  refine ⟨h1, h2, h3, h4, h5, ?_, ?_, ?_⟩
  · intro starIdx sx sy occupied
    exact calculateSectorScoresE_eq ops starIdx sx sy conns positions occupied
      cfg 12 hin
  · intro sx sy w h occupied allStars starIdx
    exact findLabelPositionE_eq ops sx sy w h occupied cfg allStars starIdx
      conns positions hin
  · exact addTechLabelsE_eq ops cfg mappings conns positions hin

/-- C5 (counterexample): one star position but a connection (0, 1) - an
input C6 shows is never validated upstream.  `star_positions[1]` raises
`IndexError` at line 999, which propagates uncaught out of
`_calculate_sector_scores`, `_find_label_position` and `add_tech_labels`:
the fallible model returns `none` (exception) at every level, so the search
does not return a position-or-None and the pipeline produces no image. -/
theorem c5_counterexample_index_error :
    connAngleLoopE (⟨0, id, fun _ => 0, fun _ => 0, fun _ _ => 0⟩ : RealOps ℚ)
      0 500 500 [(500, 500)] [(0, 1)] = none ∧
    findLabelPositionE (⟨0, id, fun _ => 0, fun _ => 0, fun _ _ => 0⟩ : RealOps ℚ)
      500 500 0 0 [] ⟨1000, 1000, 900, 1000, 900, 900⟩ [(500, 500)] 0 [(0, 1)]
      [(500, 500)] = none ∧
    addTechLabelsE (⟨0, id, fun _ => 0, fun _ => 0, fun _ _ => 0⟩ : RealOps ℚ)
      ⟨1000, 1000, 900, 1000, 900, 900⟩ [((500, 500), (0, 0))] [(0, 1)]
      [(500, 500)] = none :=
  ⟨rfl, rfl, rfl⟩

/-- Witness for the amended C5 theorem at a concrete in-range input: two
star positions and the connection (0, 1); the fallible run returns
normally and agrees with the total run. -/
theorem c5_amended_witness :
    (∀ c ∈ [((0 : ℕ), (1 : ℕ))],
      c.1 < ([((500 : ℤ), (500 : ℤ)), (600, 600)] : List (ℤ × ℤ)).length ∧
      c.2 < ([((500 : ℤ), (500 : ℤ)), (600, 600)] : List (ℤ × ℤ)).length) ∧
    addTechLabelsE (⟨0, id, fun _ => 0, fun _ => 0, fun _ _ => 0⟩ : RealOps ℚ)
        ⟨1000, 1000, 900, 1000, 900, 900⟩ [((500, 500), (0, 0))] [(0, 1)]
        [(500, 500), (600, 600)] =
      some (addTechLabels (⟨0, id, fun _ => 0, fun _ => 0, fun _ _ => 0⟩ : RealOps ℚ)
        ⟨1000, 1000, 900, 1000, 900, 900⟩ [((500, 500), (0, 0))] [(0, 1)]
        [(500, 500), (600, 600)]) :=
  ⟨by decide,
   (c5_amended_inrange_bounded_and_skip
      (⟨0, id, fun _ => 0, fun _ => 0, fun _ _ => 0⟩ : RealOps ℚ)
      ⟨1000, 1000, 900, 1000, 900, 900⟩ [((500, 500), (0, 0))] [(0, 1)]
      [(500, 500), (600, 600)] (by decide)).2.2.2.2.2.2.2⟩
